import Mathlib

/-!
Boost.FSM: event dispatch, transitions and state switching.

A shallow embedding of `boost/fsm/state_machine.hpp`, `boost/fsm/transition.hpp`,
`boost/fsm/exceptions.hpp` and the `boost/fsm/detail/inh_st_*.hpp` steps.

Conventions of the embedding.

* A machine type (`basic_state_machine< StateListT, RetValT, TransitionListT >`) is a value of
  `machine_type n E V D R`: `n` states, event types `E`, event payloads `V`, the fields of all
  states `D`, the return type `R`.  A state type is named by its position `Fin n` in the state
  list, so `mpl::index_of< StateListT, StateT >::value` is `StateT.val`, and a static
  `switch_to< T >()` can only name a declared state, as in C++.
* The run-time object (`states_compound`: the root and every state) is the record
  `states_compound`; `calls` is a ghost trace of the user-supplied member functions the library
  has invoked, in order.
* Bodies of `on_process` handlers and of `transit` are terms of `body`: they read and write the
  fields, call `switch_to` on their own state object, return or throw.  The hooks
  `on_enter_state`, `on_leave_state` and `on_reset` work on the fields only and may throw.
* Function pointers to template instantiations are the constructors of `process_fun_t`.
* An array read is a list lookup; a read outside the array has no defined behaviour and gives
  `outcome.undefined`.
* A `locking_state_machine` is its base object and its address; the operations give the calls
  they make on mutexes, a mutex being known by the address of its owner.  The machines of a
  program are a `memory`, which holds the base object of the machine at each address.  States
  are sub-objects held by value, so a copy of the base object shares nothing with its source.
* `call_once` of `boost/detail/lightweight_call_once.hpp` and of the lock-free platform headers
  is a function of the trigger, the function object and the state of the program, for a call
  that no other call accompanies; the loops run with fuel.  The variants that take a lock get
  the results of the calls of the platform as arguments.  For the lock-free variants and for
  the BeOS variant with a semaphore there is also a step function of one thread, one atomic
  operation at a time, and a system of threads that take their steps in any order.
-/

namespace boost

/-- A `boost::any` holding an event: the dynamic type of the held value and the value. -/
structure any (E V : Type) where
  type : E
  value : V
deriving DecidableEq, Repr

namespace fsm

/-- State identifiers type, `typedef unsigned int state_id_t`. Identifiers are only compared. -/
abbrev state_id_t := Nat

/-- The identity of a type as `std::type_info` gives it: the name of the type. -/
abbrev type_info := String

/-! ## exceptions.hpp -/

/-- Base class for all exception types thrown by the library. -/
structure fsm_error where
  m_StateType : type_info
  m_StateID : state_id_t
  m_StateName : Option String
deriving DecidableEq, Repr

/-- An accessor to type info of the state in which the machine persisted when the error occurred. -/
def fsm_error.current_state_type (e : fsm_error) : type_info := e.m_StateType

/-- An accessor to identifier of the state in which the machine persisted when the error occurred. -/
def fsm_error.current_state_id (e : fsm_error) : state_id_t := e.m_StateID

/-- An accessor to the state name, as given on construction. -/
def fsm_error.state_name (e : fsm_error) : Option String := e.m_StateName

/-- An exception thrown in case of an attempt to use an invalid state identifier. -/
structure bad_state_id extends fsm_error where
  m_BadStateID : state_id_t
deriving DecidableEq, Repr

/-- The constructor of `bad_state_id` with state name provision. -/
def bad_state_id.mk4 (BadStateID : state_id_t) (StateName : String) (StateType : type_info)
    (StateID : state_id_t) : bad_state_id :=
  { m_StateType := StateType, m_StateID := StateID, m_StateName := some StateName,
    m_BadStateID := BadStateID }

/-- An accessor to the invalid state identifier. -/
def bad_state_id.state_id (e : bad_state_id) : state_id_t := e.m_BadStateID

/-- An exception thrown in case of an unexpected event detection. -/
structure unexpected_event (E V : Type) extends fsm_error where
  m_Event : any E V
deriving DecidableEq, Repr

/-- The constructor of `unexpected_event` with state name provision. -/
def unexpected_event.mk4 {E V : Type} (Event : any E V) (StateName : String)
    (StateType : type_info) (StateID : state_id_t) : unexpected_event E V :=
  { m_StateType := StateType, m_StateID := StateID, m_StateName := some StateName,
    m_Event := Event }

/-- An accessor to the unexpected event. -/
def unexpected_event.event {E V : Type} (e : unexpected_event E V) : any E V := e.m_Event

/-- Everything that can be thrown through the library: its two errors, and whatever user code
throws (named by its `what`). -/
inductive exception (E V : Type) where
  | bad_state_id (e : fsm.bad_state_id)
  | unexpected_event (e : fsm.unexpected_event E V)
  | user (what : String)
deriving DecidableEq, Repr

/-- How a call ends: it returns, it throws, or it has read outside an array. -/
inductive outcome (E V α : Type) where
  | returned (r : α)
  | thrown (e : exception E V)
  | undefined
deriving DecidableEq, Repr

/-- The function constructs a string describing the type (the branch for compilers whose
`type_info::name()` format is not known: the name as it is). -/
def construct_type_name (info : type_info) : String := info

namespace aux

/-! ## User code -/

/-- The body of a member function of a state (`on_process`, or `transit` run on a state):
statements on `this`, ending in `return` or `throw`, or in an operation that C++ leaves undefined
(such as a signed overflow). -/
inductive body (n : Nat) (D α : Type) where
  | ret (r : α)
  | throw (what : String)
  | modify (f : D → D) (k : body n D α)
  | read (k : D → body n D α)
  | switch_to (AnotherStateT : Fin n) (k : body n D α)
  | switch_to_id (next_state_id : state_id_t) (k : body n D α)
  | undefined

/-- A hook of a state (`on_enter_state`, `on_leave_state`, `on_reset`): the fields it leaves, and
what it threw, if it threw. -/
abbrev hook (D : Type) := D → D × Option String

/-- A transition rule: the compile-time predicate `is_applicable< StateT, EventT >` and the
action `transit(state, event)`, run on the state object it is given. -/
structure rule (n : Nat) (E V D : Type) where
  name : type_info
  is_applicable : Fin n → E → Bool
  transit : Fin n → any E V → body n D Unit

/-- A state class: its `typeid`, its own `get_state_name` if it defines one, its
`transitions_type_list`, the `on_process` overload chosen for each event type (`none` when only
the catch-all of `state_impl` is viable), and its hooks. -/
structure state (n : Nat) (E V D R : Type) where
  type : type_info
  get_state_name : Option String
  transitions_type_list : List (rule n E V D)
  on_process : E → Option (V → body n D R)
  on_enter_state : hook D
  on_leave_state : hook D
  on_reset : hook D

/-- The defaults of `basic_state`: no transitions, no handlers, hooks that do nothing, the default
state name. -/
def basic_state {n : Nat} {E V D R : Type} (type : type_info) : state n E V D R :=
  { type := type, get_state_name := none, transitions_type_list := [],
    on_process := fun _ => none,
    on_enter_state := fun d => (d, none),
    on_leave_state := fun d => (d, none),
    on_reset := fun d => (d, none) }

/-- An instantiation `basic_state_machine< StateListT, RetValT, TransitionListT >`, with the
values the state constructors give to the fields. -/
structure machine_type (n : Nat) (E V D R : Type) where
  states_type_list : Fin n → state n E V D R
  transitions_type_list : List (rule n E V D)
  fields : D

/-- A call of a user-supplied member function made by the library (the ghost trace). -/
inductive call (n : Nat) (E V : Type) where
  | on_process (StateT : Fin n) (evt : any E V)
  | transit (TransitionT : type_info) (StateT : Fin n) (evt : any E V)
  | on_enter_state (StateT : Fin n)
  | on_leave_state (StateT : Fin n)
  | on_reset (StateT : Fin n)
  | unexpected_event_handler (evt : any E V) (state_type : type_info) (state_id : state_id_t)
deriving DecidableEq, Repr

/-- The type of the unexpected events handler,
`function3< return_type, any const&, std::type_info const&, state_id_t >`. -/
abbrev unexpected_event_handler_t (E V R : Type) :=
  any E V → type_info → state_id_t → Except String R

/-- The complete object: `state_machine_root` (current state, unexpected events handler), the
fields of the states, and the ghost trace. -/
structure states_compound (n : Nat) (E V D R : Type) where
  m_CurrentState : state_id_t
  m_UnexpectedEventHandler : Option (unexpected_event_handler_t E V R)
  fields : D
  calls : List (call n E V)

/-- An internal structure that holds information about a single state. `Shift` is the offset of
the state sub-object from the root: it names the sub-object. -/
structure state_info (n : Nat) where
  Shift : Fin n
  pTypeInfo : type_info
  pGetStateName : String
deriving DecidableEq, Repr


section library

variable {n : Nat} {E V D R : Type}

/-! ## basic_state: static members -/

/-- The constant `state_id` of `basic_state`: `mpl::index_of< StateListT, StateT >::value`. -/
def state_id (StateT : Fin n) : state_id_t := StateT.val

/-- The name accessor of a state class: its own `get_state_name` if it defines one, otherwise the
one of `basic_state`, `g_DefaultStateName` (made by `construct_type_name(typeid(StateT))`). -/
def state.name (S : state n E V D R) : String :=
  match S.get_state_name with
  | some name => name
  | none => construct_type_name S.type

/-! ## inherited_states: init_states_info -/

/-- One step of `inh_st_init_states_info.hpp`: the state info of one state. -/
def init_states_info_step (M : machine_type n E V D R) (StateT : Fin n) : state_info n :=
  { Shift := StateT,
    pTypeInfo := (M.states_type_list StateT).type,
    pGetStateName := (M.states_type_list StateT).name }

/-- The method `init_states_info` of `inherited_states< StateListT, RetValT, It, SizeV >`, the
iterator and the size being given as the states that remain: the specialisations for one to five
states, and the general case, which fills five and goes on with `rest_states`. -/
def inherited_states.init_states_info (M : machine_type n E V D R) :
    List (Fin n) → List (state_info n)
  | [] => []
  | [s1] => [init_states_info_step M s1]
  | [s1, s2] => [init_states_info_step M s1, init_states_info_step M s2]
  | [s1, s2, s3] =>
    [init_states_info_step M s1, init_states_info_step M s2, init_states_info_step M s3]
  | [s1, s2, s3, s4] =>
    [init_states_info_step M s1, init_states_info_step M s2, init_states_info_step M s3,
     init_states_info_step M s4]
  | [s1, s2, s3, s4, s5] =>
    [init_states_info_step M s1, init_states_info_step M s2, init_states_info_step M s3,
     init_states_info_step M s4, init_states_info_step M s5]
  | s1 :: s2 :: s3 :: s4 :: s5 :: rest_states =>
    init_states_info_step M s1 :: init_states_info_step M s2 :: init_states_info_step M s3 ::
    init_states_info_step M s4 :: init_states_info_step M s5 ::
    inherited_states.init_states_info M rest_states

/-- The array `g_StatesInfoHolder.m_StatesInfo` once `init` has run (every constructor runs it
before anything else can use the machine), filled by `states_compound::init_states_info` from
`mpl::begin< StateListT >` with `mpl::size< StateListT >` states. -/
def g_StatesInfoHolder (M : machine_type n E V D R) : List (state_info n) :=
  inherited_states.init_states_info M (List.finRange n)

/-! ## state_machine_root -/

/-- Number of states in the state machine. -/
def states_count (_M : machine_type n E V D R) : Nat := n

/-- The method appends to the ghost trace. -/
def states_compound.record (c : states_compound n E V D R) (x : call n E V) :
    states_compound n E V D R :=
  { c with calls := c.calls ++ [x] }

/-- The method returns current state identifier. -/
def get_current_state_id (c : states_compound n E V D R) : state_id_t := c.m_CurrentState

/-- The method returns state information by state identifier, `m_pStatesInfo[state_id]`. -/
def _get_state_info (M : machine_type n E V D R) (state_id : state_id_t) :
    Option (state_info n) :=
  (g_StatesInfoHolder M)[state_id]?

/-- The method changes current state identifier. -/
def _set_current_state (c : states_compound n E V D R) (state_id : state_id_t) :
    states_compound n E V D R :=
  { c with m_CurrentState := state_id }

/-- The method returns current state type info, `*m_pStatesInfo[m_CurrentState].pTypeInfo`. -/
def get_current_state_type (M : machine_type n E V D R) (c : states_compound n E V D R) :
    Option type_info :=
  (_get_state_info M c.m_CurrentState).map (fun info => info.pTypeInfo)

/-- The method returns current state name, `(*m_pStatesInfo[m_CurrentState].pGetStateName)()`. -/
def get_current_state_name (M : machine_type n E V D R) (c : states_compound n E V D R) :
    Option String :=
  (_get_state_info M c.m_CurrentState).map (fun info => info.pGetStateName)

/-- The expression `bad_state_id(state_id, get_current_state_name(), get_current_state_type(),
get_current_state_id())` thrown by the accessors by identifier. -/
def throw_bad_state_id (M : machine_type n E V D R) (c : states_compound n E V D R)
    (state_id : state_id_t) {α : Type} : outcome E V α :=
  match get_current_state_name M c, get_current_state_type M c with
  | some name, some type =>
    .thrown (.bad_state_id (bad_state_id.mk4 state_id name type (get_current_state_id c)))
  | _, _ => .undefined

/-- The method returns a state type info; throws `bad_state_id` if `state_id` is invalid. -/
def get_state_type (M : machine_type n E V D R) (c : states_compound n E V D R)
    (state_id : state_id_t) : outcome E V type_info :=
  if state_id < states_count M then
    match _get_state_info M state_id with
    | some info => .returned info.pTypeInfo
    | none => .undefined
  else
    throw_bad_state_id M c state_id

/-- The method returns a state name; throws `bad_state_id` if `state_id` is invalid. -/
def get_state_name (M : machine_type n E V D R) (c : states_compound n E V D R)
    (state_id : state_id_t) : outcome E V String :=
  if state_id < states_count M then
    match _get_state_info M state_id with
    | some info => .returned info.pGetStateName
    | none => .undefined
  else
    throw_bad_state_id M c state_id

/-- The method sets an unexpected events handler. Old handler, if it was, is lost. -/
def set_unexpected_event_handler (c : states_compound n E V D R)
    (handler : unexpected_event_handler_t E V R) : states_compound n E V D R :=
  { c with m_UnexpectedEventHandler := some handler }

/-- The method resets the unexpected events handler to the default. -/
def set_default_unexpected_event_handler (c : states_compound n E V D R) :
    states_compound n E V D R :=
  { c with m_UnexpectedEventHandler := none }

/-- The method invokes unexpected events handler or throws `unexpected_event` if no handler is
set. -/
def _on_unexpected_event (M : machine_type n E V D R) (c : states_compound n E V D R)
    (evt : any E V) (state_type : type_info) (state_id : state_id_t) :
    states_compound n E V D R × outcome E V R :=
  match c.m_UnexpectedEventHandler with
  | some handler =>
    match handler evt state_type state_id with
    | .ok r => (c.record (.unexpected_event_handler evt state_type state_id), .returned r)
    | .error what =>
      (c.record (.unexpected_event_handler evt state_type state_id), .thrown (.user what))
  | none =>
    match get_current_state_name M c with
    | some name => (c, .thrown (.unexpected_event (unexpected_event.mk4 evt name state_type state_id)))
    | none => (c, .undefined)

/-! ## basic_state: switch_to -/

/-- The method performs a transition to another state (static version),
`basic_state< StateT, .. >::switch_to< AnotherStateT >()`, called on the state object `StateT`. -/
def switch_to (M : machine_type n E V D R) (StateT AnotherStateT : Fin n)
    (c : states_compound n E V D R) : states_compound n E V D R × outcome E V Unit :=
  let next_state_id : state_id_t := AnotherStateT.val
  if next_state_id != state_id StateT then
    -- Notify the current state about leaving
    let c1 := c.record (.on_leave_state StateT)
    match (M.states_type_list StateT).on_leave_state c1.fields with
    | (d1, some what) => ({ c1 with fields := d1 }, .thrown (.user what))
    | (d1, none) =>
      let c2 := { c1 with fields := d1 }
      -- Notify the target state about entering
      match _get_state_info M next_state_id with
      | none => (c2, .undefined)
      | some _info =>
        -- Avoid calling handler virtually
        let c3 := c2.record (.on_enter_state AnotherStateT)
        match (M.states_type_list AnotherStateT).on_enter_state c3.fields with
        | (d2, some what) => ({ c3 with fields := d2 }, .thrown (.user what))
        | (d2, none) =>
          -- Change current state
          (_set_current_state { c3 with fields := d2 } next_state_id, .returned ())
  else
    (c, .returned ())

/-- The method performs a transition to another state (dynamic version),
`basic_state< StateT, .. >::switch_to(state_id_t)`, called on the state object `StateT`. -/
def switch_to_id (M : machine_type n E V D R) (StateT : Fin n) (next_state_id : state_id_t)
    (c : states_compound n E V D R) : states_compound n E V D R × outcome E V Unit :=
  if next_state_id != state_id StateT then
    if next_state_id < states_count M then
      -- Notify the current state about leaving
      let c1 := c.record (.on_leave_state StateT)
      match (M.states_type_list StateT).on_leave_state c1.fields with
      | (d1, some what) => ({ c1 with fields := d1 }, .thrown (.user what))
      | (d1, none) =>
        let c2 := { c1 with fields := d1 }
        -- Notify the target state about entering
        match _get_state_info M next_state_id with
        | none => (c2, .undefined)
        | some info =>
          -- the virtual call on the state_root found at info.Shift
          let c3 := c2.record (.on_enter_state info.Shift)
          match (M.states_type_list info.Shift).on_enter_state c3.fields with
          | (d2, some what) => ({ c3 with fields := d2 }, .thrown (.user what))
          | (d2, none) =>
            -- Change current state
            (_set_current_state { c3 with fields := d2 } next_state_id, .returned ())
    else
      -- Invalid state identifier detected
      match get_current_state_name M c with
      | some name =>
        (c, .thrown (.bad_state_id
          (bad_state_id.mk4 next_state_id name (M.states_type_list StateT).type (state_id StateT))))
      | none => (c, .undefined)
  else
    (c, .returned ())

/-- Running the body of a member function on the state object `StateT`. A call that does not
return ends the body with what it threw. -/
def run (M : machine_type n E V D R) (StateT : Fin n) {α : Type} :
    body n D α → states_compound n E V D R → states_compound n E V D R × outcome E V α
  | .ret r, c => (c, .returned r)
  | .throw what, c => (c, .thrown (.user what))
  | .modify f k, c => run M StateT k { c with fields := f c.fields }
  | .read k, c => run M StateT (k c.fields) c
  | .switch_to AnotherStateT k, c =>
    match switch_to M StateT AnotherStateT c with
    | (c1, .returned _) => run M StateT k c1
    | (c1, .thrown e) => (c1, .thrown e)
    | (c1, .undefined) => (c1, .undefined)
  | .switch_to_id next_state_id k, c =>
    match switch_to_id M StateT next_state_id c with
    | (c1, .returned _) => run M StateT k c1
    | (c1, .thrown e) => (c1, .thrown e)
    | (c1, .undefined) => (c1, .undefined)
  | .undefined, c => (c, .undefined)

/-! ## state_dispatcher -/

/-- A function pointer of type `process_fun_t` held in `entry::first`: an instantiation of
`deliver_event< StateT, EventT >` or of `perform_transition< StateT, TransitionT, EventT >`
(`EventT` is the event type of the dispatcher that holds the entry). -/
inductive process_fun_t (n : Nat) (E V D : Type) where
  | deliver_event (StateT : Fin n)
  | perform_transition (StateT : Fin n) (TransitionT : rule n E V D)

/-- A dispatching map entry. `first` is called to execute the transition. `second` is called to
deliver the event: only instantiations `deliver_event< StateT, EventT >` are ever stored there,
and the entry holds the `StateT` of the instantiation. -/
structure entry (n : Nat) (E V D : Type) where
  first : process_fun_t n E V D
  second : Fin n

/-- The two overloads of `state_machine_access::do_init_process_functions`: the one for
`mpl::true_` (no transition found, the iterator is the end of the list) and the one for
`mpl::false_` (the iterator points at a rule). -/
def do_init_process_functions (StateT : Fin n) (transition_it_t : Option (rule n E V D)) :
    entry n E V D :=
  match transition_it_t with
  | none => { first := .deliver_event StateT, second := StateT }
  | some TransitionT => { first := .perform_transition StateT TransitionT, second := StateT }

/-- The complete transitions list of a state: `mpl::joint_view` of the ones that are defined in
the state and the ones of the state machine. -/
def complete_transitions_type_list (M : machine_type n E V D R) (StateT : Fin n) :
    List (rule n E V D) :=
  (M.states_type_list StateT).transitions_type_list ++ M.transitions_type_list

/-- One step of `inh_st_init_process_functions.hpp`: find an applicable transition in the
complete list (`mpl::find_if` with `applicable_transition_pred< StateT, EventT >`) and fill the
function pointers. -/
def init_process_functions_step (M : machine_type n E V D R) (EventT : E) (StateT : Fin n) :
    entry n E V D :=
  do_init_process_functions StateT
    ((complete_transitions_type_list M StateT).find? (fun T => T.is_applicable StateT EventT))

/-- The method `init_process_functions` of `inherited_states< StateListT, RetValT, It, SizeV >`:
the specialisations for one to five states, and the general case. -/
def inherited_states.init_process_functions (M : machine_type n E V D R) (EventT : E) :
    List (Fin n) → List (entry n E V D)
  | [] => []
  | [s1] => [init_process_functions_step M EventT s1]
  | [s1, s2] => [init_process_functions_step M EventT s1, init_process_functions_step M EventT s2]
  | [s1, s2, s3] =>
    [init_process_functions_step M EventT s1, init_process_functions_step M EventT s2,
     init_process_functions_step M EventT s3]
  | [s1, s2, s3, s4] =>
    [init_process_functions_step M EventT s1, init_process_functions_step M EventT s2,
     init_process_functions_step M EventT s3, init_process_functions_step M EventT s4]
  | [s1, s2, s3, s4, s5] =>
    [init_process_functions_step M EventT s1, init_process_functions_step M EventT s2,
     init_process_functions_step M EventT s3, init_process_functions_step M EventT s4,
     init_process_functions_step M EventT s5]
  | s1 :: s2 :: s3 :: s4 :: s5 :: rest_states =>
    init_process_functions_step M EventT s1 :: init_process_functions_step M EventT s2 ::
    init_process_functions_step M EventT s3 :: init_process_functions_step M EventT s4 ::
    init_process_functions_step M EventT s5 ::
    inherited_states.init_process_functions M EventT rest_states

/-- The only dispatcher instance of `state_dispatcher< EventT, StateMachineT >`: its array
`m_Entries` as the constructor fills it. -/
def state_dispatcher (M : machine_type n E V D R) (EventT : E) : List (entry n E V D) :=
  inherited_states.init_process_functions M EventT (List.finRange n)

/-! ## inherited_states: on_reset -/

/-- One step of `inh_st_on_reset.hpp`: `try { stateN_impl_type::on_reset(); } catch(...) {}`. -/
def on_reset_step (M : machine_type n E V D R) (StateT : Fin n)
    (c : states_compound n E V D R) : states_compound n E V D R :=
  let c1 := c.record (.on_reset StateT)
  { c1 with fields := ((M.states_type_list StateT).on_reset c1.fields).1 }

/-- The method `on_reset` of `inherited_states< StateListT, RetValT, It, SizeV >`: the
specialisations for one to five states, and the general case. -/
def inherited_states.on_reset (M : machine_type n E V D R) :
    List (Fin n) → states_compound n E V D R → states_compound n E V D R
  | [], c => c
  | [s1], c => on_reset_step M s1 c
  | [s1, s2], c => on_reset_step M s2 (on_reset_step M s1 c)
  | [s1, s2, s3], c => on_reset_step M s3 (on_reset_step M s2 (on_reset_step M s1 c))
  | [s1, s2, s3, s4], c =>
    on_reset_step M s4 (on_reset_step M s3 (on_reset_step M s2 (on_reset_step M s1 c)))
  | [s1, s2, s3, s4, s5], c =>
    on_reset_step M s5 (on_reset_step M s4 (on_reset_step M s3 (on_reset_step M s2
      (on_reset_step M s1 c))))
  | s1 :: s2 :: s3 :: s4 :: s5 :: rest_states, c =>
    inherited_states.on_reset M rest_states
      (on_reset_step M s5 (on_reset_step M s4 (on_reset_step M s3 (on_reset_step M s2
        (on_reset_step M s1 c)))))

/-! ## basic_state_machine -/

/-- Default constructor: the states are constructed, the root starts in state 0 with no
unexpected events handler. -/
def basic_state_machine (M : machine_type n E V D R) : states_compound n E V D R :=
  { m_CurrentState := 0, m_UnexpectedEventHandler := none, fields := M.fields, calls := [] }

/-- A constructor with automatic unexpected events handler setting. -/
def basic_state_machine_handler (M : machine_type n E V D R)
    (handler : unexpected_event_handler_t E V R) : states_compound n E V D R :=
  set_unexpected_event_handler (basic_state_machine M) handler

/-- Copying constructor of `state_machine` (and the implicit assignment): every member is
copied. -/
def state_machine_copy (that : states_compound n E V D R) : states_compound n E V D R := that

/-- The method delivers the event to the state: `state_impl< StateT, .. >::on_process(Event)`,
which is the handler of the state class for the event type, or else the catch-all of `state_impl`
that reports an unexpected event. -/
def deliver_event (M : machine_type n E V D R) (StateT : Fin n) (Event : any E V)
    (States : states_compound n E V D R) : states_compound n E V D R × outcome E V R :=
  match (M.states_type_list StateT).on_process Event.type with
  | some handler => run M StateT (handler Event.value) (States.record (.on_process StateT Event))
  | none =>
    _on_unexpected_event M States Event (M.states_type_list StateT).type (state_id StateT)

/-- The method performs automatic transition and passes the event to the state. -/
def perform_transition (M : machine_type n E V D R) (StateT : Fin n) (TransitionT : rule n E V D)
    (Event : any E V) (States : states_compound n E V D R) :
    states_compound n E V D R × outcome E V R :=
  -- Perform the transition
  match run M StateT (TransitionT.transit StateT Event)
      (States.record (.transit TransitionT.name StateT Event)) with
  | (c1, .thrown e) => (c1, .thrown e)
  | (c1, .undefined) => (c1, .undefined)
  | (c1, .returned _) =>
    -- Since the transition might have changed the state
    -- we have to perform second dispatch to deliver the event to the actual state.
    match (state_dispatcher M Event.type)[get_current_state_id c1]? with
    | none => (c1, .undefined)
    | some e => deliver_event M e.second Event c1

/-- Calling a function pointer of type `process_fun_t`. -/
def call_process_fun (M : machine_type n E V D R) (f : process_fun_t n E V D)
    (Event : any E V) (States : states_compound n E V D R) :
    states_compound n E V D R × outcome E V R :=
  match f with
  | .deliver_event StateT => deliver_event M StateT Event States
  | .perform_transition StateT TransitionT => perform_transition M StateT TransitionT Event States

/-- Event processing routine:
`(dispatcher_type::get()[get_current_state_id()].first)(m_States, evt)`. -/
def process (M : machine_type n E V D R) (evt : any E V) (c : states_compound n E V D R) :
    states_compound n E V D R × outcome E V R :=
  match (state_dispatcher M evt.type)[get_current_state_id c]? with
  | none => (c, .undefined)
  | some e => call_process_fun M e.first evt c

/-- The method checks if the state machine is in a specified state. -/
def is_in_state (StateT : Fin n) (c : states_compound n E V D R) : Bool :=
  StateT.val == get_current_state_id c

/-- The method resets the state machine to its initial state. -/
def reset (M : machine_type n E V D R) (c : states_compound n E V D R) :
    states_compound n E V D R :=
  _set_current_state (inherited_states.on_reset M (List.finRange n) c) 0

end library

end aux

/-! ## transition.hpp -/

section transitions

variable {n : Nat} {E V D : Type}

/-- Base class for transitions: `transit` performs `state.switch_to< NextStateT >()`. -/
def basic_transition.transit (NextStateT : Fin n) : aux.body n D Unit :=
  .switch_to NextStateT (.ret ())

/-- The first template argument of `transition`: the tag `any_state`, or a state type. -/
inductive current_state_t (n : Nat) where
  | any_state
  | state (CurrentStateT : Fin n)
deriving DecidableEq, Repr

/-- A simple transition rule implementation, `transition< CurrentStateT, EventT, NextStateT >`,
with its specialization for `any_state`. -/
def transition [DecidableEq E] (name : type_info) (CurrentStateT : current_state_t n)
    (EventT : E) (NextStateT : Fin n) : aux.rule n E V D :=
  { name := name,
    is_applicable := fun StateT EvtT =>
      match CurrentStateT with
      | .any_state => decide (EvtT = EventT)
      | .state C => decide (C = StateT) && decide (EvtT = EventT),
    transit := fun _ _ => basic_transition.transit NextStateT }

end transitions

/-- The closure of the constructors under the public operations of the machine: the machine
states a user of `state_machine` can observe. -/
inductive aux.reachable {n : Nat} {E V D R : Type} (M : aux.machine_type n E V D R) :
    aux.states_compound n E V D R → Prop where
  | default_constructor : aux.reachable M (aux.basic_state_machine M)
  | handler_constructor (handler : aux.unexpected_event_handler_t E V R) :
    aux.reachable M (aux.basic_state_machine_handler M handler)
  | copy (c : aux.states_compound n E V D R) :
    aux.reachable M c → aux.reachable M (aux.state_machine_copy c)
  | process (evt : any E V) (c : aux.states_compound n E V D R) :
    aux.reachable M c → aux.reachable M (aux.process M evt c).1
  | reset (c : aux.states_compound n E V D R) :
    aux.reachable M c → aux.reachable M (aux.reset M c)
  | set_unexpected_event_handler (handler : aux.unexpected_event_handler_t E V R)
    (c : aux.states_compound n E V D R) :
    aux.reachable M c → aux.reachable M (aux.set_unexpected_event_handler c handler)
  | set_default_unexpected_event_handler (c : aux.states_compound n E V D R) :
    aux.reachable M c → aux.reachable M (aux.set_default_unexpected_event_handler c)

/-- The calls that `switch_to` makes: the leave and enter hooks. -/
def aux.call.is_switch_hook {n : Nat} {E V : Type} : aux.call n E V → Bool
  | .on_enter_state _ => true
  | .on_leave_state _ => true
  | _ => false

/-- What a run of user code on a state can have done to the machine: it has appended calls of
leave and enter hooks to the trace, the current state is the old one or one whose enter hook is
among those calls, and the unexpected events handler is the old one. -/
def aux.switched {n : Nat} {E V D R : Type} (c c1 : aux.states_compound n E V D R) : Prop :=
  ∃ hooks : List (aux.call n E V),
    c1.calls = c.calls ++ hooks ∧ (∀ x ∈ hooks, x.is_switch_hook = true) ∧
    (c1.m_CurrentState = c.m_CurrentState ∨
      ∃ T : Fin n, T.val = c1.m_CurrentState ∧ aux.call.on_enter_state T ∈ hooks) ∧
    c1.m_UnexpectedEventHandler = c.m_UnexpectedEventHandler

/-- The state that receives an event in `process`, and the machine as it is then: the current
state, when no rule is applicable to it and the event type; otherwise the state that is current
when the `transit` of the first applicable rule, run on the current state, has returned. -/
inductive aux.receives {n : Nat} {E V D R : Type} (M : aux.machine_type n E V D R)
    (evt : any E V) (c : aux.states_compound n E V D R) :
    Fin n → aux.states_compound n E V D R → Prop where
  | direct (S : Fin n) (hc : c.m_CurrentState = aux.state_id S)
    (hr : ∀ T ∈ aux.complete_transitions_type_list M S, T.is_applicable S evt.type = false) :
    aux.receives M evt c S c
  | after_transit (S T : Fin n) (R0 : aux.rule n E V D) (pre post : List (aux.rule n E V D))
    (c1 : aux.states_compound n E V D R) (hc : c.m_CurrentState = aux.state_id S)
    (hl : aux.complete_transitions_type_list M S = pre ++ R0 :: post)
    (hR : R0.is_applicable S evt.type = true)
    (hpre : ∀ T ∈ pre, T.is_applicable S evt.type = false)
    (hrun : aux.run M S (R0.transit S evt) (c.record (.transit R0.name S evt))
      = (c1, .returned ()))
    (hT : c1.m_CurrentState = aux.state_id T) :
    aux.receives M evt c T c1

/-- The calls of reset hooks. -/
def aux.call.is_reset_hook {n : Nat} {E V : Type} : aux.call n E V → Bool
  | .on_reset _ => true
  | _ => false

end fsm

end boost

/-! ## libs/fsm/test/src/events.cpp -/

namespace EventsTest

open boost boost.fsm boost.fsm.aux

/-- The tags of the events: `fsm::event< Add, int >`, .., `fsm::event_c< Memorize, int >`,
`fsm::event_c< GetMemory, int& >`. -/
inductive Event where
  | Add | Substract | Multiply | Divide | Memorize | GetMemory
deriving DecidableEq, Repr

/-- State `Calculating`, first in `StatesList_t`. -/
def Calculating : Fin 2 := 0

/-- State `Overflow`, second in `StatesList_t`. -/
def Overflow : Fin 2 := 1

/-- The class with common data: `int Memory`, 0 on construction. -/
structure CommonData where
  Memory : Int
deriving DecidableEq, Repr

/-- The result of an `int` operation: undefined when it leaves the range of a 32 bit `int`. -/
def int_result (x : Int) (k : Int → body 2 CommonData Int) : body 2 CommonData Int :=
  if -2147483648 ≤ x ∧ x ≤ 2147483647 then k x else .undefined

/-- The method `CommonState::check_bounds`. -/
def check_bounds (k : body 2 CommonData Int) : body 2 CommonData Int :=
  .read fun d =>
    if d.Memory > 100 ∨ d.Memory < -100 then .switch_to Overflow k else k

/-- The handler `CommonState::on_process(fsm::event_c< Memorize, int > const&)`. -/
def on_process_Memorize (evt : Int) : body 2 CommonData Int :=
  .modify (fun _ => { Memory := evt })
    (.switch_to Calculating
      (check_bounds (.read fun d => .ret d.Memory)))

/-- The handler `CommonState::on_process(fsm::event_c< GetMemory, int& > const&)`; the reference
in the event belongs to the caller, the machine sees the returned value. -/
def on_process_GetMemory (_evt : Int) : body 2 CommonData Int :=
  .read fun d => .ret d.Memory

/-- The handlers of `Calculating` for the four operations: the operation on `Memory`,
`check_bounds()`, `return Memory`. -/
def on_process_operation (op : Int → Option Int) : body 2 CommonData Int :=
  .read fun d =>
    match op d.Memory with
    | none => .undefined
    | some x =>
      int_result x fun x =>
        .modify (fun _ => { Memory := x }) (check_bounds (.read fun d => .ret d.Memory))

/-- Implementation of `Calculating`. -/
def CalculatingState : state 2 Event Int CommonData Int :=
  { (basic_state "EventsTest::Calculating" : state 2 Event Int CommonData Int) with
    on_process := fun
      | .Add => some fun evt => on_process_operation fun m => some (m + evt)
      | .Substract => some fun evt => on_process_operation fun m => some (m - evt)
      | .Multiply => some fun evt => on_process_operation fun m => some (m * evt)
      | .Divide => some fun evt =>
        on_process_operation fun m => if evt = 0 then none else some (Int.tdiv m evt)
      | .Memorize => some on_process_Memorize
      | .GetMemory => some on_process_GetMemory }

/-- Implementation of `Overflow`. -/
def OverflowState : state 2 Event Int CommonData Int :=
  { (basic_state "EventsTest::Overflow" : state 2 Event Int CommonData Int) with
    on_process := fun
      | .Memorize => some on_process_Memorize
      | .GetMemory => some on_process_GetMemory
      | _ => none }

/-- State machine type declaration, `fsm::state_machine< StatesList_t, int >`. -/
def StreamCalc_t : machine_type 2 Event Int CommonData Int :=
  { states_type_list := fun i => if i = Calculating then CalculatingState else OverflowState,
    transitions_type_list := [],
    fields := { Memory := 0 } }

/-- The calculator after `process(Memorize(1000))` in a new machine: it is in `Overflow`. -/
def in_Overflow : states_compound 2 Event Int CommonData Int :=
  (process StreamCalc_t ⟨.Memorize, 1000⟩ (basic_state_machine StreamCalc_t)).1

/-- The calculator inside `process(Memorize(1000))` begun in `Overflow`, when the handler, run on
`Overflow`, has stored 1000 and has called `switch_to< Calculating >()`, and is about to call
`check_bounds()`. -/
def at_check_bounds : states_compound 2 Event Int CommonData Int :=
  (switch_to StreamCalc_t Overflow Calculating
    { in_Overflow.record (.on_process Overflow ⟨.Memorize, 1000⟩) with
      fields := { Memory := 1000 } }).1

end EventsTest

/-! ## libs/fsm/test/src/transitions.cpp -/

namespace TransitionsTest

open boost boost.fsm boost.fsm.aux

/-- Event classes: `EventBase`, `Event1`, `Event2` (both derived from `EventBase`), the
instantiations of `Event3< FieldT >` the tests use, `StraightToEnd`. -/
inductive Event where
  | EventBase | Event1 | Event2 | Event3_int | Event3_string | Event3_double | StraightToEnd
deriving DecidableEq, Repr

/-- The value an event object holds: nothing, or the `value` of an `Event3< FieldT >` (a
`double` is given by its bits; no code looks at it). -/
inductive Value where
  | empty
  | of_int (value : Int)
  | of_string (value : String)
  | of_double (bits : Nat)
deriving DecidableEq, Repr

/-- State `InitialState`, position 0 in `StatesList_t`. -/
def InitialState : Fin 4 := 0

/-- State `State1`, position 1 in `StatesList_t`. -/
def State1 : Fin 4 := 1

/-- State `State2`, position 2 in `StatesList_t`. -/
def State2 : Fin 4 := 2

/-- State `FinalState`, position 3 in `StatesList_t`. -/
def FinalState : Fin 4 := 3

/-- The empty body of the handlers of this test, `void on_process(..) {}`. -/
def nothing : body 4 Unit Unit := .ret ()

/-- Implementation of `InitialState`: two transitions, no handlers. -/
def InitialStateImpl : state 4 Event Value Unit Unit :=
  { (basic_state "TransitionsTest::InitialState" : state 4 Event Value Unit Unit) with
    transitions_type_list :=
      [transition "fsm::transition<InitialState, Event1, State1>" (.state InitialState)
         Event.Event1 State1,
       transition "fsm::transition<InitialState, Event2, State2>" (.state InitialState)
         Event.Event2 State2] }

/-- Implementation of `State1`: one transition; `on_process(EventBase)` takes `EventBase` and the
classes derived from it. -/
def State1Impl : state 4 Event Value Unit Unit :=
  { (basic_state "TransitionsTest::State1" : state 4 Event Value Unit Unit) with
    transitions_type_list :=
      [transition "fsm::transition<State1, Event3<double>, State2>" (.state State1)
         Event.Event3_double State2],
    on_process := fun
      | .EventBase => some fun _ => nothing
      | .Event1 => some fun _ => nothing
      | .Event2 => some fun _ => nothing
      | _ => none }

/-- Implementation of `State2`: `on_process(Event2)` and the template
`on_process(Event3< T > const&)`. -/
def State2Impl : state 4 Event Value Unit Unit :=
  { (basic_state "TransitionsTest::State2" : state 4 Event Value Unit Unit) with
    on_process := fun
      | .Event2 => some fun _ => nothing
      | .Event3_int => some fun _ => nothing
      | .Event3_string => some fun _ => nothing
      | .Event3_double => some fun _ => nothing
      | _ => none }

/-- Implementation of `FinalState`: `on_process(StraightToEnd)` and the template
`on_process(Event3< T > const&)`. -/
def FinalStateImpl : state 4 Event Value Unit Unit :=
  { (basic_state "TransitionsTest::FinalState" : state 4 Event Value Unit Unit) with
    on_process := fun
      | .StraightToEnd => some fun _ => nothing
      | .Event3_int => some fun _ => nothing
      | .Event3_string => some fun _ => nothing
      | .Event3_double => some fun _ => nothing
      | _ => none }

/-- The rule `my_transition`: applicable in `State2` to any `Event3< T >`; `transit` switches to
`FinalState` for an `Event3< int >` holding 10 and for an `Event3< std::string >` that is not
empty, and does nothing otherwise. -/
def my_transition : rule 4 Event Value Unit :=
  { name := "my_transition",
    is_applicable := fun StateT EventT =>
      decide (StateT = State2) &&
        (decide (EventT = .Event3_int) || decide (EventT = .Event3_string) ||
          decide (EventT = .Event3_double)),
    transit := fun _ evt =>
      match evt.type, evt.value with
      | .Event3_int, .of_int value =>
        if value = 10 then basic_transition.transit FinalState else .ret ()
      | .Event3_string, .of_string value =>
        if value ≠ "" then basic_transition.transit FinalState else .ret ()
      | _, _ => .ret () }

/-- Transitions map, the common part that is used for each state. -/
def TransitionsMap_t : List (rule 4 Event Value Unit) :=
  [my_transition,
   transition "fsm::transition<fsm::any_state, StraightToEnd, FinalState>" .any_state
     Event.StraightToEnd FinalState]

/-- State machine type declaration,
`fsm::state_machine< StatesList_t, void, TransitionsMap_t >`. -/
def StateMachine_t : machine_type 4 Event Value Unit Unit :=
  { states_type_list := fun i =>
      if i = InitialState then InitialStateImpl
      else if i = State1 then State1Impl
      else if i = State2 then State2Impl
      else FinalStateImpl,
    transitions_type_list := TransitionsMap_t,
    fields := () }

/-- An unexpected events handler that returns. -/
def ignore_unexpected : unexpected_event_handler_t Event Value Unit := fun _ _ _ => .ok ()

/-- A new machine of the test made with the constructor that installs a handler. -/
def with_handler : states_compound 4 Event Value Unit Unit :=
  basic_state_machine_handler StateMachine_t ignore_unexpected

/-- The machine of the test after `process(Event2())` in a new machine: it is in `State2`. -/
def in_State2 : states_compound 4 Event Value Unit Unit :=
  (process StateMachine_t ⟨.Event2, .empty⟩ (basic_state_machine StateMachine_t)).1

end TransitionsTest

/-! ## A machine whose handlers switch more than once -/

namespace StaleSwitch

open boost boost.fsm boost.fsm.aux

/-- Event classes of the machine. -/
inductive Event where
  | Go | Twice | TwiceById | Bad
deriving DecidableEq, Repr

/-- State `A`, position 0 in the state list. -/
def A : Fin 3 := 0

/-- State `B`, position 1 in the state list. -/
def B : Fin 3 := 1

/-- State `C`, position 2 in the state list. -/
def C : Fin 3 := 2

/-- Implementation of `A`: a transition to `B` on `Go`; a leave hook that writes to the journal
kept in the fields; handlers that call `switch_to` twice. -/
def AImpl : state 3 Event Unit (List String) Unit :=
  { (basic_state "A" : state 3 Event Unit (List String) Unit) with
    transitions_type_list := [transition "fsm::transition<A, Go, B>" (.state A) Event.Go B],
    on_leave_state := fun journal => (journal ++ ["A::on_leave_state"], none),
    on_process := fun
      | .Twice => some fun _ => .switch_to B (.switch_to B (.ret ()))
      | .TwiceById => some fun _ => .switch_to_id 1 (.switch_to_id 1 (.ret ()))
      | .Bad => some fun _ => .switch_to B (.switch_to_id 100 (.ret ()))
      | .Go => none }

/-- Implementation of `B`: its own state name, an enter hook that writes to the journal, a
handler for `Go`. -/
def BImpl : state 3 Event Unit (List String) Unit :=
  { (basic_state "B" : state 3 Event Unit (List String) Unit) with
    get_state_name := some "state B",
    on_enter_state := fun journal => (journal ++ ["B::on_enter_state"], none),
    on_process := fun
      | .Go => some fun _ => .ret ()
      | _ => none }

/-- Implementation of `C`: a handler for `Go`. -/
def CImpl : state 3 Event Unit (List String) Unit :=
  { (basic_state "C" : state 3 Event Unit (List String) Unit) with
    on_process := fun
      | .Go => some fun _ => .ret ()
      | _ => none }

/-- State machine type declaration: states `A`, `B`, `C`, and the transitions map with one rule
for any state. -/
def Machine_t : machine_type 3 Event Unit (List String) Unit :=
  { states_type_list := fun i => if i = A then AImpl else if i = B then BImpl else CImpl,
    transitions_type_list :=
      [transition "fsm::transition<fsm::any_state, Go, C>" .any_state Event.Go C],
    fields := [] }

/-- The machine inside `process` of one of the events `Twice`, `TwiceById` or `Bad`, begun in a
new machine, when the handler of `A` has made its first switch, to `B`. -/
def after_first_switch (evt : Event) : states_compound 3 Event Unit (List String) Unit :=
  (switch_to Machine_t A B
    ((basic_state_machine Machine_t).record (.on_process A ⟨evt, ()⟩))).1

end StaleSwitch

/-! ## A machine of seven states with reset hooks -/

namespace ResetOrder

open boost boost.fsm boost.fsm.aux

/-- The state at a position of the state list. The fields hold a journal. The reset hook of a
state writes the position of the state to the journal; the one of the state at position 2 throws
after that; the state at position 4 defines no reset hook. -/
def StateImpl (i : Fin 7) : state 7 Unit Unit (List Nat) Unit :=
  if i = 4 then basic_state "State4"
  else
    { (basic_state "State" : state 7 Unit Unit (List Nat) Unit) with
      on_reset := fun journal =>
        (journal ++ [i.val], if i = 2 then some "State2::on_reset" else none) }

/-- State machine type declaration: seven states, no transitions. -/
def Machine_t : machine_type 7 Unit Unit (List Nat) Unit :=
  { states_type_list := StateImpl, transitions_type_list := [], fields := [] }

/-- A machine in which the current state identifier is 3 and the journal holds 9. -/
def used : states_compound 7 Unit Unit (List Nat) Unit :=
  { m_CurrentState := 3, m_UnexpectedEventHandler := none, fields := [9], calls := [] }

end ResetOrder

/-! ## libs/fsm/example/Turnstile/turnstile.cpp -/

namespace Turnstile

open boost boost.fsm boost.fsm.aux

/-- The event classes `PassengerPassing`, `PassengerPassed`, `Ticket`, `ValidityCheckResult`. -/
inductive Event where
  | PassengerPassing | PassengerPassed | Ticket | ValidityCheckResult
deriving DecidableEq, Repr

/-- The data of an event object: none, the `ID` of a `Ticket`, the flag `Valid` of a
`ValidityCheckResult`. -/
inductive Value where
  | empty
  | Ticket (ID : String)
  | ValidityCheckResult (Valid : Bool)
deriving DecidableEq, Repr

/-- State `Idle`, position 0 in `StateList`. -/
def Idle : Fin 3 := 0

/-- State `Processing`, position 1 in `StateList`. -/
def Processing : Fin 3 := 1

/-- State `Passing`, position 2 in `StateList`. -/
def Passing : Fin 3 := 2

/-- The data of the states, `Passing::m_fPassengerPassing`, and what the program has written to
`std::cout`, line by line (the external API writes there too). -/
structure Fields where
  m_fPassengerPassing : Bool
  cout : List String
deriving DecidableEq, Repr

/-- Writing a line to `std::cout`. -/
def print (line : String) (k : body 3 Fields Unit) : body 3 Fields Unit :=
  .modify (fun d => { d with cout := d.cout ++ [line] }) k

/-- The procedure emulates ticket validity check. -/
def CheckTicketValidity (_TicketID : String) (k : body 3 Fields Unit) : body 3 Fields Unit :=
  print "[Ticket validity check request]" k

/-- The procedure raises alarm in case of pass for free. -/
def RaiseUnauthorizedPassAlarm (k : body 3 Fields Unit) : body 3 Fields Unit :=
  print "\x08[!!! Someone tries to pass for free !!!]" k

/-- The procedure unlocks the turnstile. -/
def UnlockTheTurnstile (k : body 3 Fields Unit) : body 3 Fields Unit :=
  print "[Turnstile is unlocked]" k

/-- The procedure locks the turnstile. -/
def LockTheTurnstile (k : body 3 Fields Unit) : body 3 Fields Unit :=
  print "[Turnstile is locked]" k

/-- Idle state definition: `on_process(Ticket const&)` and `on_process(PassengerPassing const&)`.
An event object always holds the data of its class; no C++ program gives a handler another. -/
def IdleState : state 3 Event Value Fields Unit :=
  { (basic_state "Idle" : state 3 Event Value Fields Unit) with
    on_process := fun
      | .Ticket => some fun
        | .Ticket ID =>
          print ("Ticket with ID: " ++ ID ++ ". Please wait...")
            (CheckTicketValidity ID (.switch_to Processing (.ret ())))
        | _ => .undefined
      | .PassengerPassing => some fun _ =>
        print "You may not pass. Please, put your ticket into the turnstile first."
          (RaiseUnauthorizedPassAlarm (.ret ()))
      | _ => none }

/-- Processing state definition: `on_process(ValidityCheckResult const&)` and the template
`on_process(T const&)` that takes any other event. -/
def ProcessingState : state 3 Event Value Fields Unit :=
  { (basic_state "Processing" : state 3 Event Value Fields Unit) with
    on_process := fun
      | .ValidityCheckResult => some fun
        | .ValidityCheckResult Valid =>
          if Valid then
            print "You may pass" (UnlockTheTurnstile (.switch_to Passing (.ret ())))
          else
            print "Your ticket is not valid. Please, obtain another one."
              (.switch_to Idle (.ret ()))
        | _ => .undefined
      | _ => some fun _ =>
        print "Please wait, the ticket validity check is in process..." (.ret ()) }

/-- Passing state definition: `on_process(PassengerPassing const&)` and
`on_process(PassengerPassed const&)`. -/
def PassingState : state 3 Event Value Fields Unit :=
  { (basic_state "Passing" : state 3 Event Value Fields Unit) with
    on_process := fun
      | .PassengerPassing => some fun _ =>
        .read fun d =>
          if !d.m_fPassengerPassing then
            .modify (fun d => { d with m_fPassengerPassing := true }) (.ret ())
          else
            print "Please wait until the first passenger passes"
              (RaiseUnauthorizedPassAlarm (.ret ()))
      | .PassengerPassed => some fun _ =>
        .modify (fun d => { d with m_fPassengerPassing := false })
          (LockTheTurnstile (.switch_to Idle (.ret ())))
      | _ => none }

/-- State machine type definition, `fsm::state_machine< StateList >`. -/
def TurnstileStateMachine : machine_type 3 Event Value Fields Unit :=
  { states_type_list := fun i =>
      if i = Idle then IdleState else if i = Processing then ProcessingState else PassingState,
    transitions_type_list := [],
    fields := { m_fPassengerPassing := false, cout := [] } }

end Turnstile

/-! ## libs/fsm/test/src/locking.cpp -/

namespace LockingTest

open boost boost.fsm boost.fsm.aux

/-- Event classes: `EventBase`, `Event1`, `Event2` (both derived from `EventBase`) and the
instantiations of `Event3< FieldT >` the tests use. -/
inductive Event where
  | EventBase | Event1 | Event2 | Event3_int | Event3_string | Event3_state_id
deriving DecidableEq, Repr

/-- The value an event object holds: nothing, or the `value` of an `Event3< FieldT >`. -/
inductive Value where
  | empty
  | of_int (value : Int)
  | of_string (value : String)
  | of_state_id (value : state_id_t)
deriving DecidableEq, Repr

/-- State `InitialState`, position 0 in `StatesList_t`. -/
def InitialState : Fin 4 := 0

/-- State `State1`, position 1 in `StatesList_t`. -/
def State1 : Fin 4 := 1

/-- State `State2`, position 2 in `StatesList_t`. -/
def State2 : Fin 4 := 2

/-- State `FinalState`, position 3 in `StatesList_t`. -/
def FinalState : Fin 4 := 3

/-- The data members of the state objects and of their virtual base `CommonData`;
`m_Event3Value` is a `boost::any`, empty or holding a value. -/
structure Fields where
  m_EventsTrace : String
  m_Event1Received : Bool
  m_Event2Received : Bool
  m_EventBaseReceived : Bool
  m_Event3Received : Bool
  m_Event3Value : Option Value
  m_OnEnterStateReceived : Bool
  m_OnLeaveStateReceived : Bool
deriving DecidableEq, Repr

/-- The text `typeid(T).name()` of an event class. -/
def Event.type_name : Event → String
  | .EventBase => "LockingTest::EventBase"
  | .Event1 => "LockingTest::Event1"
  | .Event2 => "LockingTest::Event2"
  | .Event3_int => "LockingTest::Event3<int>"
  | .Event3_string => "LockingTest::Event3<std::string>"
  | .Event3_state_id => "LockingTest::Event3<fsm::state_id_t>"

/-- The member `CommonData::trace< T >()`. -/
def trace (T : Event) (k : body 4 Fields Unit) : body 4 Fields Unit :=
  .modify (fun d =>
    let d1 := if d.m_EventsTrace ≠ "" then { d with m_EventsTrace := d.m_EventsTrace ++ ", " }
      else d
    { d1 with m_EventsTrace := d1.m_EventsTrace ++ T.type_name }) k

/-- Implementation of `InitialState`. -/
def InitialStateImpl : state 4 Event Value Fields Unit :=
  { (basic_state "LockingTest::InitialState" : state 4 Event Value Fields Unit) with
    get_state_name := some "Initial state",
    on_process := fun
      | .Event1 => some fun _ =>
        trace .Event1
          (.modify (fun d => { d with m_Event1Received := true }) (.switch_to State1 (.ret ())))
      | .Event2 => some fun _ =>
        trace .Event2
          (.modify (fun d => { d with m_Event2Received := true }) (.switch_to State2 (.ret ())))
      | _ => none,
    on_reset := fun d =>
      ({ d with m_Event1Received := false, m_Event2Received := false, m_EventsTrace := "" },
        none) }

/-- The template `State1::on_process(Event3< T > const&)`. -/
def State1_on_process_Event3 (T : Event) (value : Value) : body 4 Fields Unit :=
  trace T
    (.modify (fun d => { d with m_Event3Received := true, m_Event3Value := some value })
      (.switch_to State2 (.ret ())))

/-- The member `State1::on_process(EventBase const&)`; it takes the derived classes too. -/
def State1_on_process_EventBase : body 4 Fields Unit :=
  trace .EventBase
    (.modify (fun d => { d with m_EventBaseReceived := true }) (.switch_to FinalState (.ret ())))

/-- Implementation of `State1`. -/
def State1Impl : state 4 Event Value Fields Unit :=
  { (basic_state "LockingTest::State1" : state 4 Event Value Fields Unit) with
    on_process := fun
      | .Event3_int => some (State1_on_process_Event3 .Event3_int)
      | .Event3_string => some (State1_on_process_Event3 .Event3_string)
      | .Event3_state_id => some (State1_on_process_Event3 .Event3_state_id)
      | .EventBase => some fun _ => State1_on_process_EventBase
      | .Event1 => some fun _ => State1_on_process_EventBase
      | .Event2 => some fun _ => State1_on_process_EventBase,
    on_reset := fun d =>
      ({ d with m_EventBaseReceived := false, m_Event3Received := false, m_Event3Value := none },
        none) }

/-- Implementation of `State2`; the template `on_process(T const&)` takes every event. -/
def State2Impl : state 4 Event Value Fields Unit :=
  { (basic_state "LockingTest::State2" : state 4 Event Value Fields Unit) with
    on_process := fun T => some fun _ =>
      trace T (.switch_to_id (state_id FinalState) (.ret ())),
    on_enter_state := fun d => ({ d with m_OnEnterStateReceived := true }, none),
    on_leave_state := fun d => ({ d with m_OnLeaveStateReceived := true }, none),
    on_reset := fun d =>
      ({ d with m_OnEnterStateReceived := false, m_OnLeaveStateReceived := false }, none) }

/-- Implementation of `FinalState`. -/
def FinalStateImpl : state 4 Event Value Fields Unit :=
  { (basic_state "LockingTest::FinalState" : state 4 Event Value Fields Unit) with
    on_process := fun
      | .Event3_state_id => some fun
        | .of_state_id value => trace .Event3_state_id (.switch_to_id value (.ret ()))
        | _ => .undefined
      | _ => none }

/-- The states and the transitions of `fsm::locking_state_machine< StatesList_t >`, with the
data members as the constructors of the states leave them. -/
def StateMachine_t : machine_type 4 Event Value Fields Unit :=
  { states_type_list := fun i =>
      if i = InitialState then InitialStateImpl
      else if i = State1 then State1Impl
      else if i = State2 then State2Impl
      else FinalStateImpl,
    transitions_type_list := [],
    fields :=
      { m_EventsTrace := "", m_Event1Received := false, m_Event2Received := false,
        m_EventBaseReceived := false, m_Event3Received := false, m_Event3Value := none,
        m_OnEnterStateReceived := false, m_OnLeaveStateReceived := false } }

/-- A sequence of `process` calls on a machine; an exception a call throws is caught by the
caller and the next call is made. -/
def process_all (events : List (any Event Value))
    (c : states_compound 4 Event Value Fields Unit) : states_compound 4 Event Value Fields Unit :=
  events.foldl (fun c evt => (process StateMachine_t evt c).1) c

end LockingTest

/-! ## boost/fsm/locking_state_machine.hpp -/

namespace boost.fsm

/-- An operation on the mutex `m_Mutex` of the machine at an address: the constructor of a
`scoped_lock` acquires it, the destructor releases it. -/
inductive mutex_call where
  | lock (owner : Nat)
  | unlock (owner : Nat)
deriving DecidableEq, Repr

/-- An object of `locking_state_machine`: the base object and the address of the whole object,
which is all that `std::less` looks at. The mutex `m_Mutex` is known by the address of its
owner; the operations give the calls they make on mutexes, in order. -/
structure locking_state_machine (n : Nat) (E V D R : Type) where
  address : Nat
  base : aux.states_compound n E V D R

namespace aux

/-- The implicit assignment operator of `basic_state_machine`: every member is assigned. -/
def state_machine_assign {n : Nat} {E V D R : Type} (_this that : states_compound n E V D R) :
    states_compound n E V D R := that

end aux

namespace locking_state_machine

variable {n : Nat} {E V D R : Type}

/-- Copying constructor: `that` is locked while the base object is copied; the new object, at
the address `this`, has a mutex of its own. -/
def copy (this : Nat) (that : locking_state_machine n E V D R) :
    locking_state_machine n E V D R × List mutex_call :=
  ({ address := this, base := aux.state_machine_copy that.base },
    [.lock that.address, .unlock that.address])

/-- Assignment operator. -/
def assign (this that : locking_state_machine n E V D R) :
    locking_state_machine n E V D R × List mutex_call :=
  let p := that.address
  if this.address ≠ p then
    let lock_order := decide (this.address < p)
    let first_lock := if lock_order then this.address else that.address
    let second_lock := if lock_order then that.address else this.address
    ({ this with base := aux.state_machine_assign this.base that.base },
      [.lock first_lock, .lock second_lock, .unlock second_lock, .unlock first_lock])
  else (this, [])

/-- Assignment operator from `locking_state_machine` with other threading strategies; the
lockers are destroyed in the reverse order of their declaration, `that_lock` first. -/
def assign_other (this that : locking_state_machine n E V D R) :
    locking_state_machine n E V D R × List mutex_call :=
  let locked :=
    if this.address < that.address then [mutex_call.lock this.address, .lock that.address]
    else [mutex_call.lock that.address, .lock this.address]
  ({ this with base := aux.state_machine_assign this.base that.base },
    locked ++ [.unlock that.address, .unlock this.address])

/-- Event processing routine. -/
def process (M : aux.machine_type n E V D R) (evt : any E V)
    (this : locking_state_machine n E V D R) :
    (locking_state_machine n E V D R × outcome E V R) × List mutex_call :=
  let r := aux.process M evt this.base
  (({ this with base := r.1 }, r.2), [.lock this.address, .unlock this.address])

/-- The method resets the state machine to its initial state. -/
def reset (M : aux.machine_type n E V D R) (this : locking_state_machine n E V D R) :
    locking_state_machine n E V D R × List mutex_call :=
  ({ this with base := aux.reset M this.base }, [.lock this.address, .unlock this.address])

/-- The mutexes a sequence of calls acquires, in order. -/
def acquired : List mutex_call → List Nat
  | [] => []
  | .lock owner :: rest => owner :: acquired rest
  | .unlock _ :: rest => acquired rest

end locking_state_machine

end boost.fsm

namespace LockingTest

open boost boost.fsm boost.fsm.aux

/-- The machine `fsm1` of the test `locking_copying` after `fsm1.process(Event1())`, at some
address. -/
def fsm1 : locking_state_machine 4 Event Value Fields Unit :=
  (locking_state_machine.process StateMachine_t ⟨.Event1, .empty⟩
    { address := 100, base := basic_state_machine StateMachine_t }).1.1

/-- The machine `fsm2` of the test `locking_copying`, `StateMachine_t fsm2 = fsm1;`, at another
address. -/
def fsm2 : locking_state_machine 4 Event Value Fields Unit :=
  (locking_state_machine.copy 200 fsm1).1

end LockingTest

/-! ## boost/detail/lightweight_call_once.hpp and the lock-free platform variants

A nullary function object acts on the state `W` of the program and returns or throws. A trigger
of an integer type is the content of its 32-bit cell, a natural number below `2 ^ 32`. The loops
of the platform variants are run with fuel: in a call that no other thread accompanies, a wait
loop whose condition holds never ends, and the call gives no result. -/

namespace boost.detail.lw_call_once

/-- A nullary function object `fun`: the state of the program after the call and the exception
the call threw, if any. -/
abbrev function_object (W : Type) := W → W × Option String

/-- What a call of `call_once` leaves: the trigger, the state of the program, the executions of
the function object the call made (`true` for one that returned, `false` for one that threw) and
the exception the call threw, if any. -/
structure result (T W : Type) where
  trigger : T
  world : W
  calls : List Bool
  thrown : Option String
deriving DecidableEq, Repr

namespace single_thread

/-- The type used to trigger the execution. -/
abbrev call_once_trigger := Bool

/-- Initial trigger value. -/
def BOOST_LWCO_INIT : call_once_trigger := false

/-- The function calls functor `fn` only if the trigger is in init state. -/
def call_once {W : Type} (trigger : call_once_trigger) (fn : function_object W) (w : W) :
    result call_once_trigger W :=
  if trigger = BOOST_LWCO_INIT then
    match fn w with
    | (w1, some e) => { trigger := trigger, world := w1, calls := [false], thrown := some e }
    | (w1, none) => { trigger := true, world := w1, calls := [true], thrown := none }
  else { trigger := trigger, world := w, calls := [], thrown := none }

end single_thread

namespace win32

/-- The type used to trigger the execution, `long`. -/
abbrev call_once_trigger := Nat

/-- Initial trigger value. -/
def BOOST_LWCO_INIT : call_once_trigger := 0

/-- The Win32 function: the new content of `*Destination` and the value returned, which is the
initial content. -/
def InterlockedCompareExchange (Destination Exchange Comparand : Nat) : Nat × Nat :=
  (if Destination = Comparand then Exchange else Destination, Destination)

/-- The Win32 function: the new content of `*Target` and the value returned. -/
def InterlockedExchange (Target Value : Nat) : Nat × Nat := (Value, Target)

/-- The Win32 function: the new content of `*Addend` and the value returned. -/
def InterlockedIncrement (Addend : Nat) : Nat × Nat :=
  ((Addend + 1) % 2 ^ 32, (Addend + 1) % 2 ^ 32)

/-- The loop `while (CMP_XCHG(&trigger, 1, 1) == 1) Sleep(1);`. -/
def wait : Nat → call_once_trigger → Option call_once_trigger
  | 0, _ => none
  | fuel + 1, trigger =>
    let r := InterlockedCompareExchange trigger 1 1
    if r.2 = 1 then wait fuel r.1 else some r.1

/-- The function calls functor `fn` only if the trigger is in init state. -/
def call_once {W : Type} :
    Nat → call_once_trigger → function_object W → W → Option (result call_once_trigger W)
  | 0, _, _, _ => none
  | fuel + 1, trigger, fn, w =>
    let r := InterlockedCompareExchange trigger BOOST_LWCO_INIT BOOST_LWCO_INIT
    if r.2 ≠ 2 then
      let r := InterlockedCompareExchange r.1 1 BOOST_LWCO_INIT
      if r.2 = BOOST_LWCO_INIT then
        match fn w with
        | (w1, none) =>
          some { trigger := (InterlockedIncrement r.1).1, world := w1, calls := [true],
                 thrown := none }
        | (w1, some e) =>
          some { trigger := (InterlockedExchange r.1 BOOST_LWCO_INIT).1, world := w1,
                 calls := [false], thrown := some e }
      else
        match wait fuel r.1 with
        | none => none
        | some trigger => call_once fuel trigger fn w
    else some { trigger := r.1, world := w, calls := [], thrown := none }

end win32

namespace macos

/-- The type used to trigger the execution, `int32_t`. -/
abbrev call_once_trigger := Nat

/-- Initial trigger value. -/
def BOOST_LWCO_INIT : call_once_trigger := 0

/-- The Mac OS function: the new content of `*theValue`, which is also the value returned. -/
def OSAtomicAdd32Barrier (theAmount theValue : Nat) : Nat × Nat :=
  ((theValue + theAmount) % 2 ^ 32, (theValue + theAmount) % 2 ^ 32)

/-- The Mac OS function: the new content of `*theValue` and whether the swap was made. -/
def OSAtomicCompareAndSwap32 (oldValue newValue theValue : Nat) : Nat × Bool :=
  if theValue = oldValue then (newValue, true) else (theValue, false)

/-- The Mac OS function: the new content of `*theValue`, which is also the value returned. -/
def OSAtomicIncrement32Barrier (theValue : Nat) : Nat × Nat := OSAtomicAdd32Barrier 1 theValue

/-- The Mac OS function: the new content of `*theValue`, which is also the value returned. -/
def OSAtomicAnd32 (theMask theValue : Nat) : Nat × Nat :=
  (theValue &&& theMask, theValue &&& theMask)

/-- The Mac OS function: the new content of `*theValue`, which is also the value returned. -/
def OSAtomicOr32 (theMask theValue : Nat) : Nat × Nat :=
  (theValue ||| theMask, theValue ||| theMask)

/-- The loop `while (OSAtomicOr32(0, &trigger) == 1) usleep(500);`. -/
def wait : Nat → call_once_trigger → Option call_once_trigger
  | 0, _ => none
  | fuel + 1, trigger =>
    let r := OSAtomicOr32 0 trigger
    if r.2 = 1 then wait fuel r.1 else some r.1

/-- The function calls functor `fn` only if the trigger is in init state. -/
def call_once {W : Type} :
    Nat → call_once_trigger → function_object W → W → Option (result call_once_trigger W)
  | 0, _, _, _ => none
  | fuel + 1, trigger, fn, w =>
    let r := OSAtomicAdd32Barrier 0 trigger
    if r.2 ≠ 2 then
      let r := OSAtomicCompareAndSwap32 0 1 r.1
      if r.2 then
        match fn w with
        | (w1, none) =>
          some { trigger := (OSAtomicIncrement32Barrier r.1).1, world := w1, calls := [true],
                 thrown := none }
        | (w1, some e) =>
          some { trigger := (OSAtomicAnd32 0 r.1).1, world := w1, calls := [false],
                 thrown := some e }
      else
        match wait fuel r.1 with
        | none => none
        | some trigger => call_once fuel trigger fn w
    else some { trigger := r.1, world := w, calls := [], thrown := none }

end macos

namespace beos

/-- The type used to trigger the execution, `vint32`. -/
abbrev call_once_trigger := Nat

/-- Initial trigger value. -/
def BOOST_LWCO_INIT : call_once_trigger := 0

/-- The BeOS function: the new content of `*value` and the value returned, which is the
previous content. -/
def atomic_and (value andValue : Nat) : Nat × Nat := (value &&& andValue, value)

/-- The BeOS function: the new content of `*value` and the value returned, which is the
previous content. -/
def atomic_or (value orValue : Nat) : Nat × Nat := (value ||| orValue, value)

/-- The loop `while (atomic_and(&trigger, 3) == 1) snooze(500);`. -/
def wait : Nat → call_once_trigger → Option call_once_trigger
  | 0, _ => none
  | fuel + 1, trigger =>
    let r := atomic_and trigger 3
    if r.2 = 1 then wait fuel r.1 else some r.1

/-- The function calls functor `fn` only if the trigger is in init state. -/
def call_once {W : Type} :
    Nat → call_once_trigger → function_object W → W → Option (result call_once_trigger W)
  | 0, _, _, _ => none
  | fuel + 1, trigger, fn, w =>
    let r := atomic_and trigger 3
    if r.2 ≠ 3 then
      let r := atomic_or r.1 1
      if r.2 = 0 then
        match fn w with
        | (w1, none) =>
          some { trigger := (atomic_or r.1 2).1, world := w1, calls := [true], thrown := none }
        | (w1, some e) =>
          some { trigger := (atomic_and r.1 0).1, world := w1, calls := [false],
                 thrown := some e }
      else
        match wait fuel r.1 with
        | none => none
        | some trigger => call_once fuel trigger fn w
    else some { trigger := r.1, world := w, calls := [], thrown := none }

end beos

end boost.detail.lw_call_once

/-! ## Sequences of calls of `call_once` -/

namespace boost.detail.lw_call_once

/-- A trigger and the state of the program between two calls of `call_once`, with the
executions of function objects that the calls so far have made on the trigger. -/
structure history (T W : Type) where
  trigger : T
  world : W
  log : List Bool

/-- A sequence of calls of `call_once` on one trigger, one function object for each call, none
of them made while another one runs; an exception a call throws is caught by the caller. -/
def call_sequence {T W : Type} (call_once : T → function_object W → W → Option (result T W)) :
    List (function_object W) → history T W → Option (history T W)
  | [], h => some h
  | fn :: rest, h =>
    match call_once h.trigger fn h.world with
    | none => none
    | some r =>
      call_sequence call_once rest { trigger := r.trigger, world := r.world, log := h.log ++ r.calls }

end boost.detail.lw_call_once

namespace CallOnceTest

open boost.detail.lw_call_once

/-- A function object that counts its executions and returns. -/
def count : function_object Nat := fun w => (w + 1, none)

/-- A function object that counts its executions and throws. -/
def fail : function_object Nat := fun w => (w + 1, some "fail")

end CallOnceTest

/-! ## The plain pass the chunked walks are compared with -/

namespace boost.fsm.aux

/-- A plain pass over the state list from left to right: one entry for each state, built by
`step` for that state, in the order of the list. The walks of `inherited_states` in chunks of
five are compared with it. -/
def plain_pass {n : Nat} {α : Type} (step : Fin n → α) : List (Fin n) → List α
  | [] => []
  | StateT :: rest_states => step StateT :: plain_pass step rest_states

/-- A call of a `transit` member of a rule. -/
def call.is_transit {n : Nat} {E V : Type} : call n E V → Bool
  | .transit _ _ _ => true
  | _ => false

end boost.fsm.aux

/-! ## A machine whose rule leads to a state without handlers -/

namespace CrossTransition

open boost boost.fsm boost.fsm.aux

/-- State `Start`, position 0 in the state list. -/
def Start : Fin 2 := 0

/-- State `Stop`, position 1 in the state list. -/
def Stop : Fin 2 := 1

/-- State machine type declaration: two states without handlers and hooks, one event class
`Go`, and the rule `fsm::transition< Start, Go, Stop >`. -/
def Machine_t : machine_type 2 Unit Unit Unit Unit :=
  { states_type_list := fun i => if i = Start then basic_state "Start" else basic_state "Stop",
    transitions_type_list :=
      [transition "fsm::transition<Start, Go, Stop>" (.state Start) () Stop],
    fields := () }

end CrossTransition

/-! ## A machine whose hooks throw -/

namespace FailingHooks

open boost boost.fsm boost.fsm.aux

/-- State `Closed`, position 0 in the state list; its leave hook throws. -/
def Closed : Fin 3 := 0

/-- State `Guarded`, position 1 in the state list; its enter hook throws. -/
def Guarded : Fin 3 := 1

/-- State `Open`, position 2 in the state list; its hooks are the ones of `basic_state`. -/
def Open : Fin 3 := 2

/-- The states: each hook that is defined writes its name to the journal kept in the fields,
and the leave hook of `Closed` and the enter hook of `Guarded` throw after that. -/
def StateImpl (i : Fin 3) : state 3 Unit Unit (List String) Unit :=
  if i = Closed then
    { (basic_state "Closed" : state 3 Unit Unit (List String) Unit) with
      on_leave_state := fun journal =>
        (journal ++ ["Closed::on_leave_state"], some "Closed::on_leave_state") }
  else if i = Guarded then
    { (basic_state "Guarded" : state 3 Unit Unit (List String) Unit) with
      on_enter_state := fun journal =>
        (journal ++ ["Guarded::on_enter_state"], some "Guarded::on_enter_state") }
  else basic_state "Open"

/-- State machine type declaration: three states, no transitions. -/
def Machine_t : machine_type 3 Unit Unit (List String) Unit :=
  { states_type_list := StateImpl, transitions_type_list := [], fields := [] }

/-- A machine that is in `Open`. -/
def in_Open : states_compound 3 Unit Unit (List String) Unit :=
  { m_CurrentState := 2, m_UnexpectedEventHandler := none, fields := [], calls := [] }

end FailingHooks

/-! ## The lock-free variants of `call_once`, one atomic operation at a time

Several threads call `call_once` on one trigger. Every access of the lock-free variants to the
trigger is one call of an atomic function of the platform; a step of the system is one such
call, or the begin or the end of the function object, made by one thread. -/

namespace boost.detail.lw_call_once

/-- Where a thread is in `call_once`: outside of it (before a call, or after one has returned or
thrown); at the condition of the outer `while`; at the `if` that claims the trigger; inside
`fun()`; after `fun()` has returned, before the trigger is marked; in the `catch (...)` block,
before the trigger is set back; at the condition of the inner `while`. -/
inductive pc where
  | outside | loop | claim | running | finish | undo | waiting
deriving DecidableEq, Repr

/-- The places between a successful claim of the trigger and its release. -/
def pc.owner : pc → Bool
  | .running => true
  | .finish => true
  | .undo => true
  | _ => false

/-- One step of a thread in the Win32 `call_once`: the new content of the trigger and the new
place; `returns` tells whether `fun()`, if this step ends it, returns or throws. -/
def win32.step (returns : Bool) (trigger : Nat) : pc → Nat × pc
  | .outside => (trigger, .loop)
  | .loop =>
    let r := win32.InterlockedCompareExchange trigger win32.BOOST_LWCO_INIT win32.BOOST_LWCO_INIT
    if r.2 ≠ 2 then (r.1, .claim) else (r.1, .outside)
  | .claim =>
    let r := win32.InterlockedCompareExchange trigger 1 win32.BOOST_LWCO_INIT
    if r.2 = win32.BOOST_LWCO_INIT then (r.1, .running) else (r.1, .waiting)
  | .running => if returns then (trigger, .finish) else (trigger, .undo)
  | .finish => ((win32.InterlockedIncrement trigger).1, .outside)
  | .undo => ((win32.InterlockedExchange trigger win32.BOOST_LWCO_INIT).1, .outside)
  | .waiting =>
    let r := win32.InterlockedCompareExchange trigger 1 1
    if r.2 = 1 then (r.1, .waiting) else (r.1, .loop)

/-- One step of a thread in the Mac OS `call_once`. -/
def macos.step (returns : Bool) (trigger : Nat) : pc → Nat × pc
  | .outside => (trigger, .loop)
  | .loop =>
    let r := macos.OSAtomicAdd32Barrier 0 trigger
    if r.2 ≠ 2 then (r.1, .claim) else (r.1, .outside)
  | .claim =>
    let r := macos.OSAtomicCompareAndSwap32 0 1 trigger
    if r.2 then (r.1, .running) else (r.1, .waiting)
  | .running => if returns then (trigger, .finish) else (trigger, .undo)
  | .finish => ((macos.OSAtomicIncrement32Barrier trigger).1, .outside)
  | .undo => ((macos.OSAtomicAnd32 0 trigger).1, .outside)
  | .waiting =>
    let r := macos.OSAtomicOr32 0 trigger
    if r.2 = 1 then (r.1, .waiting) else (r.1, .loop)

/-- One step of a thread in the BeOS `call_once` with atomic functions. -/
def beos.step (returns : Bool) (trigger : Nat) : pc → Nat × pc
  | .outside => (trigger, .loop)
  | .loop =>
    let r := beos.atomic_and trigger 3
    if r.2 ≠ 3 then (r.1, .claim) else (r.1, .outside)
  | .claim =>
    let r := beos.atomic_or trigger 1
    if r.2 = 0 then (r.1, .running) else (r.1, .waiting)
  | .running => if returns then (trigger, .finish) else (trigger, .undo)
  | .finish => ((beos.atomic_or trigger 2).1, .outside)
  | .undo => ((beos.atomic_and trigger 0).1, .outside)
  | .waiting =>
    let r := beos.atomic_and trigger 3
    if r.2 = 1 then (r.1, .waiting) else (r.1, .loop)

/-- The trigger and the places of the threads, which are numbered. -/
structure system where
  trigger : Nat
  threads : Nat → pc

/-- The system before any call: the trigger holds `BOOST_LWCO_INIT`, which is 0 in the three
variants. -/
def system.init : system := { trigger := 0, threads := fun _ => .outside }

/-- A step of the system: the thread `i` makes its next step. -/
def system.step (step : Bool → Nat → pc → Nat × pc) (s : system) (i : Nat) (returns : Bool) :
    system :=
  { trigger := (step returns s.trigger (s.threads i)).1,
    threads := Function.update s.threads i (step returns s.trigger (s.threads i)).2 }

/-- The systems that the steps of any threads, in any order, lead to. -/
inductive system.reachable (step : Bool → Nat → pc → Nat × pc) : system → Prop where
  | init : system.reachable step system.init
  | step (s : system) (i : Nat) (returns : Bool) :
    system.reachable step s → system.reachable step (s.step step i returns)

/-- The changes of the trigger the claim allows, `done` being the value of a trigger whose
function object has returned: none, from 0 to 1, from 1 to `done`, from 1 to 0. -/
def allowed_change (done : Nat) (before after : Nat) : Prop :=
  after = before ∨ (before = 0 ∧ after = 1) ∨ (before = 1 ∧ after = done)
    ∨ (before = 1 ∧ after = 0)

/-- What the steps of one thread do to the trigger, by the place of the thread. -/
def step_ok (done : Nat) (step : Bool → Nat → pc → Nat × pc) : Prop :=
  done ≠ 0 ∧ done ≠ 1 ∧
  (∀ returns t p, p.owner = false → (step returns t p).2.owner = true →
    t = 0 ∧ (step returns t p).1 = 1) ∧
  (∀ returns t p, p.owner = false → (step returns t p).2.owner = false →
    t = 0 ∨ t = 1 ∨ t = done → (step returns t p).1 = t) ∧
  (∀ returns p, p.owner = true → (step returns 1 p).2.owner = true →
    (step returns 1 p).1 = 1) ∧
  (∀ returns p, p.owner = true → (step returns 1 p).2.owner = false →
    (step returns 1 p).1 = 0 ∨ (step returns 1 p).1 = done)

/-- The relation between the trigger and the threads: the trigger holds 0, 1 or `done`, at most
one thread is between claim and release, and one is exactly when the trigger holds 1. -/
def system.consistent (done : Nat) (s : system) : Prop :=
  (s.trigger = 0 ∨ s.trigger = 1 ∨ s.trigger = done) ∧
  (∀ i j, (s.threads i).owner = true → (s.threads j).owner = true → i = j) ∧
  ((∃ i, (s.threads i).owner = true) ↔ s.trigger = 1)

end boost.detail.lw_call_once

namespace CallOnceTest

open boost.detail.lw_call_once

/-- Two threads on a BeOS trigger: thread 0 has begun a call, has tested and claimed the
trigger and is in its function object; thread 1 has begun a call, has tested the trigger and has
failed to claim it. -/
def two_threads : system :=
  (((((system.init.step beos.step 0 true).step beos.step 0 true).step beos.step 0 true).step
    beos.step 1 true).step beos.step 1 true).step beos.step 1 true

end CallOnceTest

/-! ## The variants of `call_once` that take a lock

The calls of the platform that can fail give their result as the platform decides; the result
is an argument of the model. A call of the platform that waits for a lock which no other thread
is there to release does not return, and the model gives no result. -/

namespace boost.detail.lw_call_once

namespace win32_srw

/-- The type used to trigger the execution: the flag, and whether the SRW lock is held. -/
structure call_once_trigger where
  done : Nat
  lock : Bool
deriving DecidableEq, Repr

/-- Initial trigger value. -/
def BOOST_LWCO_INIT : call_once_trigger := { done := 0, lock := false }

/-- The Win32 function: the lock once acquired; it waits while the lock is held. -/
def AcquireSRWLockExclusive (SRWLock : Bool) : Option Bool :=
  if SRWLock then none else some true

/-- The Win32 function. -/
def ReleaseSRWLockExclusive (_SRWLock : Bool) : Bool := false

/-- The function calls functor `fn` only if the trigger is in init state. -/
def call_once {W : Type} (trigger : call_once_trigger) (fn : function_object W) (w : W) :
    Option (result call_once_trigger W) :=
  if trigger.done = 0 then
    -- scoped_call_once_lock lock(trigger);
    match AcquireSRWLockExclusive trigger.lock with
    | none => none
    | some lock =>
      let trigger := { trigger with lock := lock }
      if trigger.done = 0 then
        match fn w with
        | (w1, none) =>
          let trigger := { trigger with done := 1 }
          some { trigger := { trigger with lock := ReleaseSRWLockExclusive trigger.lock },
                 world := w1, calls := [true], thrown := none }
        | (w1, some e) =>
          some { trigger := { trigger with lock := ReleaseSRWLockExclusive trigger.lock },
                 world := w1, calls := [false], thrown := some e }
      else
        some { trigger := { trigger with lock := ReleaseSRWLockExclusive trigger.lock },
               world := w, calls := [], thrown := none }
  else some { trigger := trigger, world := w, calls := [], thrown := none }

end win32_srw

namespace pthreads

/-- A `pthread_mutex_t`; `PTHREAD_MUTEX_INITIALIZER` is `unlocked`. -/
inductive pthread_mutex_t where
  | unlocked | locked | destroyed
deriving DecidableEq, Repr

/-- The type used to trigger the execution. -/
structure call_once_trigger where
  done : Bool
  thread_count : Int
  mutex : pthread_mutex_t
deriving DecidableEq, Repr

/-- Initial trigger value. -/
def BOOST_LWCO_INIT : call_once_trigger :=
  { done := false, thread_count := 0, mutex := .unlocked }

/-- The POSIX function, with the result the platform gives: the mutex after the call. With the
result 0 the mutex has been acquired; the call waits while the mutex is locked, and has no
defined behaviour on a destroyed mutex. -/
def pthread_mutex_lock (result : Int) (mutex : pthread_mutex_t) : Option pthread_mutex_t :=
  if result ≠ 0 then some mutex
  else
    match mutex with
    | .unlocked => some .locked
    | _ => none

/-- The POSIX function. -/
def pthread_mutex_unlock (_mutex : pthread_mutex_t) : pthread_mutex_t := .unlocked

/-- The POSIX function. -/
def pthread_mutex_destroy (_mutex : pthread_mutex_t) : pthread_mutex_t := .destroyed

/-- The destructor of `scoped_call_once_lock`. -/
def scoped_call_once_lock_destroy (trigger : call_once_trigger) : call_once_trigger :=
  { trigger with mutex := pthread_mutex_unlock trigger.mutex,
                 thread_count := trigger.thread_count - 1 }

/-- The loop `while (!IS_EQUAL(trigger.thread_count, 0)) usleep(500);`. -/
def wait : Nat → Int → Option Unit
  | 0, _ => none
  | fuel + 1, thread_count => if thread_count ≠ 0 then wait fuel thread_count else some ()

/-- The function calls functor `fn` only if the trigger is in init state; `result` is what
`pthread_mutex_lock` returns in the constructor of `scoped_call_once_lock`. -/
def call_once {W : Type} (fuel : Nat) (result : Int) (trigger : call_once_trigger)
    (fn : function_object W) (w : W) : Option (lw_call_once.result call_once_trigger W) :=
  if !trigger.done then
    let trigger := { trigger with thread_count := trigger.thread_count + 1 }
    if !trigger.done then
      -- scoped_call_once_lock lock(trigger);
      match pthread_mutex_lock result trigger.mutex with
      | none => none
      | some mutex =>
        if result ≠ 0 then
          some { trigger := trigger, world := w, calls := [],
                 thrown := some ("lightweight call_once: pthread_mutex_lock failed, error code: "
                   ++ toString result) }
        else
          let trigger := { trigger with mutex := mutex }
          if !trigger.done then
            match fn w with
            | (w1, some e) =>
              some { trigger := scoped_call_once_lock_destroy trigger, world := w1,
                     calls := [false], thrown := some e }
            | (w1, none) =>
              -- destroy_mutex = true;
              let trigger := scoped_call_once_lock_destroy { trigger with done := true }
              -- Wait here until other threads release the mutex
              match wait fuel trigger.thread_count with
              | none => none
              | some _ =>
                some { trigger := { trigger with mutex := pthread_mutex_destroy trigger.mutex },
                       world := w1, calls := [true], thrown := none }
          else
            some { trigger := scoped_call_once_lock_destroy trigger, world := w, calls := [],
                   thrown := none }
    else
      some { trigger := { trigger with thread_count := trigger.thread_count - 1 }, world := w,
             calls := [], thrown := none }
  else some { trigger := trigger, world := w, calls := [], thrown := none }

end pthreads

namespace pthreads_rwlock

/-- A `pthread_rwlock_t`; `PTHREAD_RWLOCK_INITIALIZER` is `unlocked`. -/
inductive pthread_rwlock_t where
  | unlocked | read_locked | write_locked
deriving DecidableEq, Repr

/-- The type used to trigger the execution. -/
structure call_once_trigger where
  done : Bool
  lock : pthread_rwlock_t
deriving DecidableEq, Repr

/-- Initial trigger value. -/
def BOOST_LWCO_INIT : call_once_trigger := { done := false, lock := .unlocked }

/-- The POSIX function; the code does not look at its result, and the call is taken to
succeed. It waits while the lock is held for writing. -/
def pthread_rwlock_rdlock (lock : pthread_rwlock_t) : Option pthread_rwlock_t :=
  match lock with
  | .write_locked => none
  | _ => some .read_locked

/-- The POSIX function, with the result the platform gives: the lock after the call. The call
waits while the lock is held. -/
def pthread_rwlock_wrlock (result : Int) (lock : pthread_rwlock_t) : Option pthread_rwlock_t :=
  if result ≠ 0 then some lock
  else
    match lock with
    | .unlocked => some .write_locked
    | _ => none

/-- The POSIX function. -/
def pthread_rwlock_unlock (_lock : pthread_rwlock_t) : pthread_rwlock_t := .unlocked

/-- The function calls functor `fn` only if the trigger is in init state; `result` is what
`pthread_rwlock_wrlock` returns in the constructor of `mutex_auto_locker`. -/
def call_once {W : Type} (result : Int) (trigger : call_once_trigger)
    (fn : function_object W) (w : W) : Option (lw_call_once.result call_once_trigger W) :=
  -- This read lock should act as a RMB
  match pthread_rwlock_rdlock trigger.lock with
  | none => none
  | some lock =>
    let trigger := { trigger with lock := lock }
    let done := trigger.done
    let trigger := { trigger with lock := pthread_rwlock_unlock trigger.lock }
    if !done then
      -- mutex_auto_locker lock(&trigger.lock);
      match pthread_rwlock_wrlock result trigger.lock with
      | none => none
      | some lock =>
        if result ≠ 0 then
          some { trigger := trigger, world := w, calls := [],
                 thrown := some
                   ("lightweight call_once: pthread_rwlock_wrlock failed, error code: "
                     ++ toString result) }
        else
          let trigger := { trigger with lock := lock }
          if !trigger.done then
            match fn w with
            | (w1, some e) =>
              some { trigger := { trigger with lock := pthread_rwlock_unlock trigger.lock },
                     world := w1, calls := [false], thrown := some e }
            | (w1, none) =>
              let trigger := { trigger with done := true }
              some { trigger := { trigger with lock := pthread_rwlock_unlock trigger.lock },
                     world := w1, calls := [true], thrown := none }
          else
            some { trigger := { trigger with lock := pthread_rwlock_unlock trigger.lock },
                   world := w, calls := [], thrown := none }
    else some { trigger := trigger, world := w, calls := [], thrown := none }

end pthreads_rwlock

namespace beos_sem

/-- The type used to trigger the execution: the flag, and the contents of the 32-bit cells
`lock` and `semaphore`. -/
structure call_once_trigger where
  flag : Bool
  lock : Nat
  semaphore : Nat
deriving DecidableEq, Repr

/-- Initial trigger value. -/
def BOOST_LWCO_INIT : call_once_trigger := { flag := false, lock := 0, semaphore := 0 }

/-- The BeOS function: the new content of `*value` and the value returned, which is the
previous content. -/
def atomic_add (value : Nat) (addValue : Int) : Nat × Nat :=
  ((((value : Int) + addValue) % 2 ^ 32).toNat, value)

/-- The loop `while (atomic_or(&trigger.lock, 0) != 0) snooze(500);`. -/
def wait : Nat → Nat → Option Nat
  | 0, _ => none
  | fuel + 1, lock =>
    let r := beos.atomic_or lock 0
    if r.2 ≠ 0 then wait fuel r.1 else some r.1

/-- The function calls functor `fn` only if the trigger is in init state; `created` is what
`create_sem` returns, a semaphore identifier or a negative error code, and `status` is what
`acquire_sem` returns in the constructor of `auto_locker`, `B_NO_ERROR` being 0. -/
def call_once {W : Type} (fuel : Nat) (created status : Int) (trigger : call_once_trigger)
    (fn : function_object W) (w : W) : Option (result call_once_trigger W) :=
  let after_creation : Option (call_once_trigger × Option String) :=
    let r := beos.atomic_or trigger.semaphore 0
    let trigger := { trigger with semaphore := r.1 }
    if r.2 = 0 then
      -- Synchronize semaphore creation - lock
      let was_locked := atomic_add trigger.lock 1
      let trigger := { trigger with lock := was_locked.1 }
      let waited : Option call_once_trigger :=
        if was_locked.2 ≠ 0 then
          -- Wait until the semaphore is created
          match wait fuel (atomic_add trigger.lock (-1)).1 with
          | none => none
          | some lock => some { trigger with lock := lock }
        else some trigger
      match waited with
      | none => none
      | some trigger =>
        -- Create semaphore, if needed
        let r := beos.atomic_or trigger.semaphore 0
        let trigger := { trigger with semaphore := r.1 }
        if r.2 = 0 then
          if created < 0 then
            some ({ trigger with lock := (atomic_add trigger.lock (-1)).1 },
              some ("lightweight call_once: failed to create semaphore, error code: "
                ++ toString created))
          else
            let trigger :=
              { trigger with semaphore := (beos.atomic_or trigger.semaphore created.toNat).1 }
            -- Synchronize semaphore creation - unlock
            some ({ trigger with lock := (atomic_add trigger.lock (-1)).1 }, none)
        else some ({ trigger with lock := (atomic_add trigger.lock (-1)).1 }, none)
    else some (trigger, none)
  match after_creation with
  | none => none
  | some (trigger, some what) =>
    some { trigger := trigger, world := w, calls := [], thrown := some what }
  | some (trigger, none) =>
    -- auto_locker lock(sem);
    if status ≠ 0 then
      some { trigger := trigger, world := w, calls := [],
             thrown := some ("lightweight call_once: failed to acquire semaphore, error code: "
               ++ toString status) }
    else if !trigger.flag then
      match fn w with
      | (w1, some e) => some { trigger := trigger, world := w1, calls := [false], thrown := some e }
      | (w1, none) =>
        some { trigger := { trigger with flag := true }, world := w1, calls := [true],
               thrown := none }
    else some { trigger := trigger, world := w, calls := [], thrown := none }

end beos_sem

end boost.detail.lw_call_once

/-! ## The platform variants and the implementation for single-threaded programs -/

namespace boost.detail.lw_call_once

/-- A platform variant of `call_once` for a single caller: the type of the trigger, its initial
value, whether a trigger is done (the condition on which `call_once` skips the function object),
and the function, with the results of the calls of the platform fixed. -/
structure platform (W : Type) where
  call_once_trigger : Type
  BOOST_LWCO_INIT : call_once_trigger
  is_done : call_once_trigger → Bool
  call_once :
    call_once_trigger → function_object W → W → Option (result call_once_trigger W)

/-- The seven platform variants, with every call of the platform that takes a lock or a
semaphore successful: `pthread_mutex_lock`, `pthread_rwlock_wrlock` and `acquire_sem` return 0,
`create_sem` returns the identifier `created`. -/
def platforms (W : Type) (fuel created : Nat) : List (platform W) :=
  [{ call_once_trigger := win32.call_once_trigger, BOOST_LWCO_INIT := win32.BOOST_LWCO_INIT,
     is_done := fun trigger => trigger == 2, call_once := win32.call_once fuel },
   { call_once_trigger := win32_srw.call_once_trigger,
     BOOST_LWCO_INIT := win32_srw.BOOST_LWCO_INIT,
     is_done := fun trigger => trigger.done != 0, call_once := win32_srw.call_once },
   { call_once_trigger := pthreads.call_once_trigger,
     BOOST_LWCO_INIT := pthreads.BOOST_LWCO_INIT,
     is_done := fun trigger => trigger.done, call_once := pthreads.call_once fuel 0 },
   { call_once_trigger := pthreads_rwlock.call_once_trigger,
     BOOST_LWCO_INIT := pthreads_rwlock.BOOST_LWCO_INIT,
     is_done := fun trigger => trigger.done, call_once := pthreads_rwlock.call_once 0 },
   { call_once_trigger := macos.call_once_trigger, BOOST_LWCO_INIT := macos.BOOST_LWCO_INIT,
     is_done := fun trigger => trigger == 2, call_once := macos.call_once fuel },
   { call_once_trigger := beos.call_once_trigger, BOOST_LWCO_INIT := beos.BOOST_LWCO_INIT,
     is_done := fun trigger => trigger == 3, call_once := beos.call_once fuel },
   { call_once_trigger := beos_sem.call_once_trigger,
     BOOST_LWCO_INIT := beos_sem.BOOST_LWCO_INIT,
     is_done := fun trigger => trigger.flag,
     call_once := beos_sem.call_once fuel (created : Int) 0 }]

/-- A call has done what the implementation for single-threaded programs does on the flag that
tells whether the trigger is done: the same executions of the function object, the same state of
the program, the same exception, and the trigger is done after the one exactly when the flag is
set after the other. -/
def platform.like_single_thread {W : Type} (v : platform W) (trigger : v.call_once_trigger)
    (fn : function_object W) (w : W) (r : result v.call_once_trigger W) : Prop :=
  v.is_done r.trigger = (single_thread.call_once (v.is_done trigger) fn w).trigger ∧
  r.world = (single_thread.call_once (v.is_done trigger) fn w).world ∧
  r.calls = (single_thread.call_once (v.is_done trigger) fn w).calls ∧
  r.thrown = (single_thread.call_once (v.is_done trigger) fn w).thrown

/-- The triggers `quiet` holds of are left so by every call, which does on them what the
implementation for single-threaded programs does; the initial trigger is one of them. -/
def platform.refines {W : Type} (v : platform W) (quiet : v.call_once_trigger → Prop) : Prop :=
  quiet v.BOOST_LWCO_INIT ∧
  ∀ trigger fn w, quiet trigger →
    ∃ r, v.call_once trigger fn w = some r ∧ quiet r.trigger ∧
      v.like_single_thread trigger fn w r

end boost.detail.lw_call_once

namespace CallOnceTest

open boost.detail.lw_call_once

/-- The pthreads variant with atomic functions, `pthread_mutex_lock` returning 0. -/
def pthreads_atomics : platform Nat :=
  { call_once_trigger := pthreads.call_once_trigger,
    BOOST_LWCO_INIT := pthreads.BOOST_LWCO_INIT,
    is_done := fun trigger => trigger.done, call_once := pthreads.call_once 1 0 }

end CallOnceTest

/-! ## Locking machines in the memory of the program -/

namespace boost.fsm

variable {n : Nat} {E V D R : Type}

/-- The objects of `locking_state_machine` that the program holds: the base object of the machine
at an address, if there is a machine at that address. An object is known by its address (`this`,
`addressof(that)`), and a member function changes the memory at the address of the object it
leaves changed. -/
structure memory (n : Nat) (E V D R : Type) where
  objects : Nat → Option (aux.states_compound n E V D R)

namespace memory

/-- The object at an address. -/
def object (mem : memory n E V D R) (address : Nat) :
    Option (locking_state_machine n E V D R) :=
  (mem.objects address).map fun base => { address := address, base := base }

/-- The memory once a constructor or a member function has left the object `x`. -/
def store (mem : memory n E V D R) (x : locking_state_machine n E V D R) : memory n E V D R :=
  { objects := Function.update mem.objects x.address (some x.base) }

/-- The declaration `StateMachine_t fsm2 = fsm1;`: the copying constructor makes the object at
the address `this` from the object at the address `that`. -/
def construct_copy (mem : memory n E V D R) (this that : Nat) :
    Option (memory n E V D R × List mutex_call) :=
  match mem.object that with
  | none => none
  | some m =>
    let r := locking_state_machine.copy this m
    some (mem.store r.1, r.2)

/-- The statement `fsm2 = fsm1;` with the assignment operator, on the objects at the addresses
`this` and `that`. -/
def assign (mem : memory n E V D R) (this that : Nat) :
    Option (memory n E V D R × List mutex_call) :=
  match mem.object this, mem.object that with
  | some target, some m =>
    let r := locking_state_machine.assign target m
    some (mem.store r.1, r.2)
  | _, _ => none

/-- The statement `another_fsm = fsm2;` with the assignment operator from `locking_state_machine`
with other threading strategies. -/
def assign_other (mem : memory n E V D R) (this that : Nat) :
    Option (memory n E V D R × List mutex_call) :=
  match mem.object this, mem.object that with
  | some target, some m =>
    let r := locking_state_machine.assign_other target m
    some (mem.store r.1, r.2)
  | _, _ => none

/-- The call `fsm.process(evt)` on the object at the address `this`. -/
def process (M : aux.machine_type n E V D R) (evt : any E V) (mem : memory n E V D R)
    (this : Nat) : Option ((memory n E V D R × outcome E V R) × List mutex_call) :=
  match mem.object this with
  | none => none
  | some x =>
    let r := locking_state_machine.process M evt x
    some ((mem.store r.1.1, r.1.2), r.2)

end memory

end boost.fsm

namespace LockingTest

open boost boost.fsm boost.fsm.aux

/-- The memory of the test `locking_copying` before the declaration of `fsm2`: the machine
`fsm1`, which is in `State1`, at its address, and nothing else. -/
def memory1 : memory 4 Event Value Fields Unit :=
  { objects := fun address => if address = fsm1.address then some fsm1.base else none }

end LockingTest

/-! ## The eight implementations of `call_once`, with the results of the calls of the platform -/

namespace boost.detail.lw_call_once

/-- An implementation of `call_once` run by one caller: the type of the trigger; what the calls
of the platform that can fail return in one call of `call_once`, and whether they all tell
success; the initial value of the trigger; whether a trigger is done (the condition on which
`call_once` skips the function object); whether two triggers are the same but for the semaphore
they hold, which only the BeOS trigger with a semaphore has; and the function. -/
structure implementation (W : Type) where
  call_once_trigger : Type
  platform_results : Type
  succeeded : platform_results → Bool
  BOOST_LWCO_INIT : call_once_trigger
  is_done : call_once_trigger → Bool
  same_but_semaphore : call_once_trigger → call_once_trigger → Bool
  call_once : platform_results → call_once_trigger → function_object W → W →
    Option (result call_once_trigger W)

/-- The implementation for single-threaded programs, which calls no function of a platform. -/
def single_thread.implementation (W : Type) : implementation W :=
  { call_once_trigger := single_thread.call_once_trigger,
    platform_results := Unit,
    succeeded := fun _ => true,
    BOOST_LWCO_INIT := single_thread.BOOST_LWCO_INIT,
    is_done := fun trigger => trigger,
    same_but_semaphore := fun a b => decide (a = b),
    call_once := fun _ trigger fn w => some (single_thread.call_once trigger fn w) }

/-- The implementation with the interlocked functions of Win32, which cannot fail. -/
def win32.implementation (W : Type) (fuel : Nat) : implementation W :=
  { call_once_trigger := win32.call_once_trigger,
    platform_results := Unit,
    succeeded := fun _ => true,
    BOOST_LWCO_INIT := win32.BOOST_LWCO_INIT,
    is_done := fun trigger => trigger == 2,
    same_but_semaphore := fun a b => decide (a = b),
    call_once := fun _ => win32.call_once fuel }

/-- The implementation with the SRW lock of Win32, whose functions return nothing. -/
def win32_srw.implementation (W : Type) : implementation W :=
  { call_once_trigger := win32_srw.call_once_trigger,
    platform_results := Unit,
    succeeded := fun _ => true,
    BOOST_LWCO_INIT := win32_srw.BOOST_LWCO_INIT,
    is_done := fun trigger => trigger.done != 0,
    same_but_semaphore := fun a b => decide (a = b),
    call_once := fun _ => win32_srw.call_once }

/-- The pthreads implementation with atomic functions; the platform gives the result of
`pthread_mutex_lock`, which is 0 on success. -/
def pthreads.implementation (W : Type) (fuel : Nat) : implementation W :=
  { call_once_trigger := pthreads.call_once_trigger,
    platform_results := Int,
    succeeded := fun result => decide (result = 0),
    BOOST_LWCO_INIT := pthreads.BOOST_LWCO_INIT,
    is_done := fun trigger => trigger.done,
    same_but_semaphore := fun a b => decide (a = b),
    call_once := fun result => pthreads.call_once fuel result }

/-- The pthreads implementation with a read-write lock; the platform gives the result of
`pthread_rwlock_wrlock`, which is 0 on success. -/
def pthreads_rwlock.implementation (W : Type) : implementation W :=
  { call_once_trigger := pthreads_rwlock.call_once_trigger,
    platform_results := Int,
    succeeded := fun result => decide (result = 0),
    BOOST_LWCO_INIT := pthreads_rwlock.BOOST_LWCO_INIT,
    is_done := fun trigger => trigger.done,
    same_but_semaphore := fun a b => decide (a = b),
    call_once := fun result => pthreads_rwlock.call_once result }

/-- The implementation for Mac OS, whose atomic functions cannot fail. -/
def macos.implementation (W : Type) (fuel : Nat) : implementation W :=
  { call_once_trigger := macos.call_once_trigger,
    platform_results := Unit,
    succeeded := fun _ => true,
    BOOST_LWCO_INIT := macos.BOOST_LWCO_INIT,
    is_done := fun trigger => trigger == 2,
    same_but_semaphore := fun a b => decide (a = b),
    call_once := fun _ => macos.call_once fuel }

/-- The implementation with the atomic functions of BeOS, which cannot fail. -/
def beos.implementation (W : Type) (fuel : Nat) : implementation W :=
  { call_once_trigger := beos.call_once_trigger,
    platform_results := Unit,
    succeeded := fun _ => true,
    BOOST_LWCO_INIT := beos.BOOST_LWCO_INIT,
    is_done := fun trigger => trigger == 3,
    same_but_semaphore := fun a b => decide (a = b),
    call_once := fun _ => beos.call_once fuel }

/-- What `create_sem` returns: the identifier of the new semaphore, or an error code, which is
negative. It is not 0, the content of `semaphore` in a trigger that has no semaphore yet. -/
abbrev beos_sem.created_sem := { sem : Int // sem ≠ 0 }

/-- The BeOS implementation with a semaphore; the platform gives the result of `create_sem` and
the status of `acquire_sem`, which is `B_NO_ERROR`, 0, on success. Two triggers are the same but
for the semaphore when their cells `flag` and `lock` are the same. -/
def beos_sem.implementation (W : Type) (fuel : Nat) : implementation W :=
  { call_once_trigger := beos_sem.call_once_trigger,
    platform_results := beos_sem.created_sem × Int,
    succeeded := fun results => decide (0 ≤ results.1.val) && decide (results.2 = 0),
    BOOST_LWCO_INIT := beos_sem.BOOST_LWCO_INIT,
    is_done := fun trigger => trigger.flag,
    same_but_semaphore := fun a b => decide (a.flag = b.flag) && decide (a.lock = b.lock),
    call_once := fun results => beos_sem.call_once fuel results.1.val results.2 }

/-- The eight implementations of `call_once`: the one for single-threaded programs and the seven
platform variants. -/
def implementations (W : Type) (fuel : Nat) : List (implementation W) :=
  [single_thread.implementation W, win32.implementation W fuel, win32_srw.implementation W,
   pthreads.implementation W fuel, pthreads_rwlock.implementation W,
   macos.implementation W fuel, beos.implementation W fuel, beos_sem.implementation W fuel]

/-- A sequence of calls of `call_once` on one trigger, each with the results the platform gives
in it and with its function object, none of them made while another one runs; an exception a
call throws is caught by the caller. -/
def implementation.call_sequence {W : Type} (v : implementation W) :
    List (v.platform_results × function_object W) → history v.call_once_trigger W →
      Option (history v.call_once_trigger W)
  | [], h => some h
  | c :: rest, h =>
    match v.call_once c.1 h.trigger c.2 h.world with
    | none => none
    | some r =>
      implementation.call_sequence v rest
        { trigger := r.trigger, world := r.world, log := h.log ++ r.calls }

/-- What a call of an implementation does on the triggers that calls leave (`quiet`), and on
those that calls in which the platform succeeds leave (`calm`): on a done trigger it executes
nothing, leaves the trigger and the program as they are, and throws only when the platform
fails; on a trigger that is not done, either it throws with no execution and the trigger is still
not done, or it executes the function object once and the trigger is done exactly when the
function object has returned; on a calm trigger with a successful platform it comes to an end,
having executed the function object if the trigger was not done. -/
def implementation.safe {W : Type} (v : implementation W)
    (quiet calm : v.call_once_trigger → Prop) : Prop :=
  quiet v.BOOST_LWCO_INIT ∧ calm v.BOOST_LWCO_INIT ∧ v.is_done v.BOOST_LWCO_INIT = false ∧
  (∀ t, calm t → quiet t) ∧
  (∀ t, calm t → v.is_done t = false → v.same_but_semaphore t v.BOOST_LWCO_INIT = true) ∧
  (∀ p t fn w, quiet t → v.is_done t = true →
    ∃ r, v.call_once p t fn w = some r ∧ r.trigger = t ∧ r.world = w ∧ r.calls = [] ∧
      (v.succeeded p = true → r.thrown = none)) ∧
  (∀ p t fn w r, quiet t → v.is_done t = false → v.call_once p t fn w = some r →
    quiet r.trigger ∧
    ((r.calls = [] ∧ r.thrown ≠ none ∧ v.is_done r.trigger = false) ∨
      (r.calls = [(fn w).2.isNone] ∧ r.world = (fn w).1 ∧ r.thrown = (fn w).2 ∧
        v.is_done r.trigger = (fn w).2.isNone))) ∧
  (∀ p t fn w, calm t → v.succeeded p = true →
    ∃ r, v.call_once p t fn w = some r ∧ calm r.trigger ∧
      (v.is_done t = false →
        r.calls = [(fn w).2.isNone] ∧ r.world = (fn w).1 ∧ r.thrown = (fn w).2))

/-- The relation between a trigger and the executions made on it: the trigger is quiet; no
execution has returned if it is not done, and exactly one has if it is done. -/
def implementation.consistent {W : Type} (v : implementation W)
    (quiet : v.call_once_trigger → Prop) (h : history v.call_once_trigger W) : Prop :=
  quiet h.trigger ∧ (v.is_done h.trigger = false → true ∉ h.log) ∧
    (v.is_done h.trigger = true → h.log.count true = 1)

end boost.detail.lw_call_once

namespace CallOnceTest

open boost.detail.lw_call_once

/-- The result of a call of `create_sem` that makes the semaphore 7. -/
def semaphore_7 : beos_sem.created_sem := ⟨7, by decide⟩

end CallOnceTest

/-! ## The BeOS `call_once` with a semaphore, one operation at a time

Several threads call `call_once` on one trigger. A step of the system is one call of an atomic
function or of a function of the kernel, one access to `trigger.flag`, or the end of the
function object, made by one thread. -/

namespace boost.detail.lw_call_once.beos_sem

/-- Where a thread is in `call_once`: outside of it (before a call, or after one has returned or
thrown); at the first `atomic_or(&trigger.semaphore, 0)`; at `atomic_add(&trigger.lock, 1)`; at
the `atomic_add(&trigger.lock, -1)` of a thread that has found the lock taken; at the condition
of the `while`; at the second `atomic_or(&trigger.semaphore, 0)`; at `create_sem`; at the
`atomic_add(&trigger.lock, -1)` before the exception of a failed creation; at
`atomic_or(&trigger.semaphore, sem)`; at the last `atomic_add(&trigger.lock, -1)`; at
`acquire_sem` in the constructor of `auto_locker`; at `if (!trigger.flag)`; inside `fun()`; at
`trigger.flag = true`; at `release_sem_etc` in the destructor of `auto_locker`. -/
inductive place where
  | outside | read_semaphore | lock_creation | leave_lock | waiting | reread_semaphore
  | create | creation_failed | store_semaphore | unlock_creation | acquire | test_flag
  | running | set_flag | release
deriving DecidableEq, Repr

/-- A thread: where it is, and its local variable `sem`. -/
structure thread where
  position : place
  sem : Int
deriving DecidableEq, Repr

/-- The trigger, the counts of the semaphores of the kernel by identifier, the threads, which
are numbered, and the executions of the function object that have ended (`true` for one that
returned, `false` for one that threw). -/
structure system where
  trigger : call_once_trigger
  semaphores : Int → Option Nat
  threads : Nat → thread
  calls : List Bool

/-- The system before any call: the trigger holds `BOOST_LWCO_INIT`, and there is no
semaphore. -/
def system.init : system :=
  { trigger := BOOST_LWCO_INIT, semaphores := fun _ => none,
    threads := fun _ => { position := .outside, sem := 0 }, calls := [] }

/-- The system with the thread `i` at a new place with a new value of `sem`. -/
def system.move (s : system) (i : Nat) (position : place) (sem : Int) : system :=
  { s with threads := Function.update s.threads i { position := position, sem := sem } }

/-- A step of the system: the thread `i` makes its next step. `created` is what `create_sem`
returns if this step calls it, the identifier of a new semaphore of count 1 or a negative error
code; `returns` tells whether `fun()`, if this step ends it, returns or throws. -/
def system.step (s : system) (i : Nat) (created : Int) (returns : Bool) : system :=
  let sem := (s.threads i).sem
  match (s.threads i).position with
  | .outside => s.move i .read_semaphore sem
  | .read_semaphore =>
    let r := beos.atomic_or s.trigger.semaphore 0
    let s := { s with trigger := { s.trigger with semaphore := r.1 } }
    if r.2 = 0 then s.move i .lock_creation r.2 else s.move i .acquire r.2
  | .lock_creation =>
    -- Synchronize semaphore creation - lock
    let was_locked := atomic_add s.trigger.lock 1
    let s := { s with trigger := { s.trigger with lock := was_locked.1 } }
    if was_locked.2 ≠ 0 then s.move i .leave_lock sem else s.move i .reread_semaphore sem
  | .leave_lock =>
    -- Wait until the semaphore is created
    let s := { s with trigger := { s.trigger with lock := (atomic_add s.trigger.lock (-1)).1 } }
    s.move i .waiting sem
  | .waiting =>
    let r := beos.atomic_or s.trigger.lock 0
    let s := { s with trigger := { s.trigger with lock := r.1 } }
    if r.2 ≠ 0 then s.move i .waiting sem else s.move i .reread_semaphore sem
  | .reread_semaphore =>
    -- Create semaphore, if needed
    let r := beos.atomic_or s.trigger.semaphore 0
    let s := { s with trigger := { s.trigger with semaphore := r.1 } }
    if r.2 = 0 then s.move i .create r.2 else s.move i .unlock_creation r.2
  | .create =>
    if created < 0 then s.move i .creation_failed created
    else
      { s with semaphores := Function.update s.semaphores created (some 1) }.move i
        .store_semaphore created
  | .creation_failed =>
    let s := { s with trigger := { s.trigger with lock := (atomic_add s.trigger.lock (-1)).1 } }
    s.move i .outside sem
  | .store_semaphore =>
    let s :=
      { s with trigger :=
          { s.trigger with semaphore := (beos.atomic_or s.trigger.semaphore sem.toNat).1 } }
    s.move i .unlock_creation sem
  | .unlock_creation =>
    -- Synchronize semaphore creation - unlock
    let s := { s with trigger := { s.trigger with lock := (atomic_add s.trigger.lock (-1)).1 } }
    s.move i .acquire sem
  | .acquire =>
    -- Acquire semaphore - should act as a MB
    match s.semaphores sem with
    | none => s.move i .outside sem
    | some 0 => s
    | some (count + 1) =>
      { s with semaphores := Function.update s.semaphores sem (some count) }.move i
        .test_flag sem
  | .test_flag => if !s.trigger.flag then s.move i .running sem else s.move i .release sem
  | .running =>
    -- Only single thread is passed here
    if returns then { s with calls := s.calls ++ [true] }.move i .set_flag sem
    else { s with calls := s.calls ++ [false] }.move i .release sem
  | .set_flag => { s with trigger := { s.trigger with flag := true } }.move i .release sem
  | .release =>
    match s.semaphores sem with
    | none => s.move i .outside sem
    | some count =>
      { s with semaphores := Function.update s.semaphores sem (some (count + 1)) }.move i
        .outside sem

/-- The system after the steps of a schedule: each names the thread that makes the step, what
`create_sem` returns in it and whether `fun()` returns in it. -/
def system.run (s : system) (schedule : List (Nat × Int × Bool)) : system :=
  schedule.foldl (fun s x => s.step x.1 x.2.1 x.2.2) s

end boost.detail.lw_call_once.beos_sem

namespace CallOnceTest

open boost.detail.lw_call_once

/-- Three threads call `call_once` of the BeOS implementation with a semaphore on one initial
trigger, with function objects that return. Thread 0 takes the lock of the creation; threads 1
and 2 find it taken, leave it and wait. `create_sem` fails in thread 0, which leaves the lock
and throws. Threads 1 and 2 both find the lock free and no semaphore in the trigger; each makes
a semaphore (5 and 6), stores it, acquires the one it has made, finds the flag not set, and
enters its function object. -/
def failed_creation : List (Nat × Int × Bool) :=
  [(0, 0, true), (0, 0, true), (0, 0, true), (0, 0, true),
   (1, 0, true), (1, 0, true), (1, 0, true), (1, 0, true), (1, 0, true),
   (2, 0, true), (2, 0, true), (2, 0, true), (2, 0, true), (2, 0, true),
   (0, -1, true), (0, 0, true),
   (1, 0, true), (1, 0, true), (2, 0, true), (2, 0, true),
   (1, 5, true), (1, 0, true), (1, 0, true), (1, 0, true), (1, 0, true),
   (2, 6, true), (2, 0, true), (2, 0, true), (2, 0, true), (2, 0, true)]

/-- The steps in which the function objects of threads 1 and 2 return and both threads leave
`call_once`. -/
def both_return : List (Nat × Int × Bool) :=
  [(1, 0, true), (2, 0, true), (1, 0, true), (2, 0, true), (1, 0, true), (2, 0, true)]

end CallOnceTest

/-! # Theorems -/

namespace boost.fsm.aux

variable {n : Nat} {E V D R : Type}

/-- The walk of `init_process_functions` in chunks of five is a plain pass over the states. -/
theorem init_process_functions_eq_map (M : machine_type n E V D R) (EventT : E) :
    ∀ l : List (Fin n), inherited_states.init_process_functions M EventT l
      = l.map (init_process_functions_step M EventT)
  | [] => rfl
  | [_] => rfl
  | [_, _] => rfl
  | [_, _, _] => rfl
  | [_, _, _, _] => rfl
  | [_, _, _, _, _] => rfl
  | s1 :: s2 :: s3 :: s4 :: s5 :: s6 :: rest => by
    rw [inherited_states.init_process_functions,
      init_process_functions_eq_map M EventT (s6 :: rest)] <;> simp

/-- The walk of `init_states_info` in chunks of five is a plain pass over the states. -/
theorem init_states_info_eq_map (M : machine_type n E V D R) :
    ∀ l : List (Fin n), inherited_states.init_states_info M l
      = l.map (init_states_info_step M)
  | [] => rfl
  | [_] => rfl
  | [_, _] => rfl
  | [_, _, _] => rfl
  | [_, _, _, _] => rfl
  | [_, _, _, _, _] => rfl
  | s1 :: s2 :: s3 :: s4 :: s5 :: s6 :: rest => by
    rw [inherited_states.init_states_info, init_states_info_eq_map M (s6 :: rest)] <;> simp

/-- The walk of `on_reset` in chunks of five runs the steps from left to right. -/
theorem on_reset_eq_foldl (M : machine_type n E V D R) :
    ∀ (l : List (Fin n)) (c : states_compound n E V D R),
      inherited_states.on_reset M l c = l.foldl (fun c s => on_reset_step M s c) c
  | [], _ => rfl
  | [_], _ => rfl
  | [_, _], _ => rfl
  | [_, _, _], _ => rfl
  | [_, _, _, _], _ => rfl
  | [_, _, _, _, _], _ => rfl
  | s1 :: s2 :: s3 :: s4 :: s5 :: s6 :: rest, c => by
    rw [inherited_states.on_reset, on_reset_eq_foldl M (s6 :: rest)] <;> simp

/-- The state at position `i` of the state list is state `i`. -/
theorem finRange_getElem? (i : Nat) (h : i < n) : (List.finRange n)[i]? = some ⟨i, h⟩ := by
  rw [List.getElem?_eq_getElem (by simpa using h)]
  simp

/-- The entry of the dispatcher at the position of a state is the one made for that state. -/
theorem state_dispatcher_getElem? (M : machine_type n E V D R) (EventT : E) (StateT : Fin n) :
    (state_dispatcher M EventT)[StateT.val]? = some (init_process_functions_step M EventT StateT) := by
  simp [state_dispatcher, init_process_functions_eq_map, finRange_getElem? StateT.val StateT.isLt]

/-- The state info at a valid identifier is the one made for the state at that position. -/
theorem get_state_info_lt (M : machine_type n E V D R) (i : Nat) (h : i < n) :
    _get_state_info M i = some (init_states_info_step M ⟨i, h⟩) := by
  simp [_get_state_info, g_StatesInfoHolder, init_states_info_eq_map, finRange_getElem? i h]

/-- Doing nothing is among what user code can do. -/
theorem switched_refl (c : states_compound n E V D R) : switched c c :=
  ⟨[], by simp, by simp, Or.inl rfl, rfl⟩

/-- What user code can do, done twice. -/
theorem switched_trans {c c1 c2 : states_compound n E V D R} (h1 : switched c c1)
    (h2 : switched c1 c2) : switched c c2 := by
  obtain ⟨k1, e1, a1, s1, u1⟩ := h1
  obtain ⟨k2, e2, a2, s2, u2⟩ := h2
  refine ⟨k1 ++ k2, by rw [e2, e1, List.append_assoc], ?_, ?_, by rw [u2, u1]⟩
  · intro x hx
    rcases List.mem_append.mp hx with h | h
    · exact a1 x h
    · exact a2 x h
  · rcases s2 with s2 | ⟨T, hT, hm⟩
    · rcases s1 with s1 | ⟨T, hT, hm⟩
      · exact Or.inl (by rw [s2, s1])
      · exact Or.inr ⟨T, by rw [s2, hT], List.mem_append.mpr (Or.inl hm)⟩
    · exact Or.inr ⟨T, hT, List.mem_append.mpr (Or.inr hm)⟩

/-- Writing the fields is among what user code can do. -/
theorem switched_fields (c : states_compound n E V D R) (d : D) :
    switched c { c with fields := d } :=
  ⟨[], by simp, by simp, Or.inl rfl, rfl⟩

/-- What a static `switch_to` can have done to the machine. -/
theorem switch_to_switched (M : machine_type n E V D R) (StateT AnotherStateT : Fin n)
    (c : states_compound n E V D R) : switched c (switch_to M StateT AnotherStateT c).1 := by
  unfold switch_to
  simp only [get_state_info_lt M AnotherStateT.val AnotherStateT.isLt]
  split_ifs with h
  · rcases h1 : (M.states_type_list StateT).on_leave_state c.fields with ⟨d1, _ | w1⟩
    · rcases h2 : (M.states_type_list AnotherStateT).on_enter_state d1 with ⟨d2, _ | w2⟩
      · simp only [states_compound.record, h1, h2, _set_current_state]
        exact ⟨[.on_leave_state StateT, .on_enter_state AnotherStateT], by simp,
          by simp [call.is_switch_hook], Or.inr ⟨AnotherStateT, rfl, by simp⟩, rfl⟩
      · simp only [states_compound.record, h1, h2]
        exact ⟨[.on_leave_state StateT, .on_enter_state AnotherStateT], by simp,
          by simp [call.is_switch_hook], Or.inl rfl, rfl⟩
    · simp only [states_compound.record, h1]
      exact ⟨[.on_leave_state StateT], by simp, by simp [call.is_switch_hook], Or.inl rfl, rfl⟩
  · exact switched_refl c

/-- What a `switch_to` by identifier can have done to the machine. -/
theorem switch_to_id_switched (M : machine_type n E V D R) (StateT : Fin n)
    (next_state_id : state_id_t) (c : states_compound n E V D R) :
    switched c (switch_to_id M StateT next_state_id c).1 := by
  unfold switch_to_id
  split_ifs with h h0
  · have h0' : next_state_id < n := h0
    simp only [get_state_info_lt M next_state_id h0', init_states_info_step]
    rcases h1 : (M.states_type_list StateT).on_leave_state c.fields with ⟨d1, _ | w1⟩
    · rcases h2 : (M.states_type_list ⟨next_state_id, h0'⟩).on_enter_state d1 with ⟨d2, _ | w2⟩
      · simp only [states_compound.record, h1, h2, _set_current_state]
        exact ⟨[.on_leave_state StateT, .on_enter_state ⟨next_state_id, h0'⟩], by simp,
          by simp [call.is_switch_hook], Or.inr ⟨⟨next_state_id, h0'⟩, rfl, by simp⟩, rfl⟩
      · simp only [states_compound.record, h1, h2]
        exact ⟨[.on_leave_state StateT, .on_enter_state ⟨next_state_id, h0'⟩], by simp,
          by simp [call.is_switch_hook], Or.inl rfl, rfl⟩
    · simp only [states_compound.record, h1]
      exact ⟨[.on_leave_state StateT], by simp, by simp [call.is_switch_hook], Or.inl rfl, rfl⟩
  · cases get_current_state_name M c <;> exact switched_refl c
  · exact switched_refl c

/-- What the run of a body can have done to the machine. -/
theorem run_switched (M : machine_type n E V D R) (StateT : Fin n) {α : Type}
    (b : body n D α) : ∀ c : states_compound n E V D R, switched c (run M StateT b c).1 := by
  induction b with
  | ret r => intro c; exact switched_refl c
  | throw w => intro c; exact switched_refl c
  | modify f k ih => intro c; exact switched_trans (switched_fields c _) (ih _)
  | read k ih => intro c; exact ih _ c
  | switch_to T k ih =>
    intro c
    have hs := switch_to_switched M StateT T c
    simp only [run]
    rcases h : switch_to M StateT T c with ⟨c1, _ | e | _⟩
    · rw [h] at hs; exact switched_trans hs (ih c1)
    · rw [h] at hs; exact hs
    · rw [h] at hs; exact hs
  | switch_to_id i k ih =>
    intro c
    have hs := switch_to_id_switched M StateT i c
    simp only [run]
    rcases h : switch_to_id M StateT i c with ⟨c1, _ | e | _⟩
    · rw [h] at hs; exact switched_trans hs (ih c1)
    · rw [h] at hs; exact hs
    · rw [h] at hs; exact hs
  | undefined => intro c; exact switched_refl c

/-- User code leaves the current state identifier below `states_count`. -/
theorem switched_lt {c c1 : states_compound n E V D R} (h : switched c c1)
    (hc : c.m_CurrentState < n) : c1.m_CurrentState < n := by
  obtain ⟨_, _, _, s | ⟨T, hT, _⟩, _⟩ := h
  · rw [s]; exact hc
  · rw [← hT]; exact T.isLt

/-- The call that `process` makes in a declared state: `first` of the entry made for it. -/
theorem process_eq (M : machine_type n E V D R) (S : Fin n) (evt : any E V)
    (c : states_compound n E V D R) (hc : c.m_CurrentState = state_id S) :
    process M evt c
      = call_process_fun M (init_process_functions_step M evt.type S).first evt c := by
  unfold process get_current_state_id
  rw [hc, state_id, state_dispatcher_getElem?]

/-- The element `find?` gives is the first that satisfies the predicate. -/
theorem find?_first {α : Type} (p : α → Bool) (l pre post : List α) (x : α)
    (hl : l = pre ++ x :: post) (hx : p x = true) (hpre : ∀ y ∈ pre, p y = false) :
    l.find? p = some x := by
  subst hl
  induction pre with
  | nil => simp [hx]
  | cons y ys ih =>
    have hy : p y = false := hpre y (by simp)
    simp only [List.cons_append, List.find?_cons, hy]
    exact ih (fun z hz => hpre z (by simp [hz]))

/-- C1. In a state that has a handler for the event and no applicable rule, `process` is the run
of that handler on that state: the handler is called once, every other call made is a leave or
enter hook, called by a `switch_to` of the handler, and the machine stays in the state unless
one of these calls entered another state. -/
theorem process_without_transition (M : machine_type n E V D R) (S : Fin n) (evt : any E V)
    (handler : V → body n D R) (c : states_compound n E V D R)
    (hc : c.m_CurrentState = state_id S)
    (hh : (M.states_type_list S).on_process evt.type = some handler)
    (hr : ∀ T ∈ complete_transitions_type_list M S, T.is_applicable S evt.type = false) :
    process M evt c = run M S (handler evt.value) (c.record (.on_process S evt)) ∧
    ∃ hooks : List (call n E V),
      (process M evt c).1.calls = c.calls ++ call.on_process S evt :: hooks ∧
      (∀ x ∈ hooks, x.is_switch_hook = true) ∧
      ((process M evt c).1.m_CurrentState = state_id S ∨
        ∃ T : Fin n, state_id T = (process M evt c).1.m_CurrentState ∧
          call.on_enter_state T ∈ hooks) := by
  have hnone : (complete_transitions_type_list M S).find?
      (fun T => T.is_applicable S evt.type) = none := by
    rw [List.find?_eq_none]
    intro T hT
    simp [hr T hT]
  have hp : process M evt c = run M S (handler evt.value) (c.record (.on_process S evt)) := by
    rw [process_eq M S evt c hc]
    simp [init_process_functions_step, hnone, do_init_process_functions, call_process_fun,
      deliver_event, hh]
  refine ⟨hp, ?_⟩
  obtain ⟨hooks, e, a, s, _⟩ := run_switched M S (handler evt.value) (c.record (.on_process S evt))
  rw [hp]
  refine ⟨hooks, ?_, a, ?_⟩
  · rw [e]; simp [states_compound.record]
  · rcases s with s | s
    · left; rw [s]; exact hc
    · right; exact s

/-- The element `find?` gives is the one at the first position where the predicate holds. -/
theorem find?_at {α : Type} (p : α → Bool) :
    ∀ (l : List α) (i : Nat) (x : α), l[i]? = some x → p x = true →
      (∀ j y, j < i → l[j]? = some y → p y = false) → l.find? p = some x
  | [], i, x, h, _, _ => by simp at h
  | a :: l, 0, x, h, hx, _ => by
    simp only [List.getElem?_cons_zero, Option.some.injEq] at h
    subst h
    simp [hx]
  | a :: l, i + 1, x, h, hx, hb => by
    have ha : p a = false := hb 0 a (Nat.succ_pos i) (by simp)
    simp only [List.find?_cons, ha]
    refine find?_at p l i x (by simpa using h) hx (fun j y hj hy => ?_)
    exact hb (j + 1) y (Nat.succ_lt_succ hj) (by simpa using hy)

/-- C3. The entry of the dispatch table of an event type at the position of a state `S` is the
one made for `S`. Take the rules of `S` in their order, then the rules of the machine in their
order. A rule of this list that is applicable, no rule before it in the list being applicable,
is the rule the entry is bound to through `perform_transition`; so a rule of the machine is
bound only if no rule of the state is applicable, and a later rule never when an earlier one is
applicable. The entry is bound to `deliver_event` exactly when no rule of the state and no rule
of the machine is applicable. -/
theorem dispatch_first_applicable (M : machine_type n E V D R) (S : Fin n) (EventT : E) :
    ∃ e : entry n E V D, (state_dispatcher M EventT)[state_id S]? = some e ∧ e.second = S ∧
      (∀ (i : Nat) (T : rule n E V D),
        ((M.states_type_list S).transitions_type_list ++ M.transitions_type_list)[i]? = some T →
        T.is_applicable S EventT = true →
        (∀ j T1, j < i →
          ((M.states_type_list S).transitions_type_list ++ M.transitions_type_list)[j]?
            = some T1 → T1.is_applicable S EventT = false) →
        e.first = .perform_transition S T) ∧
      ((e.first = .deliver_event S ∧
          (∀ T ∈ (M.states_type_list S).transitions_type_list,
            T.is_applicable S EventT = false) ∧
          ∀ T ∈ M.transitions_type_list, T.is_applicable S EventT = false) ∨
        ∃ (i : Nat) (T : rule n E V D),
          ((M.states_type_list S).transitions_type_list ++ M.transitions_type_list)[i]? = some T ∧
          e.first = .perform_transition S T ∧ T.is_applicable S EventT = true ∧
          (∀ j T1, j < i →
            ((M.states_type_list S).transitions_type_list ++ M.transitions_type_list)[j]?
              = some T1 → T1.is_applicable S EventT = false) ∧
          ((M.states_type_list S).transitions_type_list.length ≤ i →
            ∀ T1 ∈ (M.states_type_list S).transitions_type_list,
              T1.is_applicable S EventT = false)) := by
  refine ⟨init_process_functions_step M EventT S, state_dispatcher_getElem? M EventT S, ?_, ?_,
    ?_⟩
  · unfold init_process_functions_step do_init_process_functions
    split <;> rfl
  · intro i T hi hT hb
    have h : (complete_transitions_type_list M S).find? (fun T => T.is_applicable S EventT)
        = some T := find?_at _ _ i T hi hT hb
    simp only [init_process_functions_step, h, do_init_process_functions]
  · rcases h : (complete_transitions_type_list M S).find?
        (fun T => T.is_applicable S EventT) with _ | T
    · left
      rw [List.find?_eq_none] at h
      refine ⟨?_, fun T hT => ?_, fun T hT => ?_⟩
      · have h0 : (complete_transitions_type_list M S).find?
            (fun T => T.is_applicable S EventT) = none := by
          rw [List.find?_eq_none]; exact h
        simp only [init_process_functions_step, h0, do_init_process_functions]
      · simpa using h T (List.mem_append_left _ hT)
      · simpa using h T (List.mem_append_right _ hT)
    · right
      have hfirst : (init_process_functions_step M EventT S).first
          = .perform_transition S T := by
        simp only [init_process_functions_step, h, do_init_process_functions]
      rw [List.find?_eq_some] at h
      obtain ⟨hT, pre, post, hl, hpre⟩ := h
      have hl1 : (M.states_type_list S).transitions_type_list ++ M.transitions_type_list
          = pre ++ T :: post := hl
      have hbefore : ∀ j T1, j < pre.length → (pre ++ T :: post)[j]? = some T1 →
          T1.is_applicable S EventT = false := by
        intro j T1 hj hj1
        rw [List.getElem?_append_left hj] at hj1
        have hm : T1 ∈ pre := List.getElem?_mem hj1
        simpa using hpre T1 hm
      refine ⟨pre.length, T, ?_, hfirst, hT, ?_, ?_⟩
      · rw [hl1, List.getElem?_append_right (le_refl _)]; simp
      · rw [hl1]; exact hbefore
      · intro hlen T1 hT1
        obtain ⟨j, hj, hj1⟩ := List.getElem_of_mem hT1
        have hj2 : ((M.states_type_list S).transitions_type_list ++ M.transitions_type_list)[j]?
            = some T1 := by
          rw [List.getElem?_append_left hj, List.getElem?_eq_getElem hj, hj1]
        rw [hl1] at hj2
        exact hbefore j T1 (lt_of_lt_of_le hj hlen) hj2

/-- C2, amended. When `R` is the first applicable rule of the complete list of the current state
`S` (the rules of `S`, then the rules of the machine), `process` is
`perform_transition< S, R, E >`: it calls `R.transit` once, on `S`; if that returns, the state
current then (a declared state `T`) gets the event through `deliver_event< T, E >`, no other
transit being called; and if `T` has a handler for the event, that handler is run once on `T`,
every other call being a leave or enter hook. -/
theorem process_with_transition (M : machine_type n E V D R) (S : Fin n) (evt : any E V)
    (R0 : rule n E V D) (pre post : List (rule n E V D)) (c : states_compound n E V D R)
    (hc : c.m_CurrentState = state_id S)
    (hl : complete_transitions_type_list M S = pre ++ R0 :: post)
    (hR : R0.is_applicable S evt.type = true)
    (hpre : ∀ T ∈ pre, T.is_applicable S evt.type = false) :
    process M evt c = perform_transition M S R0 evt c ∧
    ∀ c1 : states_compound n E V D R,
      run M S (R0.transit S evt) (c.record (.transit R0.name S evt)) = (c1, .returned ()) →
      ∃ T : Fin n, state_id T = c1.m_CurrentState ∧
        process M evt c = deliver_event M T evt c1 ∧
        (∃ hooks : List (call n E V),
          c1.calls = c.calls ++ call.transit R0.name S evt :: hooks ∧
          ∀ x ∈ hooks, x.is_switch_hook = true) ∧
        ∀ handler : V → body n D R, (M.states_type_list T).on_process evt.type = some handler →
          process M evt c = run M T (handler evt.value) (c1.record (.on_process T evt)) ∧
          ∃ hooks : List (call n E V),
            (process M evt c).1.calls = c1.calls ++ call.on_process T evt :: hooks ∧
            ∀ x ∈ hooks, x.is_switch_hook = true := by
  have hfind := find?_first (fun T : rule n E V D => T.is_applicable S evt.type)
    _ pre post R0 hl hR hpre
  have hp : process M evt c = perform_transition M S R0 evt c := by
    rw [process_eq M S evt c hc]
    simp [init_process_functions_step, hfind, do_init_process_functions, call_process_fun]
  refine ⟨hp, ?_⟩
  intro c1 hrun
  have hsw := run_switched M S (R0.transit S evt) (c.record (.transit R0.name S evt))
  rw [hrun] at hsw
  have hlt : c1.m_CurrentState < n := by
    apply switched_lt hsw
    show c.m_CurrentState < n
    rw [hc]; exact S.isLt
  have hd : process M evt c = deliver_event M ⟨c1.m_CurrentState, hlt⟩ evt c1 := by
    rw [hp]
    unfold perform_transition
    rw [hrun]
    simp only [get_current_state_id]
    rw [state_dispatcher_getElem? M evt.type ⟨c1.m_CurrentState, hlt⟩]
    simp only [init_process_functions_step, do_init_process_functions]
    split <;> rfl
  refine ⟨⟨c1.m_CurrentState, hlt⟩, rfl, hd, ?_, ?_⟩
  · obtain ⟨hooks, e, a, _, _⟩ := hsw
    exact ⟨hooks, by rw [e]; simp [states_compound.record], a⟩
  · intro handler hh
    have hr : process M evt c
        = run M ⟨c1.m_CurrentState, hlt⟩ (handler evt.value)
            (c1.record (.on_process ⟨c1.m_CurrentState, hlt⟩ evt)) := by
      rw [hd]; simp [deliver_event, hh]
    refine ⟨hr, ?_⟩
    obtain ⟨hooks, e, a, _, _⟩ := run_switched M ⟨c1.m_CurrentState, hlt⟩ (handler evt.value)
      (c1.record (.on_process ⟨c1.m_CurrentState, hlt⟩ evt))
    rw [hr]
    exact ⟨hooks, by rw [e]; simp [states_compound.record], a⟩

/-- A static `switch_to` whose target is the state it is called on does nothing. -/
theorem switch_to_self (M : machine_type n E V D R) (S : Fin n)
    (c : states_compound n E V D R) : switch_to M S S c = (c, .returned ()) := by
  simp [switch_to, state_id]

/-- A `switch_to` by identifier whose target is the state it is called on does nothing. -/
theorem switch_to_id_self (M : machine_type n E V D R) (S : Fin n)
    (c : states_compound n E V D R) : switch_to_id M S (state_id S) c = (c, .returned ()) := by
  simp [switch_to_id]

/-- For the identifier of a declared state, `switch_to(id)` does what the static `switch_to` to
that state does. -/
theorem switch_to_id_eq_switch_to (M : machine_type n E V D R) (S T : Fin n)
    (c : states_compound n E V D R) :
    switch_to_id M S (state_id T) c = switch_to M S T c := by
  unfold switch_to_id switch_to
  simp only [state_id]
  split_ifs with h h0
  · simp only [get_state_info_lt M T.val T.isLt, init_states_info_step]
  · exact absurd T.isLt h0
  · rfl

/-- A static `switch_to` whose target is not the state it is called on, step by step. -/
theorem switch_to_other (M : machine_type n E V D R) (S T : Fin n)
    (c : states_compound n E V D R) (h : T ≠ S) :
    switch_to M S T c =
      match (M.states_type_list S).on_leave_state c.fields with
      | (d1, some what) =>
        ({ c with fields := d1, calls := c.calls ++ [.on_leave_state S] }, .thrown (.user what))
      | (d1, none) =>
        match (M.states_type_list T).on_enter_state d1 with
        | (d2, some what) =>
          ({ c with fields := d2, calls := c.calls ++ [.on_leave_state S, .on_enter_state T] },
            .thrown (.user what))
        | (d2, none) =>
          ({ c with m_CurrentState := state_id T, fields := d2,
                    calls := c.calls ++ [.on_leave_state S, .on_enter_state T] },
            .returned ()) := by
  have h1 : T.val ≠ S.val := fun e => h (Fin.ext e)
  unfold switch_to
  simp only [get_state_info_lt M T.val T.isLt, state_id, bne_iff_ne, ne_eq, h1,
    not_false_eq_true, if_true]
  rcases e1 : (M.states_type_list S).on_leave_state c.fields with ⟨d1, _ | w1⟩
  · rcases e2 : (M.states_type_list T).on_enter_state d1 with ⟨d2, _ | w2⟩
    · simp [states_compound.record, _set_current_state, e1, e2]
    · simp [states_compound.record, e1, e2]
  · simp [states_compound.record, e1]

/-- What a static `switch_to` that returns has done, on whichever state object it is called. -/
theorem switch_to_returned (M : machine_type n E V D R) (S T : Fin n)
    (c c1 : states_compound n E V D R) (h : switch_to M S T c = (c1, .returned ())) :
    (T = S → c1 = c) ∧
    (T ≠ S → c1.m_CurrentState = state_id T ∧
      c1.calls = c.calls ++ [.on_leave_state S, .on_enter_state T]) ∧
    (c.m_CurrentState = state_id S → c1.m_CurrentState = state_id T) := by
  have hne : T ≠ S → c1.m_CurrentState = state_id T ∧
      c1.calls = c.calls ++ [.on_leave_state S, .on_enter_state T] := by
    intro hTS
    rw [switch_to_other M S T c hTS] at h
    rcases e1 : (M.states_type_list S).on_leave_state c.fields with ⟨d1, _ | w1⟩
    · rcases e2 : (M.states_type_list T).on_enter_state d1 with ⟨d2, _ | w2⟩
      · simp only [e1, e2, Prod.mk.injEq, and_true] at h
        subst h
        exact ⟨rfl, rfl⟩
      · simp [e1, e2] at h
    · simp [e1] at h
  have heq : T = S → c1 = c := by
    intro hTS
    subst hTS
    rw [switch_to_self] at h
    exact (Prod.mk.inj h).1.symm
  refine ⟨heq, hne, ?_⟩
  intro hc
  by_cases hTS : T = S
  · rw [heq hTS, hc, hTS]
  · exact (hne hTS).1

/-- C4, amended. A static `switch_to< T >()` that is called on the object of the current state
`S` and returns normally leaves the machine in `T`; it has done nothing only when the machine
was in `T` already, and it has otherwise called the leave hook of the current state and the
enter hook of `T`, and nothing else, before it has set the current state. -/
theorem switch_to_static (M : machine_type n E V D R) (S T : Fin n)
    (c c1 : states_compound n E V D R) (hS : c.m_CurrentState = state_id S)
    (h : switch_to M S T c = (c1, .returned ())) :
    c1.m_CurrentState = state_id T ∧
    (c1 = c ↔ c.m_CurrentState = state_id T) ∧
    (c.m_CurrentState ≠ state_id T →
      c1.calls = c.calls ++ [.on_leave_state S, .on_enter_state T]) := by
  obtain ⟨heq, hne, hcur⟩ := switch_to_returned M S T c c1 h
  have hiff : c.m_CurrentState = state_id T ↔ T = S := by
    rw [hS]
    constructor
    · intro e; exact Fin.ext e.symm
    · intro e; rw [e]
  refine ⟨hcur hS, ⟨?_, fun e => heq (hiff.mp e)⟩, fun e => (hne (fun hTS => e (hiff.mpr hTS))).2⟩
  intro e
  by_contra hcT
  have hcalls := (hne (fun hTS => hcT (hiff.mpr hTS))).2
  rw [e] at hcalls
  have hlen := congrArg List.length hcalls
  simp at hlen

/-- C5, amended. A `switch_to`, static or by identifier, that is called on the object of the
current state and whose target is the current state does nothing: the machine is unchanged (no
call is added to the trace, the current state is the same) and the call returns. -/
theorem switch_to_current_state (M : machine_type n E V D R) (S T : Fin n)
    (c : states_compound n E V D R) (hS : c.m_CurrentState = state_id S)
    (hT : state_id T = c.m_CurrentState) :
    switch_to M S T c = (c, .returned ()) ∧
    switch_to_id M S c.m_CurrentState c = (c, .returned ()) := by
  have hTS : T = S := Fin.ext (by simpa [state_id] using hT.trans hS)
  subst hTS
  exact ⟨switch_to_self M T c, by rw [hS]; exact switch_to_id_self M T c⟩

/-- C6, amended. A switch, static or by identifier, called on the object of the current state
`A` with another declared state `B` as target: calls the leave hook of `A`; if that throws,
nothing else is called and the machine stays in `A`; otherwise it calls the enter hook of `B` on
the fields the leave hook has left; if that throws the machine stays in `A`; otherwise the
current state becomes `B`. No other call is made. -/
theorem switch_hooks_order (M : machine_type n E V D R) (A B : Fin n)
    (c : states_compound n E V D R) (hA : c.m_CurrentState = state_id A) (hAB : B ≠ A)
    (r : states_compound n E V D R × outcome E V Unit)
    (hr : r = switch_to M A B c ∨ r = switch_to_id M A (state_id B) c) :
    (∀ what, ((M.states_type_list A).on_leave_state c.fields).2 = some what →
      r.2 = .thrown (.user what) ∧ r.1.calls = c.calls ++ [.on_leave_state A] ∧
      r.1.m_CurrentState = state_id A ∧
      r.1.fields = ((M.states_type_list A).on_leave_state c.fields).1) ∧
    (((M.states_type_list A).on_leave_state c.fields).2 = none →
      (∀ what, ((M.states_type_list B).on_enter_state
          ((M.states_type_list A).on_leave_state c.fields).1).2 = some what →
        r.2 = .thrown (.user what) ∧
        r.1.calls = c.calls ++ [.on_leave_state A, .on_enter_state B] ∧
        r.1.m_CurrentState = state_id A) ∧
      (((M.states_type_list B).on_enter_state
          ((M.states_type_list A).on_leave_state c.fields).1).2 = none →
        r.2 = .returned () ∧
        r.1.calls = c.calls ++ [.on_leave_state A, .on_enter_state B] ∧
        r.1.m_CurrentState = state_id B)) ∧
    (((M.states_type_list A).on_leave_state c.fields).2 = none →
      r.1.fields = ((M.states_type_list B).on_enter_state
        ((M.states_type_list A).on_leave_state c.fields).1).1) := by
  have hr1 : r = switch_to M A B c := by
    rcases hr with h | h
    · exact h
    · rw [h, switch_to_id_eq_switch_to]
  rw [hr1, switch_to_other M A B c hAB]
  rcases e1 : (M.states_type_list A).on_leave_state c.fields with ⟨d1, _ | w1⟩
  · rcases e2 : (M.states_type_list B).on_enter_state d1 with ⟨d2, _ | w2⟩
    · simp [e2]
    · simp [e2, hA]
  · simp [hA]

/-- The name of the current state, when the current state identifier is valid. -/
theorem get_current_state_name_lt (M : machine_type n E V D R) (c : states_compound n E V D R)
    (hc : c.m_CurrentState < states_count M) :
    get_current_state_name M c = some (M.states_type_list ⟨c.m_CurrentState, hc⟩).name := by
  simp [get_current_state_name, get_state_info_lt M c.m_CurrentState hc, init_states_info_step]

/-- The type of the current state, when the current state identifier is valid. -/
theorem get_current_state_type_lt (M : machine_type n E V D R) (c : states_compound n E V D R)
    (hc : c.m_CurrentState < states_count M) :
    get_current_state_type M c = some (M.states_type_list ⟨c.m_CurrentState, hc⟩).type := by
  simp [get_current_state_type, get_state_info_lt M c.m_CurrentState hc, init_states_info_step]

/-- The error of `switch_to(id)` for an invalid identifier, on whichever state object it is
called. -/
theorem switch_to_id_invalid (M : machine_type n E V D R) (S : Fin n) (bad_id : state_id_t)
    (c : states_compound n E V D R) (hc : c.m_CurrentState < states_count M)
    (hid : states_count M ≤ bad_id) :
    switch_to_id M S bad_id c = (c, .thrown (.bad_state_id (bad_state_id.mk4 bad_id
      (M.states_type_list ⟨c.m_CurrentState, hc⟩).name (M.states_type_list S).type
      (state_id S)))) := by
  have h1 : bad_id ≠ state_id S := Nat.ne_of_gt (Nat.lt_of_lt_of_le S.isLt hid)
  have h2 : ¬ bad_id < states_count M := Nat.not_lt.mpr hid
  simp [switch_to_id, h1, h2, get_current_state_name_lt M c hc]

/-- The error of the accessors by identifier for an invalid identifier. -/
theorem throw_bad_state_id_lt (M : machine_type n E V D R) (bad_id : state_id_t)
    (c : states_compound n E V D R) (hc : c.m_CurrentState < states_count M) {α : Type} :
    (throw_bad_state_id M c bad_id : outcome E V α) = .thrown (.bad_state_id (bad_state_id.mk4 bad_id
      (M.states_type_list ⟨c.m_CurrentState, hc⟩).name
      (M.states_type_list ⟨c.m_CurrentState, hc⟩).type c.m_CurrentState)) := by
  simp [throw_bad_state_id, get_current_state_name_lt M c hc, get_current_state_type_lt M c hc,
    get_current_state_id]

/-- C7. In a machine whose current state is a declared one (as in every reachable machine), for
an identifier that is not below `states_count`: `switch_to(id)`, called on any state, throws
`bad_state_id` and leaves the machine as it was, trace included; `get_state_type(id)` and
`get_state_name(id)`, which cannot change the machine, throw `bad_state_id`. -/
theorem invalid_id_throws (M : machine_type n E V D R) (bad_id : state_id_t)
    (c : states_compound n E V D R) (hc : c.m_CurrentState < states_count M)
    (hid : states_count M ≤ bad_id) :
    (∀ S : Fin n, ∃ e : bad_state_id, switch_to_id M S bad_id c = (c, .thrown (.bad_state_id e))) ∧
    (∀ (S : Fin n) (k : body n D R), ∃ e : bad_state_id,
      run M S (.switch_to_id bad_id k) c = (c, .thrown (.bad_state_id e))) ∧
    (∃ e : bad_state_id, get_state_type M c bad_id = .thrown (.bad_state_id e)) ∧
    (∃ e : bad_state_id, get_state_name M c bad_id = .thrown (.bad_state_id e)) := by
  have h2 : ¬ bad_id < states_count M := Nat.not_lt.mpr hid
  refine ⟨fun S => ⟨_, switch_to_id_invalid M S bad_id c hc hid⟩,
    fun S k => ⟨bad_state_id.mk4 bad_id (M.states_type_list ⟨c.m_CurrentState, hc⟩).name
      (M.states_type_list S).type (state_id S), ?_⟩,
    ⟨bad_state_id.mk4 bad_id (M.states_type_list ⟨c.m_CurrentState, hc⟩).name
      (M.states_type_list ⟨c.m_CurrentState, hc⟩).type c.m_CurrentState, ?_⟩,
    ⟨bad_state_id.mk4 bad_id (M.states_type_list ⟨c.m_CurrentState, hc⟩).name
      (M.states_type_list ⟨c.m_CurrentState, hc⟩).type c.m_CurrentState, ?_⟩⟩
  · simp only [run, switch_to_id_invalid M S bad_id c hc hid]
  · simp only [get_state_type, h2, if_false]
    exact throw_bad_state_id_lt M bad_id c hc
  · simp only [get_state_name, h2, if_false]
    exact throw_bad_state_id_lt M bad_id c hc

/-- What the `bad_state_id` errors carry, on whichever state object `switch_to(id)` is called. -/
theorem bad_state_id_thrown (M : machine_type n E V D R) (bad_id : state_id_t)
    (c : states_compound n E V D R) (hc : c.m_CurrentState < states_count M)
    (hid : states_count M ≤ bad_id) (S : Fin n) :
    ∃ e1 e2 e3 : bad_state_id,
      get_state_type M c bad_id = .thrown (.bad_state_id e1) ∧
      get_state_name M c bad_id = .thrown (.bad_state_id e2) ∧
      (switch_to_id M S bad_id c).2 = .thrown (.bad_state_id e3) ∧
      e1.state_id = bad_id ∧ e2.state_id = bad_id ∧ e3.state_id = bad_id ∧
      e1.current_state_id = get_current_state_id c ∧
      some e1.current_state_type = get_current_state_type M c ∧
      e1.state_name = get_current_state_name M c ∧
      e2.current_state_id = get_current_state_id c ∧
      some e2.current_state_type = get_current_state_type M c ∧
      e2.state_name = get_current_state_name M c ∧
      e3.state_name = get_current_state_name M c ∧
      e3.current_state_id = state_id S ∧
      e3.current_state_type = (M.states_type_list S).type ∧
      get_current_state_type M c = some (M.states_type_list ⟨c.m_CurrentState, hc⟩).type ∧
      get_current_state_name M c = some (M.states_type_list ⟨c.m_CurrentState, hc⟩).name ∧
      (c.m_CurrentState = state_id S →
        e3.current_state_id = get_current_state_id c ∧
        some e3.current_state_type = get_current_state_type M c) := by
  have h2 : ¬ bad_id < states_count M := Nat.not_lt.mpr hid
  refine ⟨bad_state_id.mk4 bad_id (M.states_type_list ⟨c.m_CurrentState, hc⟩).name
      (M.states_type_list ⟨c.m_CurrentState, hc⟩).type c.m_CurrentState,
    bad_state_id.mk4 bad_id (M.states_type_list ⟨c.m_CurrentState, hc⟩).name
      (M.states_type_list ⟨c.m_CurrentState, hc⟩).type c.m_CurrentState,
    bad_state_id.mk4 bad_id (M.states_type_list ⟨c.m_CurrentState, hc⟩).name
      (M.states_type_list S).type (state_id S), ?_, ?_, ?_, ?_⟩
  · simp only [get_state_type, h2, if_false]
    exact throw_bad_state_id_lt M bad_id c hc
  · simp only [get_state_name, h2, if_false]
    exact throw_bad_state_id_lt M bad_id c hc
  · rw [switch_to_id_invalid M S bad_id c hc hid]
  · refine ⟨rfl, rfl, rfl, rfl, ?_, ?_, rfl, ?_, ?_, ?_, rfl, rfl, ?_, ?_, ?_⟩
    · rw [get_current_state_type_lt M c hc]; rfl
    · rw [get_current_state_name_lt M c hc]; rfl
    · rw [get_current_state_type_lt M c hc]; rfl
    · rw [get_current_state_name_lt M c hc]; rfl
    · rw [get_current_state_name_lt M c hc]; rfl
    · exact get_current_state_type_lt M c hc
    · exact get_current_state_name_lt M c hc
    · intro hS
      have hfin : (⟨c.m_CurrentState, hc⟩ : Fin n) = S := Fin.ext hS
      refine ⟨hS.symm, ?_⟩
      rw [get_current_state_type_lt M c hc, hfin]; rfl

/-- What the error holds when the call is made on the object of the current state. For an
identifier that is not below `states_count`, the `bad_state_id` thrown by `get_state_type(id)`, by `get_state_name(id)` and by a `switch_to(id)` that is called on the
object of the current state `S` carries the identifier in `state_id()`, and its
`current_state_id()`, `current_state_type()` and state name are the identifier, the type and the
name of the current state of the machine. -/
theorem bad_state_id_contents (M : machine_type n E V D R) (bad_id : state_id_t)
    (c : states_compound n E V D R) (S : Fin n) (hS : c.m_CurrentState = state_id S)
    (hid : states_count M ≤ bad_id) :
    ∃ e1 e2 e3 : bad_state_id,
      get_state_type M c bad_id = .thrown (.bad_state_id e1) ∧
      get_state_name M c bad_id = .thrown (.bad_state_id e2) ∧
      switch_to_id M S bad_id c = (c, .thrown (.bad_state_id e3)) ∧
      get_current_state_type M c = some (M.states_type_list S).type ∧
      get_current_state_name M c = some (M.states_type_list S).name ∧
      (∀ e, e = e1 ∨ e = e2 ∨ e = e3 →
        e.state_id = bad_id ∧
        e.current_state_id = get_current_state_id c ∧
        some e.current_state_type = get_current_state_type M c ∧
        e.state_name = get_current_state_name M c) := by
  have hc : c.m_CurrentState < states_count M := by rw [hS]; exact S.isLt
  have hfin : (⟨c.m_CurrentState, hc⟩ : Fin n) = S := Fin.ext hS
  obtain ⟨e1, e2, e3, h1, h2, _, i1, i2, i3, a1, a2, a3, b1, b2, b3, c1, c2, c3, ht, hn, hcur⟩ :=
    bad_state_id_thrown M bad_id c hc hid S
  have h3 := switch_to_id_invalid M S bad_id c hc hid
  refine ⟨e1, e2, _, h1, h2, h3, by rw [ht, hfin], by rw [hn, hfin], ?_⟩
  rintro e (rfl | rfl | rfl)
  · exact ⟨i1, a1, a2, a3⟩
  · exact ⟨i2, b1, b2, b3⟩
  · refine ⟨rfl, hS.symm, ?_, ?_⟩
    · rw [ht, hfin]; rfl
    · rw [hn, hfin]; rfl

/-- The unexpected events routine does not change the current state. -/
theorem on_unexpected_event_state (M : machine_type n E V D R) (c : states_compound n E V D R)
    (evt : any E V) (state_type : type_info) (state_id : state_id_t) :
    (_on_unexpected_event M c evt state_type state_id).1.m_CurrentState = c.m_CurrentState := by
  unfold _on_unexpected_event
  rcases c.m_UnexpectedEventHandler with _ | handler
  · cases get_current_state_name M c <;> rfl
  · simp only
    cases handler evt state_type state_id <;> rfl

/-- The run of a body keeps the current state identifier valid. -/
theorem run_lt (M : machine_type n E V D R) (S : Fin n) {α : Type} (b : body n D α)
    (c : states_compound n E V D R) (hc : c.m_CurrentState < states_count M) :
    (run M S b c).1.m_CurrentState < states_count M :=
  switched_lt (run_switched M S b c) hc

/-- Delivering an event keeps the current state identifier valid. -/
theorem deliver_event_lt (M : machine_type n E V D R) (S : Fin n) (evt : any E V)
    (c : states_compound n E V D R) (hc : c.m_CurrentState < states_count M) :
    (deliver_event M S evt c).1.m_CurrentState < states_count M := by
  unfold deliver_event
  cases (M.states_type_list S).on_process evt.type with
  | none => simp only; rw [on_unexpected_event_state]; exact hc
  | some handler => exact run_lt M S _ _ hc

/-- A transition followed by the delivery keeps the current state identifier valid. -/
theorem perform_transition_lt (M : machine_type n E V D R) (S : Fin n) (T : rule n E V D)
    (evt : any E V) (c : states_compound n E V D R) (hc : c.m_CurrentState < states_count M) :
    (perform_transition M S T evt c).1.m_CurrentState < states_count M := by
  have h := run_lt M S (T.transit S evt) (c.record (.transit T.name S evt)) hc
  unfold perform_transition
  rcases hr : run M S (T.transit S evt) (c.record (.transit T.name S evt)) with ⟨c1, _ | e | _⟩
  · rw [hr] at h
    simp only
    cases (state_dispatcher M evt.type)[get_current_state_id c1]? with
    | none => exact h
    | some e => exact deliver_event_lt M e.second evt c1 h
  · rw [hr] at h; exact h
  · rw [hr] at h; exact h

/-- Processing an event keeps the current state identifier valid. -/
theorem process_lt (M : machine_type n E V D R) (evt : any E V)
    (c : states_compound n E V D R) (hc : c.m_CurrentState < states_count M) :
    (process M evt c).1.m_CurrentState < states_count M := by
  unfold process
  cases (state_dispatcher M evt.type)[get_current_state_id c]? with
  | none => exact hc
  | some e =>
    simp only [call_process_fun]
    cases e.first with
    | deliver_event S => exact deliver_event_lt M S evt c hc
    | perform_transition S T => exact perform_transition_lt M S T evt c hc

/-- The reset steps call the reset hooks, in order, and leave the root as it is. -/
theorem foldl_on_reset_step (M : machine_type n E V D R) (l : List (Fin n)) :
    ∀ c : states_compound n E V D R,
      (l.foldl (fun c s => on_reset_step M s c) c).calls = c.calls ++ l.map call.on_reset ∧
      (l.foldl (fun c s => on_reset_step M s c) c).m_CurrentState = c.m_CurrentState ∧
      (l.foldl (fun c s => on_reset_step M s c) c).m_UnexpectedEventHandler
        = c.m_UnexpectedEventHandler := by
  induction l with
  | nil => intro c; simp
  | cons s l ih =>
    intro c
    obtain ⟨h1, h2, h3⟩ := ih (on_reset_step M s c)
    simp only [List.foldl_cons, List.map_cons]
    refine ⟨?_, ?_, ?_⟩
    · rw [h1]; simp [on_reset_step, states_compound.record]
    · rw [h2]; rfl
    · rw [h3]; rfl

/-- The calls `reset` makes: the reset hook of every state, in the order of the state list. -/
theorem reset_calls (M : machine_type n E V D R) (c : states_compound n E V D R) :
    (reset M c).calls = c.calls ++ (List.finRange n).map call.on_reset := by
  simp only [reset, _set_current_state, on_reset_eq_foldl]
  exact (foldl_on_reset_step M _ c).1

/-- C9. With at least one declared state (a machine with none does not compile), the current
state identifier is below `states_count` in every machine reached from a constructor through
copying, `process`, `reset` and the handler setters; and wherever it is below `states_count`
it stays so through `process`, through `switch_to`, static or by identifier, on any state object
and also when it throws, through `reset`, the handler setters and copying. -/
theorem current_state_valid (M : machine_type n E V D R) (hn : 0 < states_count M) :
    (basic_state_machine M).m_CurrentState < states_count M ∧
    (∀ handler, (basic_state_machine_handler M handler).m_CurrentState < states_count M) ∧
    (∀ c, reachable M c → c.m_CurrentState < states_count M) ∧
    ∀ c : states_compound n E V D R, c.m_CurrentState < states_count M →
      (∀ evt, (process M evt c).1.m_CurrentState < states_count M) ∧
      (∀ S T, (switch_to M S T c).1.m_CurrentState < states_count M) ∧
      (∀ S next_state_id,
        (switch_to_id M S next_state_id c).1.m_CurrentState < states_count M) ∧
      (reset M c).m_CurrentState < states_count M ∧
      (∀ handler, (set_unexpected_event_handler c handler).m_CurrentState < states_count M) ∧
      (set_default_unexpected_event_handler c).m_CurrentState < states_count M ∧
      (state_machine_copy c).m_CurrentState < states_count M := by
  have hstep : ∀ c : states_compound n E V D R, c.m_CurrentState < states_count M →
      (∀ evt, (process M evt c).1.m_CurrentState < states_count M) ∧
      (∀ S T, (switch_to M S T c).1.m_CurrentState < states_count M) ∧
      (∀ S next_state_id,
        (switch_to_id M S next_state_id c).1.m_CurrentState < states_count M) ∧
      (reset M c).m_CurrentState < states_count M ∧
      (∀ handler, (set_unexpected_event_handler c handler).m_CurrentState < states_count M) ∧
      (set_default_unexpected_event_handler c).m_CurrentState < states_count M ∧
      (state_machine_copy c).m_CurrentState < states_count M :=
    fun c hc => ⟨fun evt => process_lt M evt c hc,
      fun S T => switched_lt (switch_to_switched M S T c) hc,
      fun S i => switched_lt (switch_to_id_switched M S i c) hc,
      hn, fun _ => hc, hc, hc⟩
  refine ⟨hn, fun _ => hn, ?_, hstep⟩
  intro c hr
  induction hr with
  | default_constructor => exact hn
  | handler_constructor handler => exact hn
  | copy c _ ih => exact ih
  | process evt c _ ih => exact (hstep c ih).1 evt
  | reset c _ _ => exact hn
  | set_unexpected_event_handler handler c _ ih => exact ih
  | set_default_unexpected_event_handler c _ ih => exact ih

/-- C10. From any machine, `reset()` leaves the current state identifier 0; the calls it makes
are the reset hooks, so it calls no leave hook and no enter hook of any state. -/
theorem reset_calls_no_switch_hook (M : machine_type n E V D R)
    (c : states_compound n E V D R) :
    (reset M c).m_CurrentState = 0 ∧
    ∃ resets : List (call n E V), (reset M c).calls = c.calls ++ resets ∧
      (∀ x ∈ resets, x.is_reset_hook = true) ∧
      ∀ S : Fin n, call.on_leave_state S ∉ resets ∧ call.on_enter_state S ∉ resets := by
  refine ⟨rfl, (List.finRange n).map call.on_reset, reset_calls M c, ?_, ?_⟩
  · intro x hx
    obtain ⟨s, _, rfl⟩ := List.mem_map.mp hx
    rfl
  · intro S
    constructor <;>
    · intro hx
      obtain ⟨s, _, hs⟩ := List.mem_map.mp hx
      cases hs

end boost.fsm.aux

namespace TransitionsTest

open boost boost.fsm boost.fsm.aux

/-- C2, witness: `Event3< int >(10)` in `State2` of the transitions test, where `my_transition`
is the first applicable rule. -/
theorem process_with_transition_witness :
    in_State2.m_CurrentState = state_id State2 ∧
    complete_transitions_type_list StateMachine_t State2
      = [] ++ my_transition ::
          [transition "fsm::transition<fsm::any_state, StraightToEnd, FinalState>" .any_state
            Event.StraightToEnd FinalState] ∧
    my_transition.is_applicable State2 Event.Event3_int = true ∧
    (∀ T ∈ ([] : List (rule 4 Event Value Unit)),
      T.is_applicable State2 Event.Event3_int = false) ∧
    process StateMachine_t ⟨.Event3_int, .of_int 10⟩ in_State2
      = perform_transition StateMachine_t State2 my_transition ⟨.Event3_int, .of_int 10⟩
          in_State2 :=
  ⟨rfl, rfl, rfl, by simp,
    (process_with_transition StateMachine_t State2 ⟨.Event3_int, .of_int 10⟩ my_transition [] _
      in_State2 rfl rfl rfl (by simp)).1⟩

/-- C1, witness: `Event2` in `State2` of the transitions test. -/
theorem process_without_transition_witness :
    in_State2.m_CurrentState = state_id State2 ∧
    (StateMachine_t.states_type_list State2).on_process Event.Event2 = some (fun _ => nothing) ∧
    (∀ T ∈ complete_transitions_type_list StateMachine_t State2,
      T.is_applicable State2 Event.Event2 = false) ∧
    process StateMachine_t ⟨.Event2, .empty⟩ in_State2
      = run StateMachine_t State2 nothing (in_State2.record (.on_process State2 ⟨.Event2, .empty⟩)) :=
  have h : ∀ T ∈ complete_transitions_type_list StateMachine_t State2,
      T.is_applicable State2 Event.Event2 = false := by
    intro T hT
    simp only [complete_transitions_type_list, StateMachine_t, TransitionsMap_t] at hT
    rcases List.mem_append.mp hT with h | h
    · simp [State2, InitialState, State1, State2Impl, basic_state] at h
    · simp at h
      rcases h with h | h <;> subst h <;> rfl
  ⟨rfl, rfl, h,
    (process_without_transition StateMachine_t State2 ⟨.Event2, .empty⟩ (fun _ => nothing)
      in_State2 rfl rfl h).1⟩

end TransitionsTest

namespace EventsTest

open boost boost.fsm boost.fsm.aux

/-- C4, counterexample. The calculator is in `Overflow` and gets `Memorize(1000)`: the handler,
run on the object of `Overflow`, switches to `Calculating`, and its `check_bounds()` then
calls `switch_to< Overflow >()`, which returns normally having done nothing: the machine is in
`Calculating`, not in `Overflow`, and `process` returns with the machine in that state. -/
theorem switch_to_Overflow_does_nothing :
    reachable StreamCalc_t in_Overflow ∧
    in_Overflow.m_CurrentState = state_id Overflow ∧
    at_check_bounds.m_CurrentState = state_id Calculating ∧
    switch_to StreamCalc_t Overflow Overflow at_check_bounds
      = (at_check_bounds, .returned ()) ∧
    at_check_bounds.m_CurrentState ≠ state_id Overflow ∧
    process StreamCalc_t ⟨.Memorize, 1000⟩ in_Overflow = (at_check_bounds, .returned 1000) :=
  ⟨reachable.process _ _ reachable.default_constructor, rfl, rfl, rfl, by decide, rfl⟩

/-- C4, witness: `switch_to< Overflow >()` called on `Calculating` in a new calculator. -/
theorem switch_to_static_witness :
    (basic_state_machine StreamCalc_t).m_CurrentState = state_id Calculating ∧
    switch_to StreamCalc_t Calculating Overflow (basic_state_machine StreamCalc_t)
      = ((switch_to StreamCalc_t Calculating Overflow (basic_state_machine StreamCalc_t)).1,
          .returned ()) ∧
    (switch_to StreamCalc_t Calculating Overflow
      (basic_state_machine StreamCalc_t)).1.m_CurrentState = state_id Overflow :=
  ⟨rfl, rfl, (switch_to_static StreamCalc_t Calculating Overflow
    (basic_state_machine StreamCalc_t) _ rfl rfl).1⟩

end EventsTest

namespace StaleSwitch

open boost boost.fsm boost.fsm.aux

/-- C2, counterexample. In `A` both the rule of `A` for `Go` and the rule of the machine for any
state and `Go` are applicable; `process(Go)` runs the first and never calls the `transit` of the
second, and the machine ends in `B`. -/
theorem second_applicable_rule_not_run :
    complete_transitions_type_list Machine_t A
      = [transition "fsm::transition<A, Go, B>" (.state A) Event.Go B,
         transition "fsm::transition<fsm::any_state, Go, C>" .any_state Event.Go C] ∧
    (transition "fsm::transition<fsm::any_state, Go, C>" .any_state Event.Go C :
      rule 3 Event Unit (List String)).is_applicable A Event.Go = true ∧
    (basic_state_machine Machine_t).m_CurrentState = state_id A ∧
    (process Machine_t ⟨.Go, ()⟩ (basic_state_machine Machine_t)).1.calls
      = [.transit "fsm::transition<A, Go, B>" A ⟨.Go, ()⟩, .on_leave_state A,
         .on_enter_state B, .on_process B ⟨.Go, ()⟩] ∧
    call.transit "fsm::transition<fsm::any_state, Go, C>" A ⟨Event.Go, ()⟩
      ∉ (process Machine_t ⟨.Go, ()⟩ (basic_state_machine Machine_t)).1.calls ∧
    (process Machine_t ⟨.Go, ()⟩ (basic_state_machine Machine_t)).1.m_CurrentState = state_id B := by
  refine ⟨rfl, by decide, rfl, by decide, by decide, by decide⟩

/-- C5, counterexample. The handler of `A` for `Twice` calls `switch_to< B >()` twice (the one
for `TwiceById` calls `switch_to(1)` twice). At the second call the machine is in `B`, the
target; the call runs the leave hook of `A` and the enter hook of `B` again. -/
theorem switch_to_current_runs_hooks :
    (after_first_switch .Twice).m_CurrentState = state_id B ∧
    (switch_to Machine_t A B (after_first_switch .Twice)).1.calls
      = (after_first_switch .Twice).calls ++ [.on_leave_state A, .on_enter_state B] ∧
    (switch_to Machine_t A B (after_first_switch .Twice)).1.fields
      = (after_first_switch .Twice).fields ++ ["A::on_leave_state", "B::on_enter_state"] ∧
    (switch_to_id Machine_t A (after_first_switch .TwiceById).m_CurrentState
        (after_first_switch .TwiceById)).1.calls
      = (after_first_switch .TwiceById).calls ++ [.on_leave_state A, .on_enter_state B] ∧
    process Machine_t ⟨.Twice, ()⟩ (basic_state_machine Machine_t)
      = ((switch_to Machine_t A B (after_first_switch .Twice)).1, .returned ()) ∧
    (process Machine_t ⟨.Twice, ()⟩ (basic_state_machine Machine_t)).1.calls
      = [.on_process A ⟨.Twice, ()⟩, .on_leave_state A, .on_enter_state B, .on_leave_state A,
         .on_enter_state B] :=
  ⟨rfl, by decide, by decide, by decide, rfl, by decide⟩

/-- C5, witness: `switch_to< A >()` and `switch_to(0)` called on `A` in a new machine. -/
theorem switch_to_current_state_witness :
    (basic_state_machine Machine_t).m_CurrentState = state_id A ∧
    state_id A = (basic_state_machine Machine_t).m_CurrentState ∧
    switch_to Machine_t A A (basic_state_machine Machine_t)
      = (basic_state_machine Machine_t, .returned ()) ∧
    switch_to_id Machine_t A (basic_state_machine Machine_t).m_CurrentState
        (basic_state_machine Machine_t)
      = (basic_state_machine Machine_t, .returned ()) :=
  ⟨rfl, rfl, switch_to_current_state Machine_t A A (basic_state_machine Machine_t) rfl rfl⟩

/-- C6, amended, witness: the switch from `A` to `B` in a new machine. -/
theorem switch_hooks_order_witness :
    (basic_state_machine Machine_t).m_CurrentState = state_id A ∧ B ≠ A ∧
    (switch_to Machine_t A B (basic_state_machine Machine_t)).2 = .returned () ∧
    (switch_to Machine_t A B (basic_state_machine Machine_t)).1.calls
      = (basic_state_machine Machine_t).calls ++ [.on_leave_state A, .on_enter_state B] ∧
    (switch_to Machine_t A B (basic_state_machine Machine_t)).1.m_CurrentState = state_id B :=
  ⟨rfl, by decide,
    ((switch_hooks_order Machine_t A B (basic_state_machine Machine_t) rfl (by decide) _
      (Or.inl rfl)).2.1 rfl).2 rfl⟩

/-- C7, witness: the identifier 100 in a new machine of three states. -/
theorem invalid_id_throws_witness :
    (basic_state_machine Machine_t).m_CurrentState < states_count Machine_t ∧
    states_count Machine_t ≤ 100 ∧
    ∃ e : bad_state_id, switch_to_id Machine_t A 100 (basic_state_machine Machine_t)
      = (basic_state_machine Machine_t, .thrown (.bad_state_id e)) :=
  ⟨by decide, by decide,
    (invalid_id_throws Machine_t 100 (basic_state_machine Machine_t) (by decide)
      (by decide)).1 A⟩

/-- C8. The handler of `A` for `Bad` switches to `B` and then calls `switch_to(100)`. The machine
is in `B` when the error is made; the error carries the name of `B`, but the identifier and the
type of `A`, while the error `get_state_type(100)` throws in the same machine carries the name,
the type and the identifier of `B`. -/
theorem bad_state_id_of_stale_object :
    (after_first_switch .Bad).m_CurrentState = state_id B ∧
    get_current_state_id (after_first_switch .Bad) = 1 ∧
    get_current_state_type Machine_t (after_first_switch .Bad) = some "B" ∧
    get_current_state_name Machine_t (after_first_switch .Bad) = some "state B" ∧
    switch_to_id Machine_t A 100 (after_first_switch .Bad)
      = (after_first_switch .Bad, .thrown (.bad_state_id (bad_state_id.mk4 100 "state B" "A" 0))) ∧
    (bad_state_id.mk4 100 "state B" "A" 0).current_state_id
      ≠ get_current_state_id (after_first_switch .Bad) ∧
    some (bad_state_id.mk4 100 "state B" "A" 0).current_state_type
      ≠ get_current_state_type Machine_t (after_first_switch .Bad) ∧
    process Machine_t ⟨.Bad, ()⟩ (basic_state_machine Machine_t)
      = (after_first_switch .Bad, .thrown (.bad_state_id (bad_state_id.mk4 100 "state B" "A" 0))) ∧
    get_state_type Machine_t (after_first_switch .Bad) 100
      = .thrown (.bad_state_id (bad_state_id.mk4 100 "state B" "B" 1)) :=
  ⟨rfl, rfl, by decide, by decide, rfl, by decide, by decide, rfl, rfl⟩

/-- An instance: `switch_to(100)` called on `A` in a new machine. -/
theorem bad_state_id_contents_witness :
    (basic_state_machine Machine_t).m_CurrentState = state_id A ∧
    states_count Machine_t ≤ 100 ∧
    ∃ e : bad_state_id,
      switch_to_id Machine_t A 100 (basic_state_machine Machine_t)
        = (basic_state_machine Machine_t, .thrown (.bad_state_id e)) ∧
      e.state_id = 100 ∧
      e.current_state_id = get_current_state_id (basic_state_machine Machine_t) ∧
      some e.current_state_type
        = get_current_state_type Machine_t (basic_state_machine Machine_t) ∧
      e.state_name = get_current_state_name Machine_t (basic_state_machine Machine_t) :=
  ⟨rfl, by decide,
    match bad_state_id_contents Machine_t 100 (basic_state_machine Machine_t) A rfl
      (by decide) with
    | ⟨_, _, e3, _, _, h3, _, _, h⟩ => ⟨e3, h3, h e3 (Or.inr (Or.inr rfl))⟩⟩

/-- C9, witness: the machine of three states. -/
theorem current_state_valid_witness :
    0 < states_count Machine_t ∧
    ∀ c, reachable Machine_t c → c.m_CurrentState < states_count Machine_t :=
  ⟨by decide, (current_state_valid Machine_t (by decide)).2.2.1⟩

end StaleSwitch

namespace boost.fsm.aux

variable {n : Nat} {E V D R : Type}

/-- The reset steps run the reset hooks on the fields, in order, whatever the hooks throw. -/
theorem foldl_on_reset_step_fields (M : machine_type n E V D R) (l : List (Fin n)) :
    ∀ c : states_compound n E V D R,
      (l.foldl (fun c s => on_reset_step M s c) c).fields
        = l.foldl (fun d s => ((M.states_type_list s).on_reset d).1) c.fields := by
  induction l with
  | nil => intro c; rfl
  | cons s l ih =>
    intro c
    simp only [List.foldl_cons]
    rw [ih]
    rfl

/-- The fields `reset` leaves: the reset hooks run in the order of the state list. -/
theorem reset_fields (M : machine_type n E V D R) (c : states_compound n E V D R) :
    (reset M c).fields
      = (List.finRange n).foldl (fun d s => ((M.states_type_list s).on_reset d).1) c.fields := by
  simp only [reset, _set_current_state, on_reset_eq_foldl]
  exact foldl_on_reset_step_fields M _ c

/-- C11. For any number of states, `reset()` is a plain pass over the state list, also where the
container is made of chunks of five: the calls it makes are the reset hooks, the one of the state
at position `i` at position `i`, so every hook once and in the order of the declarations; each
hook runs on the fields the hook before it has left; and the hook of a state that defines none,
the one of `basic_state`, does nothing. -/
theorem reset_calls_every_reset_hook (M : machine_type n E V D R)
    (c : states_compound n E V D R) :
    reset M c
      = _set_current_state ((List.finRange n).foldl (fun c S => on_reset_step M S c) c) 0 ∧
    (∃ resets : List (call n E V), (reset M c).calls = c.calls ++ resets ∧
      resets.length = n ∧ ∀ S : Fin n, resets[state_id S]? = some (.on_reset S)) ∧
    (reset M c).fields
      = (List.finRange n).foldl (fun d S => ((M.states_type_list S).on_reset d).1) c.fields ∧
    ∀ (type : type_info) (d : D), (basic_state type : state n E V D R).on_reset d = (d, none) := by
  refine ⟨by simp only [reset, on_reset_eq_foldl], ⟨(List.finRange n).map call.on_reset,
    reset_calls M c, by simp, ?_⟩, reset_fields M c, fun _ _ => rfl⟩
  intro S
  rw [List.getElem?_map, state_id, finRange_getElem? S.val S.isLt]
  rfl

end boost.fsm.aux

namespace boost.fsm.aux

variable {n : Nat} {E V D R : Type}

/-- The state list around the state `S`: the states before it, `S`, the states after it. -/
theorem finRange_split (S : Fin n) :
    List.finRange n = (List.finRange n).take S.val ++ S :: (List.finRange n).drop (S.val + 1) := by
  have hlen : S.val < (List.finRange n).length := by simp
  have h := List.drop_eq_getElem_cons hlen
  have hS : (List.finRange n)[S.val] = S := by simp
  rw [hS] at h
  rw [← h, List.take_append_drop]

/-- C12. `reset()` gives a machine, whatever the reset hooks do. If the reset hook of a state `S`
throws, on the fields the hooks of the states before `S` have left, then still: the reset hooks
of all states after `S` are called, they run on the fields the hook of `S` had left when it
threw, the current state identifier is 0 afterwards, and the unexpected events handler is the
one before. -/
theorem reset_discards_errors (M : machine_type n E V D R) (c : states_compound n E V D R)
    (S : Fin n) (what : String)
    (_hthrow : ((M.states_type_list S).on_reset
      (((List.finRange n).take S.val).foldl
        (fun d T => ((M.states_type_list T).on_reset d).1) c.fields)).2 = some what) :
    (reset M c).m_CurrentState = 0 ∧
    (∃ resets : List (call n E V), (reset M c).calls = c.calls ++ resets ∧
      ∀ T : Fin n, S ≤ T → resets[state_id T]? = some (.on_reset T)) ∧
    (reset M c).fields
      = ((List.finRange n).drop (S.val + 1)).foldl
          (fun d T => ((M.states_type_list T).on_reset d).1)
          ((M.states_type_list S).on_reset
            (((List.finRange n).take S.val).foldl
              (fun d T => ((M.states_type_list T).on_reset d).1) c.fields)).1 ∧
    (reset M c).m_UnexpectedEventHandler = c.m_UnexpectedEventHandler := by
  refine ⟨rfl, ⟨(List.finRange n).map call.on_reset, reset_calls M c, ?_⟩, ?_, ?_⟩
  · intro T _
    rw [List.getElem?_map, state_id, finRange_getElem? T.val T.isLt]
    rfl
  · rw [reset_fields]
    conv_lhs => rw [finRange_split S]
    rw [List.foldl_append, List.foldl_cons]
  · simp only [reset, _set_current_state, on_reset_eq_foldl]
    exact (foldl_on_reset_step M _ c).2.2

end boost.fsm.aux

namespace ResetOrder

open boost boost.fsm boost.fsm.aux

/-- C12, witness: the machine of seven states, in which the reset hook of the state at position
2 throws. -/
theorem reset_discards_errors_witness :
    ((Machine_t.states_type_list 2).on_reset
      (((List.finRange 7).take 2).foldl
        (fun d T => ((Machine_t.states_type_list T).on_reset d).1) used.fields)).2
      = some "State2::on_reset" ∧
    (reset Machine_t used).m_CurrentState = 0 ∧
    (reset Machine_t used).calls
      = [.on_reset 0, .on_reset 1, .on_reset 2, .on_reset 3, .on_reset 4, .on_reset 5,
         .on_reset 6] ∧
    (reset Machine_t used).fields = [9, 0, 1, 2, 3, 5, 6] :=
  ⟨by decide, (reset_discards_errors Machine_t used 2 "State2::on_reset" (by decide)).1,
    by decide, by decide⟩

end ResetOrder

namespace boost.fsm.aux

variable {n : Nat} {E V D R : Type}

/-- What `process` does for the state that receives the event: it delivers the event to that
state, which is the current state then; up to then it has called at most one `transit` and
leave and enter hooks, and the unexpected events handler is the one before. -/
theorem receives_process (M : machine_type n E V D R) (evt : any E V)
    (c c1 : states_compound n E V D R) (S : Fin n) (h : receives M evt c S c1) :
    process M evt c = deliver_event M S evt c1 ∧
    c1.m_CurrentState = state_id S ∧
    c1.m_UnexpectedEventHandler = c.m_UnexpectedEventHandler ∧
    ∃ before : List (call n E V), c1.calls = c.calls ++ before ∧
      ∀ x ∈ before, (∃ name S0, x = .transit name S0 evt) ∨ x.is_switch_hook = true := by
  cases h with
  | direct _ hc hr =>
    have hnone : (complete_transitions_type_list M S).find?
        (fun T => T.is_applicable S evt.type) = none := by
      rw [List.find?_eq_none]
      intro T hT
      simp [hr T hT]
    refine ⟨?_, hc, rfl, [], by simp, by simp⟩
    rw [process_eq M S evt c hc]
    simp [init_process_functions_step, hnone, do_init_process_functions, call_process_fun]
  | after_transit S0 _ R0 pre post _ hc hl hR hpre hrun hT =>
    have hfind := find?_first (fun T : rule n E V D => T.is_applicable S0 evt.type)
      _ pre post R0 hl hR hpre
    have hsw := run_switched M S0 (R0.transit S0 evt) (c.record (.transit R0.name S0 evt))
    rw [hrun] at hsw
    obtain ⟨hooks, e, a, _, u⟩ := hsw
    refine ⟨?_, hT, u, .transit R0.name S0 evt :: hooks,
      by rw [e]; simp [states_compound.record], ?_⟩
    · rw [process_eq M S0 evt c hc]
      simp only [init_process_functions_step, hfind, do_init_process_functions,
        call_process_fun, perform_transition, hrun, get_current_state_id]
      rw [hT, state_id, state_dispatcher_getElem? M evt.type S]
      simp only [init_process_functions_step, do_init_process_functions]
      split <;> rfl
    · intro x hx
      rcases List.mem_cons.mp hx with rfl | hx
      · exact Or.inl ⟨_, _, rfl⟩
      · exact Or.inr (a x hx)

/-- C13. With no unexpected events handler installed, as in a machine made by the default
constructor or after `set_default_unexpected_event_handler`, `process` of an event for which the
state `S` that receives it has no handler throws `unexpected_event`; the error holds the event,
the type of `S` and the identifier of `S` (and the name of `S`), and the machine is as it was
when `S` received the event. -/
theorem unexpected_event_thrown (M : machine_type n E V D R) (evt : any E V)
    (c c1 : states_compound n E V D R) (S : Fin n) (hrec : receives M evt c S c1)
    (hnone : c.m_UnexpectedEventHandler = none)
    (hh : (M.states_type_list S).on_process evt.type = none) :
    (∃ e : unexpected_event E V,
      process M evt c = (c1, .thrown (.unexpected_event e)) ∧
      e.event = evt ∧ e.current_state_type = (M.states_type_list S).type ∧
      e.current_state_id = state_id S ∧ e.state_name = some (M.states_type_list S).name) ∧
    (basic_state_machine M).m_UnexpectedEventHandler = none ∧
    ∀ (c0 : states_compound n E V D R) (handler : unexpected_event_handler_t E V R),
      (set_default_unexpected_event_handler
        (set_unexpected_event_handler c0 handler)).m_UnexpectedEventHandler = none := by
  obtain ⟨hp, hcur, hu, _⟩ := receives_process M evt c c1 S hrec
  have hlt : c1.m_CurrentState < states_count M := by rw [hcur]; exact S.isLt
  have hfin : (⟨c1.m_CurrentState, hlt⟩ : Fin n) = S := Fin.ext hcur
  refine ⟨⟨unexpected_event.mk4 evt (M.states_type_list S).name (M.states_type_list S).type
    (state_id S), ?_, rfl, rfl, rfl, rfl⟩, rfl, fun _ _ => rfl⟩
  rw [hp]
  simp only [deliver_event, hh, _on_unexpected_event, hu, hnone,
    get_current_state_name_lt M c1 hlt, hfin]

/-- C14, amended. With an unexpected events handler `h` installed, `process` of an event for
which the state `S` that receives it has no handler calls `h` with the event, the type of `S`
and the identifier of `S`, once (the calls before it are a `transit` and leave and enter hooks
at most), and ends as `h` ends: it returns what `h` returns, and throws no `unexpected_event`.
The machine stays as it was when `S` received the event, in `S`. -/
theorem unexpected_event_handler_called (M : machine_type n E V D R) (evt : any E V)
    (c c1 : states_compound n E V D R) (S : Fin n) (hrec : receives M evt c S c1)
    (h : unexpected_event_handler_t E V R) (hsome : c.m_UnexpectedEventHandler = some h)
    (hh : (M.states_type_list S).on_process evt.type = none) :
    (process M evt c).1
      = c1.record (.unexpected_event_handler evt (M.states_type_list S).type (state_id S)) ∧
    (∃ before : List (call n E V),
      (process M evt c).1.calls = c.calls ++ before ++
        [.unexpected_event_handler evt (M.states_type_list S).type (state_id S)] ∧
      ∀ x ∈ before, (∃ name S0, x = .transit name S0 evt) ∨ x.is_switch_hook = true) ∧
    (∀ r, h evt (M.states_type_list S).type (state_id S) = .ok r →
      (process M evt c).2 = .returned r) ∧
    (∀ e : unexpected_event E V, (process M evt c).2 ≠ .thrown (.unexpected_event e)) ∧
    (process M evt c).1.m_CurrentState = c1.m_CurrentState ∧
    c1.m_CurrentState = state_id S := by
  obtain ⟨hp, hcur, hu, before, hb, hall⟩ := receives_process M evt c c1 S hrec
  have hd : deliver_event M S evt c1
      = (c1.record (.unexpected_event_handler evt (M.states_type_list S).type (state_id S)),
         match h evt (M.states_type_list S).type (state_id S) with
         | .ok r => .returned r
         | .error what => .thrown (.user what)) := by
    simp only [deliver_event, hh, _on_unexpected_event, hu, hsome]
    cases h evt (M.states_type_list S).type (state_id S) <;> rfl
  rw [hp, hd]
  refine ⟨rfl, ⟨before, by simp [states_compound.record, hb], hall⟩, ?_, ?_, rfl, hcur⟩
  · intro r hr
    simp [hr]
  · intro e
    cases h evt (M.states_type_list S).type (state_id S) <;> simp

end boost.fsm.aux
namespace boost.fsm.aux

variable {n : Nat} {E V D R : Type}

/-- A check of every element of a list gives the property for its members. -/
theorem forall_mem_of_all {α : Type} (p : α → Bool) (l : List α)
    (h : l.all (fun x => !p x) = true) : ∀ x ∈ l, p x = false := by
  intro x hx
  have := List.all_eq_true.mp h x hx
  simpa using this

/-- C18. `process` ends as the delivery to the state `S` that receives the event ends, whether
the event comes to `S` with or without a transition before: if `S` has a handler for the event,
as the run of that handler on `S`, so it returns the value the handler returns; if `S` has none
and an unexpected events handler is installed, it returns the value that handler returns. -/
theorem process_returns_handler_value (M : machine_type n E V D R) (evt : any E V)
    (c c1 : states_compound n E V D R) (S : Fin n) (hrec : receives M evt c S c1) :
    process M evt c = deliver_event M S evt c1 ∧
    (∀ handler : V → body n D R, (M.states_type_list S).on_process evt.type = some handler →
      process M evt c = run M S (handler evt.value) (c1.record (.on_process S evt)) ∧
      ∀ r, handler evt.value = .ret r → (process M evt c).2 = .returned r) ∧
    (∀ (h : unexpected_event_handler_t E V R) (r : R),
      (M.states_type_list S).on_process evt.type = none →
      c.m_UnexpectedEventHandler = some h →
      h evt (M.states_type_list S).type (state_id S) = .ok r →
      (process M evt c).2 = .returned r) := by
  obtain ⟨hp, _, hu, _⟩ := receives_process M evt c c1 S hrec
  refine ⟨hp, ?_, ?_⟩
  · intro handler hh
    have hr : process M evt c = run M S (handler evt.value) (c1.record (.on_process S evt)) := by
      rw [hp]; simp only [deliver_event, hh]
    refine ⟨hr, ?_⟩
    intro r hret
    rw [hr, hret]
    rfl
  · intro h r hh hsome hok
    rw [hp]
    simp only [deliver_event, hh, _on_unexpected_event, hu, hsome, hok]

end boost.fsm.aux

namespace TransitionsTest

open boost boost.fsm boost.fsm.aux

/-- No rule is applicable to `InitialState` and an `Event3`. -/
theorem no_rule_InitialState_Event3 (EventT : Event)
    (h : EventT = .Event3_int ∨ EventT = .Event3_string) :
    ∀ T ∈ complete_transitions_type_list StateMachine_t InitialState,
      T.is_applicable InitialState EventT = false := by
  rcases h with rfl | rfl <;> exact forall_mem_of_all _ _ (by decide)

/-- C13, witness: `Event3< std::string >("oops")` in a new machine of the transitions test,
whose `InitialState` has no handlers. -/
theorem unexpected_event_thrown_witness :
    receives StateMachine_t ⟨.Event3_string, .of_string "oops"⟩
      (basic_state_machine StateMachine_t) InitialState (basic_state_machine StateMachine_t) ∧
    (basic_state_machine StateMachine_t).m_UnexpectedEventHandler = none ∧
    (StateMachine_t.states_type_list InitialState).on_process Event.Event3_string = none ∧
    ∃ e : unexpected_event Event Value,
      process StateMachine_t ⟨.Event3_string, .of_string "oops"⟩
          (basic_state_machine StateMachine_t)
        = (basic_state_machine StateMachine_t, .thrown (.unexpected_event e)) ∧
      e.event = ⟨.Event3_string, .of_string "oops"⟩ ∧
      e.current_state_type = "TransitionsTest::InitialState" ∧
      e.current_state_id = 0 :=
  have hrec : receives StateMachine_t ⟨.Event3_string, .of_string "oops"⟩
      (basic_state_machine StateMachine_t) InitialState (basic_state_machine StateMachine_t) :=
    receives.direct InitialState rfl (no_rule_InitialState_Event3 _ (Or.inr rfl))
  ⟨hrec, rfl, rfl,
    match (unexpected_event_thrown StateMachine_t _ _ _ InitialState hrec rfl rfl).1 with
    | ⟨e, h1, h2, h3, h4, _⟩ => ⟨e, h1, h2, h3, h4⟩⟩

/-- C14, counterexample. The machine of the transitions test with a handler installed is in
`InitialState`, which has no handler for `Event1`; `process(Event1())` runs the transition to
`State1` and the handler of `State1`: the unexpected events handler is not called and the
machine is in `State1` afterwards. -/
theorem handler_not_called_after_transition :
    with_handler.m_CurrentState = state_id InitialState ∧
    with_handler.m_UnexpectedEventHandler.isSome = true ∧
    (StateMachine_t.states_type_list InitialState).on_process Event.Event1 = none ∧
    (process StateMachine_t ⟨.Event1, .empty⟩ with_handler).1.calls
      = [.transit "fsm::transition<InitialState, Event1, State1>" InitialState
           ⟨.Event1, .empty⟩,
         .on_leave_state InitialState, .on_enter_state State1,
         .on_process State1 ⟨.Event1, .empty⟩] ∧
    call.unexpected_event_handler ⟨Event.Event1, Value.empty⟩ "TransitionsTest::InitialState" 0
      ∉ (process StateMachine_t ⟨.Event1, .empty⟩ with_handler).1.calls ∧
    (process StateMachine_t ⟨.Event1, .empty⟩ with_handler).1.m_CurrentState = state_id State1 ∧
    (process StateMachine_t ⟨.Event1, .empty⟩ with_handler).1.m_CurrentState
      ≠ with_handler.m_CurrentState :=
  ⟨rfl, rfl, rfl, by decide, by decide, by decide, by decide⟩

/-- C14, witness: `Event3< int >(10)` in the machine of the transitions test made with a
handler. -/
theorem unexpected_event_handler_called_witness :
    receives StateMachine_t ⟨.Event3_int, .of_int 10⟩ with_handler InitialState with_handler ∧
    with_handler.m_UnexpectedEventHandler = some ignore_unexpected ∧
    (StateMachine_t.states_type_list InitialState).on_process Event.Event3_int = none ∧
    (process StateMachine_t ⟨.Event3_int, .of_int 10⟩ with_handler).1
      = with_handler.record (.unexpected_event_handler ⟨.Event3_int, .of_int 10⟩
          "TransitionsTest::InitialState" 0) ∧
    (process StateMachine_t ⟨.Event3_int, .of_int 10⟩ with_handler).2 = .returned () :=
  have hrec : receives StateMachine_t ⟨.Event3_int, .of_int 10⟩ with_handler InitialState
      with_handler :=
    receives.direct InitialState rfl (no_rule_InitialState_Event3 _ (Or.inl rfl))
  ⟨hrec, rfl, rfl,
    (unexpected_event_handler_called StateMachine_t _ _ _ InitialState hrec ignore_unexpected
      rfl rfl).1,
    (unexpected_event_handler_called StateMachine_t _ _ _ InitialState hrec ignore_unexpected
      rfl rfl).2.2.1 () rfl⟩

end TransitionsTest

namespace EventsTest

open boost boost.fsm boost.fsm.aux

/-- C18, witness: `Add(10)` in a new calculator returns 10. -/
theorem process_returns_handler_value_witness :
    receives StreamCalc_t ⟨.Add, 10⟩ (basic_state_machine StreamCalc_t) Calculating
      (basic_state_machine StreamCalc_t) ∧
    process StreamCalc_t ⟨.Add, 10⟩ (basic_state_machine StreamCalc_t)
      = deliver_event StreamCalc_t Calculating ⟨.Add, 10⟩ (basic_state_machine StreamCalc_t) ∧
    (process StreamCalc_t ⟨.Add, 10⟩ (basic_state_machine StreamCalc_t)).2 = .returned 10 :=
  have hrec : receives StreamCalc_t ⟨.Add, 10⟩ (basic_state_machine StreamCalc_t) Calculating
      (basic_state_machine StreamCalc_t) :=
    receives.direct Calculating rfl (forall_mem_of_all _ _ (by decide))
  ⟨hrec, (process_returns_handler_value StreamCalc_t _ _ _ Calculating hrec).1, by decide⟩

end EventsTest
namespace boost.fsm.aux

variable {n : Nat} {E V D R : Type}

/-- C15. For an identifier below `states_count`, `get_state_type(id)` and `get_state_name(id)`
return the type and the name of the state declared at position `id`, the name being the one of
the `get_state_name` of the state class if it defines one and the default made of the type
otherwise; and when the current state identifier is below `states_count`, as it is in every
reachable machine, `get_current_state_type()` and `get_current_state_name()` give what
`get_state_type` and `get_state_name` return for `get_current_state_id()`. -/
theorem state_accessors (M : machine_type n E V D R) (c : states_compound n E V D R)
    (id0 : state_id_t) (hid : id0 < states_count M) :
    get_state_type M c id0 = .returned (M.states_type_list ⟨id0, hid⟩).type ∧
    get_state_name M c id0 = .returned (M.states_type_list ⟨id0, hid⟩).name ∧
    (∀ name, (M.states_type_list ⟨id0, hid⟩).get_state_name = some name →
      get_state_name M c id0 = .returned name) ∧
    ((M.states_type_list ⟨id0, hid⟩).get_state_name = none →
      get_state_name M c id0
        = .returned (construct_type_name (M.states_type_list ⟨id0, hid⟩).type)) ∧
    (c.m_CurrentState < states_count M →
      (get_current_state_type M c).map outcome.returned
        = some (get_state_type M c (get_current_state_id c)) ∧
      (get_current_state_name M c).map outcome.returned
        = some (get_state_name M c (get_current_state_id c))) := by
  have ht : ∀ (i : state_id_t) (hi : i < states_count M),
      get_state_type M c i = .returned (M.states_type_list ⟨i, hi⟩).type := by
    intro i hi
    simp only [get_state_type, hi, if_true, get_state_info_lt M i hi, init_states_info_step]
  have hn : ∀ (i : state_id_t) (hi : i < states_count M),
      get_state_name M c i = .returned (M.states_type_list ⟨i, hi⟩).name := by
    intro i hi
    simp only [get_state_name, hi, if_true, get_state_info_lt M i hi, init_states_info_step]
  refine ⟨ht id0 hid, hn id0 hid, ?_, ?_, ?_⟩
  · intro name h
    rw [hn id0 hid]
    simp only [state.name, h]
  · intro h
    rw [hn id0 hid]
    simp only [state.name, h]
  · intro hc
    rw [get_current_state_type_lt M c hc, get_current_state_name_lt M c hc]
    exact ⟨by rw [get_current_state_id, ht _ hc]; rfl, by rw [get_current_state_id, hn _ hc]; rfl⟩

/-- The current state identifier is below `states_count` in every reachable machine. -/
theorem reachable_lt (M : machine_type n E V D R) (hn : 0 < states_count M)
    (c : states_compound n E V D R) (hr : reachable M c) :
    c.m_CurrentState < states_count M := by
  induction hr with
  | default_constructor => exact hn
  | handler_constructor handler => exact hn
  | copy c _ ih => exact ih
  | process evt c _ ih => exact process_lt M evt c ih
  | reset c _ _ => exact hn
  | set_unexpected_event_handler handler c _ ih => exact ih
  | set_default_unexpected_event_handler c _ ih => exact ih

/-- C16. `is_in_state< T >()` is true exactly when the current state identifier is the position
of `T` in the state list; so whenever the current state identifier is below `states_count`, and
that is in every reachable machine (of a machine type with a state), it is true for exactly one
declared state. -/
theorem is_in_state_iff (M : machine_type n E V D R) (c : states_compound n E V D R)
    (hc : c.m_CurrentState < states_count M) :
    (∀ T : Fin n, is_in_state T c = true ↔ get_current_state_id c = state_id T) ∧
    (∃! T : Fin n, is_in_state T c = true) ∧
    ∀ c1 : states_compound n E V D R, reachable M c1 → ∃! T : Fin n, is_in_state T c1 = true := by
  have hiff : ∀ (c0 : states_compound n E V D R) (T : Fin n),
      is_in_state T c0 = true ↔ get_current_state_id c0 = state_id T := by
    intro c0 T
    simp only [is_in_state, state_id, beq_iff_eq]
    exact eq_comm
  have hone : ∀ c0 : states_compound n E V D R, c0.m_CurrentState < states_count M →
      ∃! T : Fin n, is_in_state T c0 = true := by
    intro c0 h0
    refine ⟨⟨c0.m_CurrentState, h0⟩, (hiff c0 _).mpr rfl, ?_⟩
    intro T hT
    exact Fin.ext ((hiff c0 T).mp hT).symm
  have hn : 0 < states_count M := Nat.lt_of_le_of_lt (Nat.zero_le _) hc
  exact ⟨hiff c, hone c hc, fun c1 hr => hone c1 (reachable_lt M hn c1 hr)⟩

/-- C17. A machine made by either constructor is in the state at position 0 and no hook has
been called; the default constructor installs no unexpected events handler, the other one
installs the handler it is given. -/
theorem constructed (M : machine_type n E V D R) (handler : unexpected_event_handler_t E V R) :
    (basic_state_machine M).m_CurrentState = 0 ∧
    (basic_state_machine M).calls = [] ∧
    (basic_state_machine M).m_UnexpectedEventHandler = none ∧
    (basic_state_machine M).fields = M.fields ∧
    (basic_state_machine_handler M handler).m_CurrentState = 0 ∧
    (basic_state_machine_handler M handler).calls = [] ∧
    (basic_state_machine_handler M handler).m_UnexpectedEventHandler = some handler ∧
    (basic_state_machine_handler M handler).fields = M.fields ∧
    ∀ hn : 0 < n, is_in_state ⟨0, hn⟩ (basic_state_machine M) = true ∧
      is_in_state ⟨0, hn⟩ (basic_state_machine_handler M handler) = true :=
  ⟨rfl, rfl, rfl, rfl, rfl, rfl, rfl, rfl, fun _ => ⟨rfl, rfl⟩⟩

/-- The body `switch_to< N >(); return;` run on a state is the static `switch_to`. -/
theorem run_basic_transition (M : machine_type n E V D R) (S N : Fin n)
    (c : states_compound n E V D R) :
    run M S (basic_transition.transit N) c = switch_to M S N c := by
  simp only [basic_transition.transit, run]
  rcases switch_to M S N c with ⟨c1, _ | e | _⟩ <;> rfl

end boost.fsm.aux

namespace boost.fsm

variable {n : Nat} {E V D R : Type}

/-- C19. The rule `transition< C, E, N >` is applicable to a state and an event type exactly when
the state is `C` and the event type is `E`; with `any_state` for `C`, exactly when the event type
is `E`, for every state; and its `transit`, run on the state it is given, is
`switch_to< N >()` called on that state. -/
theorem transition_rule [DecidableEq E] (name : type_info) (C S N : Fin n) (EventT EvtT : E) :
    ((transition name (.state C) EventT N : aux.rule n E V D).is_applicable S EvtT = true
      ↔ S = C ∧ EvtT = EventT) ∧
    ((transition name .any_state EventT N : aux.rule n E V D).is_applicable S EvtT = true
      ↔ EvtT = EventT) ∧
    ∀ (CurrentStateT : current_state_t n) (evt : any E V),
      (transition name CurrentStateT EventT N : aux.rule n E V D).transit S evt
        = .switch_to N (.ret ()) ∧
      ∀ (M : aux.machine_type n E V D R) (c : aux.states_compound n E V D R),
        aux.run M S ((transition name CurrentStateT EventT N).transit S evt) c
          = aux.switch_to M S N c := by
  refine ⟨?_, ?_, fun _ _ => ⟨rfl, fun M c => aux.run_basic_transition M S N c⟩⟩
  · simp only [transition, Bool.and_eq_true, decide_eq_true_eq]
    constructor
    · rintro ⟨h1, h2⟩; exact ⟨h1.symm, h2⟩
    · rintro ⟨h1, h2⟩; exact ⟨h1.symm, h2⟩
  · simp only [transition, decide_eq_true_eq]

end boost.fsm

namespace TransitionsTest

open boost boost.fsm boost.fsm.aux

/-- C20. In the machine of the transitions test, in each of the four states, whatever the fields,
the trace and the handler: `process(StraightToEnd())` returns and leaves the machine in
`FinalState`. -/
theorem StraightToEnd_ends_in_FinalState (c : states_compound 4 Event Value Unit Unit)
    (value : Value) (hc : c.m_CurrentState < states_count StateMachine_t) :
    (process StateMachine_t ⟨.StraightToEnd, value⟩ c).2 = .returned () ∧
    (process StateMachine_t ⟨.StraightToEnd, value⟩ c).1.m_CurrentState = state_id FinalState ∧
    is_in_state FinalState (process StateMachine_t ⟨.StraightToEnd, value⟩ c).1 = true := by
  obtain ⟨cur, handler, fields, calls⟩ := c
  have hc4 : cur < 4 := hc
  interval_cases cur <;> exact ⟨rfl, rfl, rfl⟩

/-- C20, witness: the machine of the test in `State2`. -/
theorem StraightToEnd_ends_in_FinalState_witness :
    in_State2.m_CurrentState < states_count StateMachine_t ∧
    (process StateMachine_t ⟨.StraightToEnd, .empty⟩ in_State2).2 = .returned () ∧
    (process StateMachine_t ⟨.StraightToEnd, .empty⟩ in_State2).1.m_CurrentState
      = state_id FinalState :=
  ⟨by decide, (StraightToEnd_ends_in_FinalState in_State2 .empty (by decide)).1,
    (StraightToEnd_ends_in_FinalState in_State2 .empty (by decide)).2.1⟩

/-- C16, witness: the machine of the test in `State2`. -/
theorem is_in_state_iff_witness :
    in_State2.m_CurrentState < states_count StateMachine_t ∧
    (∃! T : Fin 4, is_in_state T in_State2 = true) ∧
    is_in_state State2 in_State2 = true :=
  ⟨by decide, (is_in_state_iff StateMachine_t in_State2 (by decide)).2.1, by decide⟩

end TransitionsTest

namespace StaleSwitch

open boost boost.fsm boost.fsm.aux

/-- C15, witness: the state at position 1 of the machine of three states, which defines its
name. -/
theorem state_accessors_witness :
    1 < states_count Machine_t ∧
    get_state_type Machine_t (basic_state_machine Machine_t) 1 = .returned "B" ∧
    get_state_name Machine_t (basic_state_machine Machine_t) 1 = .returned "state B" :=
  ⟨by decide,
    (state_accessors Machine_t (basic_state_machine Machine_t) 1 (by decide)).1,
    (state_accessors Machine_t (basic_state_machine Machine_t) 1 (by decide)).2.1⟩

end StaleSwitch

namespace boost.detail.lw_call_once

variable {W : Type}

/-- The implementation for single-threaded programs is safe. -/
theorem single_thread_safe :
    (single_thread.implementation W).safe (fun _ => True) (fun _ => True) := by
  refine ⟨trivial, trivial, rfl, fun _ _ => trivial, ?_, ?_, ?_, ?_⟩
  · intro t _ ht
    simp only [single_thread.implementation] at ht
    subst ht
    simp [single_thread.implementation, single_thread.BOOST_LWCO_INIT]
  · intro p t fn w _ ht
    simp only [single_thread.implementation] at ht
    subst ht
    simp [single_thread.implementation, single_thread.call_once, single_thread.BOOST_LWCO_INIT]
  · intro p t fn w r _ ht hr
    simp only [single_thread.implementation] at ht hr
    subst ht
    rcases e : fn w with ⟨w1, _ | e1⟩ <;>
      simp [single_thread.call_once, single_thread.BOOST_LWCO_INIT, e] at hr <;>
      subst hr <;> simp [single_thread.implementation]
  · intro p t fn w _ _
    refine ⟨_, rfl, trivial, fun ht => ?_⟩
    simp only [single_thread.implementation] at ht
    subst ht
    rcases e : fn w with ⟨w1, _ | e1⟩ <;>
      simp [single_thread.call_once, single_thread.BOOST_LWCO_INIT, e]

end boost.detail.lw_call_once

namespace boost.detail.lw_call_once

variable {W : Type}

/-- The Win32 implementation with interlocked functions is safe. -/
theorem win32_safe (fuel : Nat) :
    (win32.implementation W (fuel + 1)).safe (fun t : Nat => t = 0 ∨ t = 2)
      (fun t : Nat => t = 0 ∨ t = 2) := by
  refine ⟨Or.inl rfl, Or.inl rfl, rfl, fun _ h => h, ?_, ?_, ?_, ?_⟩
  · rintro t (rfl | rfl) ht
    · rfl
    · simp [win32.implementation] at ht
  · rintro p t fn w (rfl | rfl) ht
    · simp [win32.implementation] at ht
    · simp [win32.implementation, win32.call_once, win32.BOOST_LWCO_INIT,
        win32.InterlockedCompareExchange]
  · rintro p t fn w r (rfl | rfl) ht hr
    · rcases e : fn w with ⟨w1, _ | e1⟩ <;>
        simp [win32.implementation, win32.call_once, win32.BOOST_LWCO_INIT,
          win32.InterlockedCompareExchange, win32.InterlockedIncrement,
          win32.InterlockedExchange, e] at hr <;>
        subst hr <;> simp [win32.implementation]
    · simp [win32.implementation] at ht
  · rintro p t fn w (rfl | rfl) _
    · rcases e : fn w with ⟨w1, _ | e1⟩ <;>
        simp [win32.implementation, win32.call_once, win32.BOOST_LWCO_INIT,
          win32.InterlockedCompareExchange, win32.InterlockedIncrement,
          win32.InterlockedExchange, e]
    · simp [win32.implementation, win32.call_once, win32.BOOST_LWCO_INIT,
        win32.InterlockedCompareExchange]

/-- The Mac OS implementation is safe. -/
theorem macos_safe (fuel : Nat) :
    (macos.implementation W (fuel + 1)).safe (fun t : Nat => t = 0 ∨ t = 2)
      (fun t : Nat => t = 0 ∨ t = 2) := by
  refine ⟨Or.inl rfl, Or.inl rfl, rfl, fun _ h => h, ?_, ?_, ?_, ?_⟩
  · rintro t (rfl | rfl) ht
    · rfl
    · simp [macos.implementation] at ht
  · rintro p t fn w (rfl | rfl) ht
    · simp [macos.implementation] at ht
    · simp [macos.implementation, macos.call_once, macos.OSAtomicAdd32Barrier]
  · rintro p t fn w r (rfl | rfl) ht hr
    · rcases e : fn w with ⟨w1, _ | e1⟩ <;>
        simp [macos.implementation, macos.call_once, macos.BOOST_LWCO_INIT,
          macos.OSAtomicAdd32Barrier, macos.OSAtomicCompareAndSwap32,
          macos.OSAtomicIncrement32Barrier, macos.OSAtomicAnd32, e] at hr <;>
        subst hr <;> simp [macos.implementation]
    · simp [macos.implementation] at ht
  · rintro p t fn w (rfl | rfl) _
    · rcases e : fn w with ⟨w1, _ | e1⟩ <;>
        simp [macos.implementation, macos.call_once, macos.BOOST_LWCO_INIT,
          macos.OSAtomicAdd32Barrier, macos.OSAtomicCompareAndSwap32,
          macos.OSAtomicIncrement32Barrier, macos.OSAtomicAnd32, e]
    · simp [macos.implementation, macos.call_once, macos.OSAtomicAdd32Barrier]

/-- The BeOS implementation with atomic functions is safe. -/
theorem beos_safe (fuel : Nat) :
    (beos.implementation W (fuel + 1)).safe (fun t : Nat => t = 0 ∨ t = 3)
      (fun t : Nat => t = 0 ∨ t = 3) := by
  refine ⟨Or.inl rfl, Or.inl rfl, rfl, fun _ h => h, ?_, ?_, ?_, ?_⟩
  · rintro t (rfl | rfl) ht
    · rfl
    · simp [beos.implementation] at ht
  · rintro p t fn w (rfl | rfl) ht
    · simp [beos.implementation] at ht
    · simp [beos.implementation, beos.call_once, beos.atomic_and]
  · rintro p t fn w r (rfl | rfl) ht hr
    · rcases e : fn w with ⟨w1, _ | e1⟩ <;>
        simp [beos.implementation, beos.call_once, beos.BOOST_LWCO_INIT, beos.atomic_and,
          beos.atomic_or, e] at hr <;>
        subst hr <;> simp [beos.implementation]
    · simp [beos.implementation] at ht
  · rintro p t fn w (rfl | rfl) _
    · rcases e : fn w with ⟨w1, _ | e1⟩ <;>
        simp [beos.implementation, beos.call_once, beos.BOOST_LWCO_INIT, beos.atomic_and,
          beos.atomic_or, e]
    · simp [beos.implementation, beos.call_once, beos.atomic_and]

/-- The Win32 implementation with the SRW lock is safe. -/
theorem win32_srw_safe :
    (win32_srw.implementation W).safe (fun t : win32_srw.call_once_trigger => t.lock = false ∧ (t.done = 0 ∨ t.done = 1))
      (fun t : win32_srw.call_once_trigger => t.lock = false ∧ (t.done = 0 ∨ t.done = 1)) := by
  refine ⟨⟨rfl, Or.inl rfl⟩, ⟨rfl, Or.inl rfl⟩, rfl, fun _ h => h, ?_, ?_, ?_, ?_⟩
  · rintro ⟨done, lock⟩ ⟨hl, hd⟩ ht
    simp only at hl hd
    subst hl
    rcases hd with rfl | rfl
    · rfl
    · simp [win32_srw.implementation] at ht
  · rintro p ⟨done, lock⟩ fn w ⟨hl, hd⟩ ht
    simp only at hl hd
    subst hl
    rcases hd with rfl | rfl
    · simp [win32_srw.implementation] at ht
    · simp [win32_srw.implementation, win32_srw.call_once]
  · rintro p ⟨done, lock⟩ fn w r ⟨hl, hd⟩ ht hr
    simp only at hl hd
    subst hl
    rcases hd with rfl | rfl
    · rcases e : fn w with ⟨w1, _ | e1⟩ <;>
        simp [win32_srw.implementation, win32_srw.call_once,
          win32_srw.AcquireSRWLockExclusive, win32_srw.ReleaseSRWLockExclusive, e] at hr <;>
        subst hr <;> simp [win32_srw.implementation]
    · simp [win32_srw.implementation] at ht
  · rintro p ⟨done, lock⟩ fn w ⟨hl, hd⟩ _
    simp only at hl hd
    subst hl
    rcases hd with rfl | rfl
    · rcases e : fn w with ⟨w1, _ | e1⟩ <;>
        simp [win32_srw.implementation, win32_srw.call_once,
          win32_srw.AcquireSRWLockExclusive, win32_srw.ReleaseSRWLockExclusive, e]
    · simp [win32_srw.implementation, win32_srw.call_once]

end boost.detail.lw_call_once

namespace boost.detail.lw_call_once

variable {W : Type}

/-- The pthreads implementation with a read-write lock is safe. -/
theorem pthreads_rwlock_safe :
    (pthreads_rwlock.implementation W).safe
      (fun t : pthreads_rwlock.call_once_trigger => t.lock = .unlocked)
      (fun t : pthreads_rwlock.call_once_trigger => t.lock = .unlocked) := by
  refine ⟨rfl, rfl, rfl, fun _ h => h, ?_, ?_, ?_, ?_⟩
  · rintro ⟨done, lock⟩ hl ht
    simp only at hl
    subst hl
    simp only [pthreads_rwlock.implementation] at ht
    subst ht
    rfl
  · rintro p ⟨done, lock⟩ fn w hl ht
    simp only at hl
    subst hl
    simp only [pthreads_rwlock.implementation] at ht
    subst ht
    simp [pthreads_rwlock.implementation, pthreads_rwlock.call_once,
      pthreads_rwlock.pthread_rwlock_rdlock, pthreads_rwlock.pthread_rwlock_unlock]
  · rintro p ⟨done, lock⟩ fn w r hl ht hr
    simp only at hl
    subst hl
    simp only [pthreads_rwlock.implementation] at ht
    subst ht
    simp only [pthreads_rwlock.implementation] at p hr
    by_cases hp : p = 0
    · subst hp
      rcases e : fn w with ⟨w1, _ | e1⟩ <;>
        simp [pthreads_rwlock.call_once, pthreads_rwlock.pthread_rwlock_rdlock,
          pthreads_rwlock.pthread_rwlock_wrlock, pthreads_rwlock.pthread_rwlock_unlock,
          e] at hr <;>
        subst hr <;> simp [pthreads_rwlock.implementation]
    · simp [pthreads_rwlock.call_once, pthreads_rwlock.pthread_rwlock_rdlock,
        pthreads_rwlock.pthread_rwlock_wrlock, pthreads_rwlock.pthread_rwlock_unlock,
        hp] at hr
      subst hr
      simp [pthreads_rwlock.implementation]
  · rintro p ⟨done, lock⟩ fn w hl hp
    simp only at hl
    subst hl
    simp only [pthreads_rwlock.implementation, decide_eq_true_eq] at p hp
    subst hp
    cases done
    · rcases e : fn w with ⟨w1, _ | e1⟩ <;>
        simp [pthreads_rwlock.implementation, pthreads_rwlock.call_once,
          pthreads_rwlock.pthread_rwlock_rdlock, pthreads_rwlock.pthread_rwlock_wrlock,
          pthreads_rwlock.pthread_rwlock_unlock, e]
    · simp [pthreads_rwlock.implementation, pthreads_rwlock.call_once,
        pthreads_rwlock.pthread_rwlock_rdlock, pthreads_rwlock.pthread_rwlock_unlock]

/-- The pthreads implementation with atomic functions is safe; a call in which
`pthread_mutex_lock` fails leaves the counter of threads incremented. -/
theorem pthreads_safe (fuel : Nat) :
    (pthreads.implementation W (fuel + 1)).safe
      (fun t : pthreads.call_once_trigger => t.done = false → t.mutex = .unlocked)
      (fun t : pthreads.call_once_trigger =>
        t.thread_count = 0 ∧ (t.done = false → t.mutex = .unlocked)) := by
  refine ⟨fun _ => rfl, ⟨rfl, fun _ => rfl⟩, rfl, fun _ h => h.2, ?_, ?_, ?_, ?_⟩
  · rintro ⟨done, thread_count, mutex⟩ ⟨hc, hm⟩ ht
    simp only at hc hm
    simp only [pthreads.implementation] at ht
    subst ht
    subst hc
    have := hm rfl
    subst this
    rfl
  · rintro p ⟨done, thread_count, mutex⟩ fn w _ ht
    simp only [pthreads.implementation] at ht
    subst ht
    simp [pthreads.implementation, pthreads.call_once]
  · rintro p ⟨done, thread_count, mutex⟩ fn w r hm ht hr
    simp only at hm
    simp only [pthreads.implementation] at ht
    subst ht
    have := hm rfl
    subst this
    simp only [pthreads.implementation] at p hr
    by_cases hp : p = 0
    · subst hp
      rcases e : fn w with ⟨w1, _ | e1⟩
      · simp [pthreads.call_once, pthreads.pthread_mutex_lock,
          pthreads.scoped_call_once_lock_destroy, pthreads.pthread_mutex_unlock,
          pthreads.pthread_mutex_destroy, e] at hr
        rcases e2 : pthreads.wait (fuel + 1) thread_count with _ | u
        · simp [e2] at hr
        · simp [e2] at hr
          subst hr
          simp [pthreads.implementation]
      · simp [pthreads.call_once, pthreads.pthread_mutex_lock,
          pthreads.scoped_call_once_lock_destroy, pthreads.pthread_mutex_unlock, e] at hr
        subst hr
        simp [pthreads.implementation]
    · simp [pthreads.call_once, pthreads.pthread_mutex_lock, hp] at hr
      subst hr
      simp [pthreads.implementation]
  · rintro p ⟨done, thread_count, mutex⟩ fn w ⟨hc, hm⟩ hp
    simp only at hc hm
    subst hc
    simp only [pthreads.implementation, decide_eq_true_eq] at p hp
    subst hp
    cases done
    · have := hm rfl
      subst this
      rcases e : fn w with ⟨w1, _ | e1⟩ <;>
        simp [pthreads.implementation, pthreads.call_once, pthreads.pthread_mutex_lock,
          pthreads.scoped_call_once_lock_destroy, pthreads.pthread_mutex_unlock,
          pthreads.pthread_mutex_destroy, pthreads.wait, e]
    · simp [pthreads.implementation, pthreads.call_once]

end boost.detail.lw_call_once

namespace boost.detail.lw_call_once

variable {W : Type}

/-- The identifier of a semaphore that `create_sem` has made is not 0 as a content of the
32-bit cell. -/
theorem beos_sem.created_toNat_ne_zero (created : Int) (h0 : created ≠ 0)
    (hc : ¬ created < 0) : created.toNat ≠ 0 := by
  intro h
  have := Int.toNat_eq_zero.mp h
  omega

/-- The BeOS implementation with a semaphore is safe. -/
theorem beos_sem_safe (fuel : Nat) :
    (beos_sem.implementation W (fuel + 1)).safe
      (fun t : beos_sem.call_once_trigger => t.lock = 0 ∧ (t.flag = true → t.semaphore ≠ 0))
      (fun t : beos_sem.call_once_trigger => t.lock = 0 ∧ (t.flag = true → t.semaphore ≠ 0)) := by
  refine ⟨⟨rfl, fun h => by simp [beos_sem.implementation, beos_sem.BOOST_LWCO_INIT] at h⟩,
    ⟨rfl, fun h => by simp [beos_sem.implementation, beos_sem.BOOST_LWCO_INIT] at h⟩, rfl,
    fun _ h => h, ?_, ?_, ?_, ?_⟩
  · rintro ⟨flag, lock, semaphore⟩ ⟨hl, _⟩ ht
    simp only at hl
    simp only [beos_sem.implementation] at ht
    subst hl
    subst ht
    rfl
  · rintro ⟨⟨created, h0⟩, status⟩ ⟨flag, lock, semaphore⟩ fn w ⟨hl, hs⟩ ht
    simp only at hl hs
    simp only [beos_sem.implementation] at ht
    subst hl
    subst ht
    have hs := hs rfl
    by_cases hst : status = 0
    · simp [beos_sem.implementation, beos_sem.call_once, beos.atomic_or, hs, hst]
    · simp [beos_sem.implementation, beos_sem.call_once, beos.atomic_or, hs, hst]
  · rintro ⟨⟨created, h0⟩, status⟩ ⟨flag, lock, semaphore⟩ fn w r ⟨hl, _⟩ ht hr
    simp only at hl
    simp only [beos_sem.implementation] at ht hr
    subst hl
    subst ht
    by_cases hs : semaphore = 0
    · subst hs
      by_cases hc : created < 0
      · simp [beos_sem.call_once, beos_sem.atomic_add, beos.atomic_or, hc] at hr
        subst hr
        simp [beos_sem.implementation]
      · have hn := beos_sem.created_toNat_ne_zero created h0 hc
        by_cases hst : status = 0
        · rcases e : fn w with ⟨w1, _ | e1⟩ <;>
            simp [beos_sem.call_once, beos_sem.atomic_add, beos.atomic_or, hc, hst, e] at hr <;>
            subst hr <;> simp [beos_sem.implementation, hn]
        · simp [beos_sem.call_once, beos_sem.atomic_add, beos.atomic_or, hc, hst] at hr
          subst hr
          simp [beos_sem.implementation]
    · by_cases hst : status = 0
      · rcases e : fn w with ⟨w1, _ | e1⟩ <;>
          simp [beos_sem.call_once, beos.atomic_or, hs, hst, e] at hr <;>
          subst hr <;> simp [beos_sem.implementation, hs]
      · simp [beos_sem.call_once, beos.atomic_or, hs, hst] at hr
        subst hr
        simp [beos_sem.implementation]
  · rintro ⟨⟨created, h0⟩, status⟩ ⟨flag, lock, semaphore⟩ fn w ⟨hl, hf⟩ hp
    simp only at hl hf
    simp only [beos_sem.implementation, Bool.and_eq_true, decide_eq_true_eq] at hp
    obtain ⟨hc, hst⟩ := hp
    subst hl
    subst hst
    have hc : ¬ created < 0 := not_lt.mpr hc
    have hn := beos_sem.created_toNat_ne_zero created h0 hc
    by_cases hs : semaphore = 0
    · subst hs
      cases flag
      · rcases e : fn w with ⟨w1, _ | e1⟩ <;>
          simp [beos_sem.implementation, beos_sem.call_once, beos_sem.atomic_add,
            beos.atomic_or, hc, hn, e]
      · exact absurd rfl (hf rfl)
    · cases flag
      · rcases e : fn w with ⟨w1, _ | e1⟩ <;>
          simp [beos_sem.implementation, beos_sem.call_once, beos.atomic_or, hs, e]
      · simp [beos_sem.implementation, beos_sem.call_once, beos.atomic_or, hs]

/-- Each of the eight implementations, given fuel, is safe. -/
theorem implementations_safe (fuel : Nat) (v : implementation W)
    (hv : v ∈ implementations W (fuel + 1)) : ∃ quiet calm, v.safe quiet calm := by
  simp only [implementations, List.mem_cons, List.mem_singleton, List.not_mem_nil,
    or_false] at hv
  rcases hv with rfl | rfl | rfl | rfl | rfl | rfl | rfl | rfl
  · exact ⟨_, _, single_thread_safe⟩
  · exact ⟨_, _, win32_safe fuel⟩
  · exact ⟨_, _, win32_srw_safe⟩
  · exact ⟨_, _, pthreads_safe fuel⟩
  · exact ⟨_, _, pthreads_rwlock_safe⟩
  · exact ⟨_, _, macos_safe fuel⟩
  · exact ⟨_, _, beos_safe fuel⟩
  · exact ⟨_, _, beos_sem_safe fuel⟩

end boost.detail.lw_call_once

namespace boost.detail.lw_call_once

variable {W : Type}

/-- A call on a consistent trigger that comes to an end leaves a consistent trigger; when it
returns, the trigger is done and an execution has returned. -/
theorem implementation.call_once_consistent (v : implementation W)
    (quiet calm : v.call_once_trigger → Prop) (hs : v.safe quiet calm)
    (h : history v.call_once_trigger W) (hc : v.consistent quiet h) (p : v.platform_results)
    (fn : function_object W) (r : result v.call_once_trigger W)
    (hr : v.call_once p h.trigger fn h.world = some r) :
    v.consistent quiet { trigger := r.trigger, world := r.world, log := h.log ++ r.calls } ∧
      (r.thrown = none → v.is_done r.trigger = true ∧ true ∈ h.log ++ r.calls) := by
  obtain ⟨_, _, _, _, _, hdone, hnot, _⟩ := hs
  obtain ⟨hq, hl0, hl1⟩ := hc
  rcases hd : v.is_done h.trigger with _ | _
  · obtain ⟨hq1, hcase⟩ := hnot p h.trigger fn h.world r hq hd hr
    rcases hcase with ⟨h1, h2, h3⟩ | ⟨h1, _, h3, h4⟩
    · refine ⟨⟨hq1, fun _ => ?_, fun h5 => ?_⟩, fun h5 => absurd h5 h2⟩
      · simpa [h1] using hl0 hd
      · simp only at h5
        rw [h3] at h5
        cases h5
    · rcases e : (fn h.world).2 with _ | e1
      · rw [e] at h1 h3 h4
        simp only [Option.isNone_none] at h1 h4
        refine ⟨⟨hq1, fun h5 => ?_, fun _ => ?_⟩, fun _ => ⟨h4, by simp [h1]⟩⟩
        · simp only at h5
          rw [h4] at h5
          cases h5
        · simp [h1, List.count_eq_zero.mpr (hl0 hd)]
      · rw [e] at h1 h3 h4
        simp only [Option.isNone_some] at h1 h4
        refine ⟨⟨hq1, fun _ => ?_, fun h5 => ?_⟩, fun h5 => ?_⟩
        · simpa [h1] using hl0 hd
        · simp only at h5
          rw [h4] at h5
          cases h5
        · rw [h3] at h5
          cases h5
  · obtain ⟨r1, hr1, h1, h2, h3, _⟩ := hdone p h.trigger fn h.world hq hd
    rw [hr] at hr1
    cases hr1
    have hm : true ∈ h.log := by
      have : 0 < h.log.count true := by
        rw [hl1 hd]
        exact Nat.one_pos
      simpa using List.count_pos_iff.mp this
    refine ⟨⟨by rw [h1]; exact hq, fun h5 => ?_, fun _ => ?_⟩, fun _ => ⟨by rw [h1]; exact hd, ?_⟩⟩
    · simp only at h5
      rw [h1, hd] at h5
      cases h5
    · simpa [h3] using hl1 hd
    · simp [h3, hm]

/-- A sequence of calls on a consistent trigger that comes to an end leaves a consistent
trigger. -/
theorem implementation.call_sequence_consistent (v : implementation W)
    (quiet calm : v.call_once_trigger → Prop) (hs : v.safe quiet calm)
    (calls : List (v.platform_results × function_object W)) :
    ∀ h : history v.call_once_trigger W, v.consistent quiet h →
      ∀ h1, v.call_sequence calls h = some h1 → v.consistent quiet h1 := by
  induction calls with
  | nil =>
    intro h hc h1 hh
    simp only [implementation.call_sequence, Option.some.injEq] at hh
    subst hh
    exact hc
  | cons c rest ih =>
    intro h hc h1 hh
    simp only [implementation.call_sequence] at hh
    rcases e : v.call_once c.1 h.trigger c.2 h.world with _ | r
    · simp [e] at hh
    · simp only [e] at hh
      exact ih _ (implementation.call_once_consistent v quiet calm hs h hc c.1 c.2 r e).1 h1 hh

/-- A sequence of calls in which the platform succeeds, on a calm trigger, comes to an end and
leaves a calm trigger. -/
theorem implementation.call_sequence_calm (v : implementation W)
    (quiet calm : v.call_once_trigger → Prop) (hs : v.safe quiet calm)
    (calls : List (v.platform_results × function_object W))
    (hall : ∀ c ∈ calls, v.succeeded c.1 = true) :
    ∀ h : history v.call_once_trigger W, calm h.trigger →
      ∃ h1, v.call_sequence calls h = some h1 ∧ calm h1.trigger := by
  induction calls with
  | nil => exact fun h hc => ⟨h, rfl, hc⟩
  | cons c rest ih =>
    intro h hc
    obtain ⟨r, hr, hc1, _⟩ :=
      hs.2.2.2.2.2.2.2 c.1 h.trigger c.2 h.world hc (hall c (List.mem_cons_self _ _))
    obtain ⟨h1, hh1, hc2⟩ :=
      ih (fun c1 hc1 => hall c1 (List.mem_cons_of_mem _ hc1))
        ⟨r.trigger, r.world, h.log ++ r.calls⟩ hc1
    exact ⟨h1, by simp only [implementation.call_sequence, hr, hh1], hc2⟩

/-- The initial trigger with no execution is consistent. -/
theorem implementation.consistent_init (v : implementation W)
    (quiet calm : v.call_once_trigger → Prop) (hs : v.safe quiet calm) (w : W) :
    v.consistent quiet { trigger := v.BOOST_LWCO_INIT, world := w, log := [] } :=
  ⟨hs.1, fun _ => by simp, fun h => by
    simp only at h
    rw [hs.2.2.1] at h
    cases h⟩

/-- C25. In each of the eight implementations, whatever the platform returns in the calls, a
sequence of calls of `call_once` on a trigger that starts in its initial value, none made while
another runs, with function objects that return or throw, has at most one execution that
returned when it has come to an end, and it does come to an end when the platform succeeds in
every call. Once an execution has returned, a further call comes to an end without executing its
function object and leaves the trigger and the program as they are; it returns, unless the
platform fails in it. -/
theorem at_most_one_execution_returns (fuel : Nat) (v : implementation W)
    (hv : v ∈ implementations W (fuel + 1))
    (calls : List (v.platform_results × function_object W)) (w : W) :
    ((∀ c ∈ calls, v.succeeded c.1 = true) →
      ∃ h, v.call_sequence calls
        { trigger := v.BOOST_LWCO_INIT, world := w, log := [] } = some h) ∧
    ∀ h, v.call_sequence calls { trigger := v.BOOST_LWCO_INIT, world := w, log := [] } = some h →
      h.log.count true ≤ 1 ∧
      (true ∈ h.log → ∀ (p : v.platform_results) (fn : function_object W),
        ∃ r, v.call_once p h.trigger fn h.world = some r ∧ r.calls = [] ∧
          r.trigger = h.trigger ∧ r.world = h.world ∧
          (v.succeeded p = true → r.thrown = none)) := by
  obtain ⟨quiet, calm, hs⟩ := implementations_safe fuel v hv
  refine ⟨fun hall => ?_, fun h hh => ?_⟩
  · obtain ⟨h, hh, _⟩ :=
      implementation.call_sequence_calm v quiet calm hs calls hall
        ⟨v.BOOST_LWCO_INIT, w, []⟩ hs.2.1
    exact ⟨h, hh⟩
  · obtain ⟨hq, hl0, hl1⟩ :=
      implementation.call_sequence_consistent v quiet calm hs calls _
        (implementation.consistent_init v quiet calm hs w) h hh
    rcases hd : v.is_done h.trigger with _ | _
    · refine ⟨?_, fun hm => absurd hm (hl0 hd)⟩
      simp [List.count_eq_zero.mpr (hl0 hd)]
    · refine ⟨by rw [hl1 hd], fun _ p fn => ?_⟩
      obtain ⟨r, hr, h1, h2, h3, h4⟩ := hs.2.2.2.2.2.1 p h.trigger fn h.world hq hd
      exact ⟨r, hr, h3, h1, h2, h4⟩

/-- C26. In each of the eight implementations, whatever the platform returns in the calls, when
a call of `call_once` made after any sequence of calls on a trigger that started in its initial
value returns without an exception, the trigger is done and an execution of a function object on
the trigger has returned, in this call or in an earlier one. The call does come to an end when
the platform has succeeded in every call. -/
theorem normal_return_means_done (fuel : Nat) (v : implementation W)
    (hv : v ∈ implementations W (fuel + 1))
    (calls : List (v.platform_results × function_object W)) (w : W)
    (h : history v.call_once_trigger W)
    (hh : v.call_sequence calls
      { trigger := v.BOOST_LWCO_INIT, world := w, log := [] } = some h)
    (p : v.platform_results) (fn : function_object W) :
    ((∀ c ∈ calls, v.succeeded c.1 = true) → v.succeeded p = true →
      ∃ r, v.call_once p h.trigger fn h.world = some r) ∧
    ∀ r, v.call_once p h.trigger fn h.world = some r → r.thrown = none →
      v.is_done r.trigger = true ∧ true ∈ h.log ++ r.calls := by
  obtain ⟨quiet, calm, hs⟩ := implementations_safe fuel v hv
  refine ⟨fun hall hp => ?_, fun r hr hn => ?_⟩
  · obtain ⟨h1, hh1, hc⟩ :=
      implementation.call_sequence_calm v quiet calm hs calls hall
        ⟨v.BOOST_LWCO_INIT, w, []⟩ hs.2.1
    rw [hh] at hh1
    cases hh1
    obtain ⟨r, hr, _⟩ := hs.2.2.2.2.2.2.2 p h.trigger fn h.world hc hp
    exact ⟨r, hr⟩
  · have hc := implementation.call_sequence_consistent v quiet calm hs calls _
      (implementation.consistent_init v quiet calm hs w) h hh
    exact (implementation.call_once_consistent v quiet calm hs h hc p fn r hr).2 hn

/-- C27, amended. In each of the eight implementations, after a sequence of calls on a trigger
that started in its initial value, in all of which the platform has succeeded, when the function
object throws in a call on a trigger that is not done and the platform succeeds in the call, the
call throws the same exception after that one execution; the trigger is not done afterwards, and
it holds its initial value again, but for the semaphore that the BeOS trigger with a semaphore
keeps; and the next call in which the platform succeeds executes its function object once. -/
theorem failed_execution_retried (fuel : Nat) (v : implementation W)
    (hv : v ∈ implementations W (fuel + 1))
    (calls : List (v.platform_results × function_object W)) (w : W)
    (hall : ∀ c ∈ calls, v.succeeded c.1 = true)
    (h : history v.call_once_trigger W)
    (hh : v.call_sequence calls
      { trigger := v.BOOST_LWCO_INIT, world := w, log := [] } = some h)
    (hn : v.is_done h.trigger = false) (p : v.platform_results) (hp : v.succeeded p = true)
    (fn : function_object W) (e : String) (he : (fn h.world).2 = some e) :
    ∃ r, v.call_once p h.trigger fn h.world = some r ∧ r.thrown = some e ∧
      r.calls = [false] ∧ r.world = (fn h.world).1 ∧ v.is_done r.trigger = false ∧
      v.same_but_semaphore r.trigger v.BOOST_LWCO_INIT = true ∧
      ∀ (q : v.platform_results) (gn : function_object W), v.succeeded q = true →
        ∃ r2, v.call_once q r.trigger gn r.world = some r2 ∧
          r2.calls = [(gn r.world).2.isNone] ∧ r2.world = (gn r.world).1 ∧
          r2.thrown = (gn r.world).2 := by
  obtain ⟨quiet, calm, hs⟩ := implementations_safe fuel v hv
  obtain ⟨h1, hh1, hc⟩ :=
    implementation.call_sequence_calm v quiet calm hs calls hall
      ⟨v.BOOST_LWCO_INIT, w, []⟩ hs.2.1
  rw [hh] at hh1
  cases hh1
  obtain ⟨r, hr, hc1, hex⟩ := hs.2.2.2.2.2.2.2 p h.trigger fn h.world hc hp
  obtain ⟨h1, h2, h3⟩ := hex hn
  rw [he] at h1 h3
  simp only [Option.isNone_some] at h1
  have hd : v.is_done r.trigger = false := by
    obtain ⟨_, hcase⟩ := hs.2.2.2.2.2.2.1 p h.trigger fn h.world r (hs.2.2.2.1 _ hc) hn hr
    rcases hcase with ⟨h4, _, _⟩ | ⟨_, _, _, h4⟩
    · rw [h1] at h4
      cases h4
    · rw [h4, he]
      rfl
  refine ⟨r, hr, h3, h1, h2, hd, hs.2.2.2.2.1 r.trigger hc1 hd, fun q gn hq => ?_⟩
  obtain ⟨r2, hr2, _, hex2⟩ := hs.2.2.2.2.2.2.2 q r.trigger gn r.world hc1 hq
  exact ⟨r2, hr2, hex2 hd⟩

end boost.detail.lw_call_once

namespace CallOnceTest

open boost.detail.lw_call_once

/-- C25, witness: five calls on a trigger of the pthreads implementation with atomic functions.
The function object of the first throws, that of the second returns; in the third
`pthread_mutex_lock` would fail, but a done trigger takes no lock. -/
theorem at_most_one_execution_returns_pthreads :
    pthreads.implementation Nat 1 ∈ implementations Nat (0 + 1) ∧
    ∃ h, (pthreads.implementation Nat 1).call_sequence
        [((0 : Int), fail), ((0 : Int), count), ((22 : Int), count), ((0 : Int), fail),
          ((0 : Int), count)]
        { trigger := pthreads.BOOST_LWCO_INIT, world := 0, log := [] } = some h ∧
      h.log = [false, true] ∧ h.world = 2 ∧
      h.log.count true ≤ 1 ∧
      (true ∈ h.log → ∀ (p : Int) (fn : function_object Nat),
        ∃ r, (pthreads.implementation Nat 1).call_once p h.trigger fn h.world = some r ∧
          r.calls = [] ∧ r.trigger = h.trigger ∧ r.world = h.world ∧
          ((pthreads.implementation Nat 1).succeeded p = true → r.thrown = none)) :=
  ⟨by simp [implementations],
    ⟨{ trigger := { done := true, thread_count := 0, mutex := .destroyed }, world := 2,
       log := [false, true] }, rfl, rfl, rfl,
      (at_most_one_execution_returns 0 (pthreads.implementation Nat 1)
        (by simp [implementations])
        [((0 : Int), fail), ((0 : Int), count), ((22 : Int), count), ((0 : Int), fail),
          ((0 : Int), count)] 0).2 _ rfl⟩⟩

/-- C26, witness: a call on a BeOS trigger with a semaphore after a call whose function object
threw, which has left the semaphore 7 in the trigger. -/
theorem normal_return_means_done_beos_sem :
    beos_sem.implementation Nat 1 ∈ implementations Nat (0 + 1) ∧
    (beos_sem.implementation Nat 1).call_sequence [((semaphore_7, 0), fail)]
      { trigger := beos_sem.BOOST_LWCO_INIT, world := 0, log := [] } =
        some { trigger := { flag := false, lock := 0, semaphore := 7 }, world := 1,
               log := [false] } ∧
    (beos_sem.implementation Nat 1).call_once (semaphore_7, 0)
      { flag := false, lock := 0, semaphore := 7 } count 1 =
        some { trigger := { flag := true, lock := 0, semaphore := 7 }, world := 2,
               calls := [true], thrown := none } ∧
    ∀ r, (beos_sem.implementation Nat 1).call_once (semaphore_7, 0)
        { flag := false, lock := 0, semaphore := 7 } count 1 = some r → r.thrown = none →
      (beos_sem.implementation Nat 1).is_done r.trigger = true ∧ true ∈ [false] ++ r.calls :=
  ⟨by simp [implementations], rfl, rfl,
    (normal_return_means_done 0 (beos_sem.implementation Nat 1) (by simp [implementations])
      [((semaphore_7, 0), fail)] 0
      { trigger := { flag := false, lock := 0, semaphore := 7 }, world := 1, log := [false] }
      rfl (semaphore_7, 0) count).2⟩

/-- C27, counterexample. On the initial trigger of the BeOS implementation with a semaphore, a
call whose function object throws leaves the semaphore it has made in the trigger, which is not
the initial value; in the next call `acquire_sem` fails, and the call throws without an
execution of its function object. In the pthreads implementation with atomic functions, after
a call in which `pthread_mutex_lock` has failed, a call whose function object throws leaves the
counter of threads at 1. -/
theorem failed_execution_keeps_semaphore :
    beos_sem.call_once 1 7 0 beos_sem.BOOST_LWCO_INIT fail 0
      = some { trigger := { flag := false, lock := 0, semaphore := 7 }, world := 1,
               calls := [false], thrown := some "fail" } ∧
    ({ flag := false, lock := 0, semaphore := 7 } : beos_sem.call_once_trigger)
      ≠ beos_sem.BOOST_LWCO_INIT ∧
    beos_sem.call_once 1 7 (-1) { flag := false, lock := 0, semaphore := 7 } count 1
      = some { trigger := { flag := false, lock := 0, semaphore := 7 }, world := 1,
               calls := [],
               thrown := some
                 "lightweight call_once: failed to acquire semaphore, error code: -1" } ∧
    pthreads.call_once 1 22 pthreads.BOOST_LWCO_INIT fail 0
      = some { trigger := { done := false, thread_count := 1, mutex := .unlocked }, world := 0,
               calls := [],
               thrown := some
                 "lightweight call_once: pthread_mutex_lock failed, error code: 22" } ∧
    pthreads.call_once 1 0 { done := false, thread_count := 1, mutex := .unlocked } fail 0
      = some { trigger := { done := false, thread_count := 1, mutex := .unlocked }, world := 1,
               calls := [false], thrown := some "fail" } ∧
    ({ done := false, thread_count := 1, mutex := .unlocked } : pthreads.call_once_trigger)
      ≠ pthreads.BOOST_LWCO_INIT := by
  decide

/-- C27, amended, witness: a second throwing call on a trigger of the pthreads implementation
with a read-write lock, after a call whose function object threw. -/
theorem failed_execution_retried_rwlock :
    pthreads_rwlock.implementation Nat ∈ implementations Nat (0 + 1) ∧
    (∀ c ∈ [((0 : Int), fail)], (pthreads_rwlock.implementation Nat).succeeded c.1 = true) ∧
    (pthreads_rwlock.implementation Nat).call_sequence [((0 : Int), fail)]
      { trigger := pthreads_rwlock.BOOST_LWCO_INIT, world := 0, log := [] } =
        some { trigger := pthreads_rwlock.BOOST_LWCO_INIT, world := 1, log := [false] } ∧
    (fail 1).2 = some "fail" ∧
    ∃ r, (pthreads_rwlock.implementation Nat).call_once (0 : Int)
        pthreads_rwlock.BOOST_LWCO_INIT fail 1 = some r ∧
      r.thrown = some "fail" ∧ r.calls = [false] ∧ r.world = (fail 1).1 ∧
      (pthreads_rwlock.implementation Nat).is_done r.trigger = false ∧
      (pthreads_rwlock.implementation Nat).same_but_semaphore r.trigger
        pthreads_rwlock.BOOST_LWCO_INIT = true ∧
      ∀ (q : Int) (gn : function_object Nat),
        (pthreads_rwlock.implementation Nat).succeeded q = true →
        ∃ r2, (pthreads_rwlock.implementation Nat).call_once q r.trigger gn r.world = some r2 ∧
          r2.calls = [(gn r.world).2.isNone] ∧ r2.world = (gn r.world).1 ∧
          r2.thrown = (gn r.world).2 :=
  ⟨by simp [implementations], by simp [pthreads_rwlock.implementation], rfl, rfl,
    failed_execution_retried 0 (pthreads_rwlock.implementation Nat) (by simp [implementations])
      [((0 : Int), fail)] 0 (by simp [pthreads_rwlock.implementation])
      { trigger := pthreads_rwlock.BOOST_LWCO_INIT, world := 1, log := [false] } rfl rfl
      (0 : Int) rfl fail "fail" rfl⟩

end CallOnceTest

namespace boost.fsm.aux

variable {n : Nat} {E V D R : Type}

end boost.fsm.aux

namespace TransitionsTest

open boost boost.fsm boost.fsm.aux

end TransitionsTest

namespace Turnstile

open boost boost.fsm boost.fsm.aux

/-- C21. In the turnstile example, `process(Ticket(X))` on a machine in `Idle` returns and leaves
the machine in `Processing`, for every `X`; `process(ValidityCheckResult(true))` on a machine in
`Processing` returns and leaves it in `Passing`, and `process(ValidityCheckResult(false))`
returns and leaves it in `Idle`. -/
theorem turnstile_transitions (c : states_compound 3 Event Value Fields Unit) :
    (c.m_CurrentState = state_id Idle → ∀ X : String,
      (process TurnstileStateMachine ⟨.Ticket, .Ticket X⟩ c).2 = .returned () ∧
      is_in_state Processing
        (process TurnstileStateMachine ⟨.Ticket, .Ticket X⟩ c).1 = true) ∧
    (c.m_CurrentState = state_id Processing →
      (process TurnstileStateMachine
        ⟨.ValidityCheckResult, .ValidityCheckResult true⟩ c).2 = .returned () ∧
      is_in_state Passing (process TurnstileStateMachine
        ⟨.ValidityCheckResult, .ValidityCheckResult true⟩ c).1 = true ∧
      (process TurnstileStateMachine
        ⟨.ValidityCheckResult, .ValidityCheckResult false⟩ c).2 = .returned () ∧
      is_in_state Idle (process TurnstileStateMachine
        ⟨.ValidityCheckResult, .ValidityCheckResult false⟩ c).1 = true) := by
  obtain ⟨cur, handler, fields, calls⟩ := c
  refine ⟨fun hc X => ?_, fun hc => ?_⟩
  · cases hc
    exact ⟨rfl, rfl⟩
  · cases hc
    exact ⟨rfl, rfl, rfl, rfl⟩

/-- C21, witness: a new machine of the example, which is in `Idle`, and the machine after
`process(Ticket("1234567"))`, which is in `Processing`. -/
theorem turnstile_transitions_witness :
    ((basic_state_machine TurnstileStateMachine).m_CurrentState = state_id Idle ∧
      (process TurnstileStateMachine ⟨.Ticket, .Ticket "1234567"⟩
        (basic_state_machine TurnstileStateMachine)).2 = .returned () ∧
      is_in_state Processing (process TurnstileStateMachine ⟨.Ticket, .Ticket "1234567"⟩
        (basic_state_machine TurnstileStateMachine)).1 = true) ∧
    ((process TurnstileStateMachine ⟨.Ticket, .Ticket "1234567"⟩
        (basic_state_machine TurnstileStateMachine)).1.m_CurrentState = state_id Processing ∧
      is_in_state Passing (process TurnstileStateMachine
        ⟨.ValidityCheckResult, .ValidityCheckResult true⟩
        (process TurnstileStateMachine ⟨.Ticket, .Ticket "1234567"⟩
          (basic_state_machine TurnstileStateMachine)).1).1 = true) :=
  ⟨⟨rfl, (turnstile_transitions (basic_state_machine TurnstileStateMachine)).1 rfl "1234567"⟩,
    ⟨rfl, ((turnstile_transitions (process TurnstileStateMachine ⟨.Ticket, .Ticket "1234567"⟩
      (basic_state_machine TurnstileStateMachine)).1).2 rfl).2.1⟩⟩

end Turnstile

namespace LockingTest

open boost boost.fsm boost.fsm.aux

/-- C22. In the machine of the locking test, `reset()` after any sequence of `process` calls,
those that throw included, on a machine in any condition leaves the machine in `InitialState`
with the six flags of the states false and the events trace empty. -/
theorem reset_after_any_events (events : List (any Event Value))
    (c : states_compound 4 Event Value Fields Unit) :
    is_in_state InitialState (reset StateMachine_t (process_all events c)) = true ∧
    (reset StateMachine_t (process_all events c)).fields.m_Event1Received = false ∧
    (reset StateMachine_t (process_all events c)).fields.m_Event2Received = false ∧
    (reset StateMachine_t (process_all events c)).fields.m_EventBaseReceived = false ∧
    (reset StateMachine_t (process_all events c)).fields.m_Event3Received = false ∧
    (reset StateMachine_t (process_all events c)).fields.m_OnEnterStateReceived = false ∧
    (reset StateMachine_t (process_all events c)).fields.m_OnLeaveStateReceived = false ∧
    (reset StateMachine_t (process_all events c)).fields.m_EventsTrace = "" := by
  generalize process_all events c = c1
  obtain ⟨cur, handler, ⟨a1, a2, a3, a4, a5, a6, a7, a8⟩, calls⟩ := c1
  exact ⟨rfl, rfl, rfl, rfl, rfl, rfl, rfl, rfl⟩

end LockingTest

namespace boost.fsm

variable {n : Nat} {E V D R : Type}

/-- The base object of a copy and of an assigned machine is the base object of the source. -/
theorem locking_state_machine.copies_base (m target : locking_state_machine n E V D R)
    (this : Nat) (hsame : target.address = m.address → target = m)
    (x : locking_state_machine n E V D R)
    (hx : x ∈ [(locking_state_machine.copy this m).1, (locking_state_machine.assign target m).1,
      (locking_state_machine.assign_other target m).1]) : x.base = m.base := by
  simp only [List.mem_cons, List.mem_singleton, List.not_mem_nil, or_false] at hx
  rcases hx with rfl | rfl | rfl
  · rfl
  · unfold locking_state_machine.assign
    by_cases h : target.address = m.address
    · simp [h, hsame h]
    · simp [h, aux.state_machine_assign]
  · rfl

/-- The memory after `store` holds the stored object at its address and is as before
elsewhere. -/
theorem memory.store_objects (mem : memory n E V D R) (x : locking_state_machine n E V D R)
    (a : Nat) :
    (mem.store x).objects a = if a = x.address then some x.base else mem.objects a := by
  simp [memory.store, Function.update_apply]

/-- A call of `process` on the object at an address changes the memory at that address only,
to what `process` of the machine without locking leaves of the object. -/
theorem memory.process_objects (M : aux.machine_type n E V D R) (evt : any E V)
    (mem : memory n E V D R) (this : Nat) (c : aux.states_compound n E V D R)
    (hc : mem.objects this = some c) :
    ∃ mem1, mem.process M evt this
        = some ((mem1, (aux.process M evt c).2), [.lock this, .unlock this]) ∧
      mem1.objects this = some (aux.process M evt c).1 ∧
      ∀ a, a ≠ this → mem1.objects a = mem.objects a := by
  refine ⟨mem.store { address := this, base := (aux.process M evt c).1 },
    by simp [memory.process, memory.object, hc, locking_state_machine.process], ?_, ?_⟩
  · simp [memory.store_objects]
  · intro a ha
    simp [memory.store_objects, ha]

/-- C23. In a memory that holds a machine `m` at the address `that`, the copying constructor
makes a machine at any other address `this`, and both assignment operators assign to a machine
there is at `this`. The memory after any of the three holds at `this` a machine with the current
state id, the data of the states and the unexpected events handler of `m`; it holds `m` at
`that`, as before, and it is as before at every address but `this`. Afterwards, for every event,
`process` on the machine at `this` comes to an end and leaves the memory as it is at every
other address, `that` among them, and `process` on the machine at `that` comes to an end and
leaves the memory as it is at every other address, `this` among them. -/
theorem copy_and_assignment (M : aux.machine_type n E V D R) (mem : memory n E V D R)
    (this that : Nat) (m : aux.states_compound n E V D R)
    (hm : mem.objects that = some m) (hne : this ≠ that) :
    (∃ mem1, mem.construct_copy this that = some (mem1, [.lock that, .unlock that])) ∧
    (mem.objects this ≠ none →
      (∃ r, mem.assign this that = some r) ∧ ∃ r, mem.assign_other this that = some r) ∧
    ∀ mem1 calls,
      mem.construct_copy this that = some (mem1, calls) ∨
        mem.assign this that = some (mem1, calls) ∨
        mem.assign_other this that = some (mem1, calls) →
      (∃ c, mem1.objects this = some c ∧ c.m_CurrentState = m.m_CurrentState ∧
        c.fields = m.fields ∧ c.m_UnexpectedEventHandler = m.m_UnexpectedEventHandler) ∧
      mem1.objects that = some m ∧
      (∀ a, a ≠ this → mem1.objects a = mem.objects a) ∧
      ∀ evt : any E V,
        (∃ mem2 r calls2, mem1.process M evt this = some ((mem2, r), calls2) ∧
          mem2.objects that = some m ∧ ∀ a, a ≠ this → mem2.objects a = mem1.objects a) ∧
        (∃ mem2 r calls2, mem1.process M evt that = some ((mem2, r), calls2) ∧
          mem2.objects this = mem1.objects this ∧
          ∀ a, a ≠ that → mem2.objects a = mem1.objects a) := by
  have hthat : mem.object that = some { address := that, base := m } := by
    simp [memory.object, hm]
  have key : ∀ mem1 : memory n E V D R, mem1.objects this = some m →
      (∀ a, a ≠ this → mem1.objects a = mem.objects a) →
      (∃ c, mem1.objects this = some c ∧ c.m_CurrentState = m.m_CurrentState ∧
        c.fields = m.fields ∧ c.m_UnexpectedEventHandler = m.m_UnexpectedEventHandler) ∧
      mem1.objects that = some m ∧
      (∀ a, a ≠ this → mem1.objects a = mem.objects a) ∧
      ∀ evt : any E V,
        (∃ mem2 r calls2, mem1.process M evt this = some ((mem2, r), calls2) ∧
          mem2.objects that = some m ∧ ∀ a, a ≠ this → mem2.objects a = mem1.objects a) ∧
        (∃ mem2 r calls2, mem1.process M evt that = some ((mem2, r), calls2) ∧
          mem2.objects this = mem1.objects this ∧
          ∀ a, a ≠ that → mem2.objects a = mem1.objects a) := by
    intro mem1 h1 h2
    have h3 : mem1.objects that = some m := by rw [h2 that (Ne.symm hne), hm]
    refine ⟨⟨m, h1, rfl, rfl, rfl⟩, h3, h2, fun evt => ⟨?_, ?_⟩⟩
    · obtain ⟨mem2, e1, _, e3⟩ := memory.process_objects M evt mem1 this m h1
      exact ⟨mem2, _, _, e1, by rw [e3 that (Ne.symm hne), h3], e3⟩
    · obtain ⟨mem2, e1, _, e3⟩ := memory.process_objects M evt mem1 that m h3
      exact ⟨mem2, _, _, e1, e3 this hne, e3⟩
  refine ⟨⟨mem.store { address := this, base := aux.state_machine_copy m },
    by simp [memory.construct_copy, hthat, locking_state_machine.copy]⟩, ?_, ?_⟩
  · intro hthis
    rcases e : mem.objects this with _ | target
    · exact absurd e hthis
    · have hobj : mem.object this = some { address := this, base := target } := by
        simp [memory.object, e]
      constructor
      · simp only [memory.assign, hobj, hthat]
        exact ⟨_, rfl⟩
      · simp only [memory.assign_other, hobj, hthat]
        exact ⟨_, rfl⟩
  · intro mem1 calls h
    rcases h with h | h | h
    · simp only [memory.construct_copy, hthat, locking_state_machine.copy,
        aux.state_machine_copy, Option.some.injEq, Prod.mk.injEq] at h
      obtain ⟨rfl, _⟩ := h
      refine key _ (by simp [memory.store_objects]) (fun a ha => ?_)
      simp [memory.store_objects, ha]
    · rcases e : mem.objects this with _ | target
      · simp [memory.assign, memory.object, e] at h
      · have hobj : mem.object this = some { address := this, base := target } := by
          simp [memory.object, e]
        simp only [memory.assign, hobj, hthat, locking_state_machine.assign, ne_eq, hne,
          not_false_eq_true, if_true, aux.state_machine_assign, Option.some.injEq,
          Prod.mk.injEq] at h
        obtain ⟨rfl, _⟩ := h
        refine key _ (by simp [memory.store_objects]) (fun a ha => ?_)
        simp [memory.store_objects, ha]
    · rcases e : mem.objects this with _ | target
      · simp [memory.assign_other, memory.object, e] at h
      · have hobj : mem.object this = some { address := this, base := target } := by
          simp [memory.object, e]
        simp only [memory.assign_other, hobj, hthat, locking_state_machine.assign_other,
          aux.state_machine_assign, Option.some.injEq, Prod.mk.injEq] at h
        obtain ⟨rfl, _⟩ := h
        refine key _ (by simp [memory.store_objects]) (fun a ha => ?_)
        simp [memory.store_objects, ha]

/-- C24. For two locking machines at different addresses, the assignments `a = b` and `b = a`
acquire the mutex of the machine at the lower address first and the mutex of the other machine
second, with the assignment operator and with the one for other threading strategies; the
assignment of a machine to itself with the assignment operator calls no mutex and leaves the
machine as it is. -/
theorem assignment_lock_order (a b : locking_state_machine n E V D R)
    (h : a.address ≠ b.address) :
    locking_state_machine.acquired (locking_state_machine.assign a b).2
      = [min a.address b.address, max a.address b.address] ∧
    locking_state_machine.acquired (locking_state_machine.assign b a).2
      = [min a.address b.address, max a.address b.address] ∧
    locking_state_machine.acquired (locking_state_machine.assign_other a b).2
      = [min a.address b.address, max a.address b.address] ∧
    locking_state_machine.acquired (locking_state_machine.assign_other b a).2
      = [min a.address b.address, max a.address b.address] ∧
    locking_state_machine.assign a a = (a, []) := by
  have h1 : b.address ≠ a.address := fun e => h e.symm
  refine ⟨?_, ?_, ?_, ?_, ?_⟩
  · rcases Nat.lt_or_gt_of_ne h with hlt | hgt
    · simp [locking_state_machine.assign, h, hlt, locking_state_machine.acquired,
        Nat.min_eq_left (Nat.le_of_lt hlt), Nat.max_eq_right (Nat.le_of_lt hlt)]
    · simp [locking_state_machine.assign, h, Nat.not_lt.mpr (Nat.le_of_lt hgt),
        locking_state_machine.acquired,
        Nat.min_eq_right (Nat.le_of_lt hgt), Nat.max_eq_left (Nat.le_of_lt hgt)]
  · rcases Nat.lt_or_gt_of_ne h with hlt | hgt
    · simp [locking_state_machine.assign, h1, Nat.not_lt.mpr (Nat.le_of_lt hlt),
        locking_state_machine.acquired,
        Nat.min_eq_left (Nat.le_of_lt hlt), Nat.max_eq_right (Nat.le_of_lt hlt)]
    · simp [locking_state_machine.assign, h1, hgt, locking_state_machine.acquired,
        Nat.min_eq_right (Nat.le_of_lt hgt), Nat.max_eq_left (Nat.le_of_lt hgt)]
  · rcases Nat.lt_or_gt_of_ne h with hlt | hgt
    · simp [locking_state_machine.assign_other, hlt, locking_state_machine.acquired,
        Nat.min_eq_left (Nat.le_of_lt hlt), Nat.max_eq_right (Nat.le_of_lt hlt)]
    · simp [locking_state_machine.assign_other, Nat.not_lt.mpr (Nat.le_of_lt hgt),
        locking_state_machine.acquired,
        Nat.min_eq_right (Nat.le_of_lt hgt), Nat.max_eq_left (Nat.le_of_lt hgt)]
  · rcases Nat.lt_or_gt_of_ne h with hlt | hgt
    · simp [locking_state_machine.assign_other, Nat.not_lt.mpr (Nat.le_of_lt hlt),
        locking_state_machine.acquired,
        Nat.min_eq_left (Nat.le_of_lt hlt), Nat.max_eq_right (Nat.le_of_lt hlt)]
    · simp [locking_state_machine.assign_other, hgt, locking_state_machine.acquired,
        Nat.min_eq_right (Nat.le_of_lt hgt), Nat.max_eq_left (Nat.le_of_lt hgt)]
  · simp [locking_state_machine.assign]

end boost.fsm

namespace LockingTest

open boost boost.fsm boost.fsm.aux

/-- C23, witness: the test `locking_copying`. The memory holds `fsm1`, in `State1`, at the
address 100; the declaration `StateMachine_t fsm2 = fsm1;` makes the machine at the address 200,
in `State1` with the data of `fsm1`, and leaves `fsm1` as it is. After `fsm1.process(Event1())`
and `fsm2.process(Event3< int >(10))` the machine at 100 is in `FinalState` and the one at 200 in
`State2`, each with the flag of its own event only, and after `fsm2 = fsm1;` both are in
`FinalState`. -/
theorem copy_and_assignment_witness :
    memory1.objects 100 = some fsm1.base ∧ 200 ≠ 100 ∧
    (∃ mem1, memory1.construct_copy 200 100 = some (mem1, [.lock 100, .unlock 100]) ∧
      (∃ c, mem1.objects 200 = some c ∧ c.m_CurrentState = fsm1.base.m_CurrentState ∧
        c.fields = fsm1.base.fields ∧
        c.m_UnexpectedEventHandler = fsm1.base.m_UnexpectedEventHandler) ∧
      mem1.objects 100 = some fsm1.base ∧
      (∀ a, a ≠ 200 → mem1.objects a = memory1.objects a) ∧
      ∀ evt : any Event Value,
        (∃ mem2 r calls2, mem1.process StateMachine_t evt 200 = some ((mem2, r), calls2) ∧
          mem2.objects 100 = some fsm1.base ∧
          ∀ a, a ≠ 200 → mem2.objects a = mem1.objects a) ∧
        (∃ mem2 r calls2, mem1.process StateMachine_t evt 100 = some ((mem2, r), calls2) ∧
          mem2.objects 200 = mem1.objects 200 ∧
          ∀ a, a ≠ 100 → mem2.objects a = mem1.objects a)) ∧
    (∃ mem1 mem2 mem3 mem4,
      memory1.construct_copy 200 100 = some (mem1, [.lock 100, .unlock 100]) ∧
      (mem1.objects 200).map (is_in_state State1) = some true ∧
      mem1.process StateMachine_t ⟨.Event1, .empty⟩ 100
        = some ((mem2, .returned ()), [.lock 100, .unlock 100]) ∧
      mem2.process StateMachine_t ⟨.Event3_int, .of_int 10⟩ 200
        = some ((mem3, .returned ()), [.lock 200, .unlock 200]) ∧
      (mem3.objects 100).map (is_in_state FinalState) = some true ∧
      (mem3.objects 200).map (is_in_state State2) = some true ∧
      (mem3.objects 100).map (fun c => c.fields.m_Event3Received) = some false ∧
      (mem3.objects 200).map (fun c => c.fields.m_EventBaseReceived) = some false ∧
      mem3.assign 200 100
        = some (mem4, [.lock 100, .lock 200, .unlock 200, .unlock 100]) ∧
      (mem4.objects 100).map (is_in_state FinalState) = some true ∧
      (mem4.objects 200).map (is_in_state FinalState) = some true) := by
  have h := copy_and_assignment StateMachine_t memory1 200 100 fsm1.base rfl (by decide)
  obtain ⟨mem1, e⟩ := h.1
  exact ⟨rfl, by decide, ⟨mem1, e, h.2.2 mem1 _ (Or.inl e)⟩,
    ⟨_, _, _, _, rfl, rfl, rfl, rfl, rfl, rfl, rfl, rfl, rfl, rfl, rfl⟩⟩

/-- C24, witness: the machines of the test `locking_copying`, at the addresses 100 and 200; both
assignments lock the machine at 100 first. -/
theorem assignment_lock_order_witness :
    fsm1.address ≠ fsm2.address ∧
    locking_state_machine.acquired (locking_state_machine.assign fsm1 fsm2).2
      = [min fsm1.address fsm2.address, max fsm1.address fsm2.address] ∧
    locking_state_machine.acquired (locking_state_machine.assign fsm2 fsm1).2
      = [min fsm1.address fsm2.address, max fsm1.address fsm2.address] ∧
    locking_state_machine.acquired (locking_state_machine.assign_other fsm1 fsm2).2
      = [min fsm1.address fsm2.address, max fsm1.address fsm2.address] ∧
    locking_state_machine.acquired (locking_state_machine.assign_other fsm2 fsm1).2
      = [min fsm1.address fsm2.address, max fsm1.address fsm2.address] ∧
    locking_state_machine.assign fsm1 fsm1 = (fsm1, []) :=
  ⟨by decide, assignment_lock_order fsm1 fsm2 (by decide)⟩

end LockingTest

namespace boost.fsm.aux

variable {n : Nat} {E V D R : Type}

/-- The plain pass is `List.map`. -/
theorem plain_pass_eq_map {α : Type} (step : Fin n → α) (l : List (Fin n)) :
    plain_pass step l = l.map step := by
  induction l with
  | nil => rfl
  | cons s rest ih => simp [plain_pass, ih]

/-- C31. The state info array and the dispatch table of every event type have `states_count`
entries, and the entry at position `i` is the one built for the state declared at position `i`,
whose `state_id` is `i`; the walks in chunks of five, over any list of states, give what a plain
pass from left to right over the list gives. -/
theorem tables_by_position (M : machine_type n E V D R) :
    (g_StatesInfoHolder M).length = states_count M ∧
    (∀ EventT : E, (state_dispatcher M EventT).length = states_count M) ∧
    (∀ StateT : Fin n, state_id StateT < states_count M ∧
      (g_StatesInfoHolder M)[state_id StateT]? = some (init_states_info_step M StateT) ∧
      (init_states_info_step M StateT).Shift = StateT ∧
      ∀ EventT : E, (state_dispatcher M EventT)[state_id StateT]?
        = some (init_process_functions_step M EventT StateT) ∧
        (init_process_functions_step M EventT StateT).second = StateT) ∧
    (∀ l : List (Fin n), inherited_states.init_states_info M l
      = plain_pass (init_states_info_step M) l) ∧
    (∀ (EventT : E) (l : List (Fin n)), inherited_states.init_process_functions M EventT l
      = plain_pass (init_process_functions_step M EventT) l) ∧
    g_StatesInfoHolder M = plain_pass (init_states_info_step M) (List.finRange n) ∧
    ∀ EventT : E, state_dispatcher M EventT
      = plain_pass (init_process_functions_step M EventT) (List.finRange n) := by
  refine ⟨?_, fun EventT => ?_, fun StateT => ⟨StateT.isLt, ?_, rfl, fun EventT => ⟨?_, ?_⟩⟩,
    fun l => ?_, fun EventT l => ?_, ?_, fun EventT => ?_⟩
  · simp [g_StatesInfoHolder, init_states_info_eq_map, states_count]
  · simp [state_dispatcher, init_process_functions_eq_map, states_count]
  · exact get_state_info_lt M StateT.val StateT.isLt
  · exact state_dispatcher_getElem? M EventT StateT
  · unfold init_process_functions_step do_init_process_functions
    split <;> rfl
  · rw [init_states_info_eq_map, plain_pass_eq_map]
  · rw [init_process_functions_eq_map, plain_pass_eq_map]
  · rw [g_StatesInfoHolder, init_states_info_eq_map, plain_pass_eq_map]
  · rw [state_dispatcher, init_process_functions_eq_map, plain_pass_eq_map]

/-- C32. For an identifier below `states_count`, `switch_to(id)` called on a state object does
what the static `switch_to< T >()` called on the same object does, `T` being the state declared
at position `id`: the machine that results, with its trace of hooks and its current state
identifier, and the outcome are the same, and so are those of a body that goes on after the
call. -/
theorem dynamic_switch_equals_static (M : machine_type n E V D R) (StateT : Fin n)
    (next_state_id : state_id_t) (h : next_state_id < states_count M)
    (c : states_compound n E V D R) :
    switch_to_id M StateT next_state_id c = switch_to M StateT ⟨next_state_id, h⟩ c ∧
    ∀ (α : Type) (k : body n D α),
      run M StateT (.switch_to_id next_state_id k) c
        = run M StateT (.switch_to ⟨next_state_id, h⟩ k) c := by
  have e := switch_to_id_eq_switch_to M StateT ⟨next_state_id, h⟩ c
  simp only [state_id] at e
  refine ⟨e, fun α k => ?_⟩
  simp only [run, e]

end boost.fsm.aux

namespace LockingTest

open boost boost.fsm boost.fsm.aux

/-- C32, witness: `switch_to(FinalState::state_id)` of `State2::on_process` in a machine of the
locking test that is in `State2`. -/
theorem dynamic_switch_equals_static_witness :
    state_id FinalState < states_count StateMachine_t ∧
    (switch_to_id StateMachine_t State2 (state_id FinalState)
        (process_all [⟨.Event2, .empty⟩] (basic_state_machine StateMachine_t))
      = switch_to StateMachine_t State2 ⟨state_id FinalState, by decide⟩
        (process_all [⟨.Event2, .empty⟩] (basic_state_machine StateMachine_t)) ∧
    ∀ (α : Type) (k : body 4 Fields α),
      run StateMachine_t State2 (.switch_to_id (state_id FinalState) k)
          (process_all [⟨.Event2, .empty⟩] (basic_state_machine StateMachine_t))
        = run StateMachine_t State2 (.switch_to ⟨state_id FinalState, by decide⟩ k)
          (process_all [⟨.Event2, .empty⟩] (basic_state_machine StateMachine_t))) :=
  ⟨by decide, dynamic_switch_equals_static StateMachine_t State2 (state_id FinalState)
    (by decide) _⟩

end LockingTest

namespace boost.fsm.aux

variable {n : Nat} {E V D R : Type}

/-- A leave or enter hook is not a `transit`. -/
theorem not_transit_of_switch_hook (x : call n E V) (h : x.is_switch_hook = true) :
    x.is_transit = false := by
  cases x <;> simp_all [call.is_switch_hook, call.is_transit]

/-- The run of a body calls no `transit`. -/
theorem run_no_transit (M : machine_type n E V D R) (S : Fin n) {α : Type} (b : body n D α)
    (c : states_compound n E V D R) :
    ∃ new, (run M S b c).1.calls = c.calls ++ new ∧ new.countP call.is_transit = 0 := by
  obtain ⟨hooks, hc, hh, _, _⟩ := run_switched M S b c
  refine ⟨hooks, hc, ?_⟩
  rw [List.countP_eq_zero]
  intro x hx
  simp [not_transit_of_switch_hook x (hh x hx)]

/-- The delivery of an event calls no `transit`. -/
theorem deliver_event_no_transit (M : machine_type n E V D R) (S : Fin n) (evt : any E V)
    (c : states_compound n E V D R) :
    ∃ new, (deliver_event M S evt c).1.calls = c.calls ++ new ∧
      new.countP call.is_transit = 0 := by
  unfold deliver_event
  rcases (M.states_type_list S).on_process evt.type with _ | handler
  · simp only [_on_unexpected_event]
    rcases c.m_UnexpectedEventHandler with _ | h
    · refine ⟨[], ?_, rfl⟩
      cases get_current_state_name M c <;> simp
    · simp only
      rcases h evt (M.states_type_list S).type (state_id S) with what | r
      · exact ⟨[_], rfl, rfl⟩
      · exact ⟨[_], rfl, rfl⟩
  · obtain ⟨new, hn, h0⟩ := run_no_transit M S (handler evt.value) (c.record (.on_process S evt))
    refine ⟨call.on_process S evt :: new, ?_, ?_⟩
    · rw [hn]
      simp [states_compound.record]
    · simpa [call.is_transit] using h0

/-- C33. A call of `process` calls at most one `transit`: when the first applicable rule for the
current state `S` has run and has left the machine in a state `T`, the event goes to `T` through
`deliver_event< T, E >`, whatever rules are applicable to `T` and the event. -/
theorem at_most_one_transit (M : machine_type n E V D R) (evt : any E V)
    (c : states_compound n E V D R) :
    (∃ new, (process M evt c).1.calls = c.calls ++ new ∧ new.countP call.is_transit ≤ 1) ∧
    ∀ (S T : Fin n) (R0 : rule n E V D) (pre post : List (rule n E V D))
      (c1 : states_compound n E V D R),
      c.m_CurrentState = state_id S →
      complete_transitions_type_list M S = pre ++ R0 :: post →
      R0.is_applicable S evt.type = true →
      (∀ R1 ∈ pre, R1.is_applicable S evt.type = false) →
      run M S (R0.transit S evt) (c.record (.transit R0.name S evt)) = (c1, .returned ()) →
      c1.m_CurrentState = state_id T →
      process M evt c = deliver_event M T evt c1 ∧
      ∃ new, (process M evt c).1.calls = c.calls ++ call.transit R0.name S evt :: new ∧
        new.countP call.is_transit = 0 := by
  constructor
  · unfold process
    rcases (state_dispatcher M evt.type)[get_current_state_id c]? with _ | e
    · exact ⟨[], by simp, by simp⟩
    · obtain ⟨first, second⟩ := e
      cases first with
      | deliver_event S =>
        obtain ⟨new, hn, h0⟩ := deliver_event_no_transit M S evt c
        exact ⟨new, hn, by omega⟩
      | perform_transition S T =>
        obtain ⟨hooks, hh, h0⟩ := run_no_transit M S (T.transit S evt)
          (c.record (.transit T.name S evt))
        simp only [call_process_fun, perform_transition]
        rcases hr : run M S (T.transit S evt) (c.record (.transit T.name S evt))
          with ⟨c1, _ | e1 | _⟩
        all_goals rw [hr] at hh
        all_goals simp only [states_compound.record, List.append_assoc,
          List.singleton_append] at hh
        · simp only
          rcases (state_dispatcher M evt.type)[get_current_state_id c1]? with _ | e2
          · exact ⟨call.transit T.name S evt :: hooks, hh, by simp [call.is_transit, h0]⟩
          · obtain ⟨new, hn, h1⟩ := deliver_event_no_transit M e2.second evt c1
            refine ⟨call.transit T.name S evt :: (hooks ++ new), ?_, ?_⟩
            · simp only [hn, hh, List.append_assoc, List.cons_append]
            · simp [call.is_transit, h0, h1]
        · exact ⟨call.transit T.name S evt :: hooks, hh, by simp [call.is_transit, h0]⟩
        · exact ⟨call.transit T.name S evt :: hooks, hh, by simp [call.is_transit, h0]⟩
  · intro S T R0 pre post c1 hc hl hR hpre hrun hT
    have hfind := find?_first (fun T : rule n E V D => T.is_applicable S evt.type)
      _ pre post R0 hl hR hpre
    have hp : process M evt c = deliver_event M T evt c1 := by
      rw [process_eq M S evt c hc]
      simp only [init_process_functions_step, hfind, do_init_process_functions, call_process_fun,
        perform_transition, hrun, get_current_state_id, hT, state_id,
        state_dispatcher_getElem?]
      congr 1
      split <;> rfl
    refine ⟨hp, ?_⟩
    obtain ⟨hooks, hh, h0⟩ := run_no_transit M S (R0.transit S evt)
      (c.record (.transit R0.name S evt))
    rw [hrun] at hh
    obtain ⟨new, hn, h1⟩ := deliver_event_no_transit M T evt c1
    refine ⟨hooks ++ new, ?_, ?_⟩
    · rw [hp, hn]
      simp only [states_compound.record, List.append_assoc, List.singleton_append] at hh
      simp only [hh, List.append_assoc, List.cons_append]
    · simp [h0, h1]

end boost.fsm.aux

namespace StaleSwitch

open boost boost.fsm boost.fsm.aux

/-- C33, witness: `process(Go)` in a new machine, which is in `A`. The rule of `A` for `Go`
leaves the machine in `B`; the rule of the machine for any state and `Go` is applicable to `B`,
and the event goes to the handler of `B` without it. -/
theorem at_most_one_transit_witness :
    (basic_state_machine Machine_t).m_CurrentState = state_id A ∧
    complete_transitions_type_list Machine_t A
      = [] ++ transition "fsm::transition<A, Go, B>" (.state A) Event.Go B ::
        [transition "fsm::transition<fsm::any_state, Go, C>" .any_state Event.Go C] ∧
    (transition "fsm::transition<fsm::any_state, Go, C>" .any_state Event.Go C :
      rule 3 Event Unit (List String)).is_applicable B Event.Go = true ∧
    process Machine_t ⟨.Go, ()⟩ (basic_state_machine Machine_t)
      = deliver_event Machine_t B ⟨.Go, ()⟩
        (switch_to Machine_t A B ((basic_state_machine Machine_t).record
          (.transit "fsm::transition<A, Go, B>" A ⟨.Go, ()⟩))).1 ∧
    ∃ new, (process Machine_t ⟨.Go, ()⟩ (basic_state_machine Machine_t)).1.calls
        = (basic_state_machine Machine_t).calls
          ++ call.transit "fsm::transition<A, Go, B>" A ⟨.Go, ()⟩ :: new ∧
      new.countP call.is_transit = 0 :=
  ⟨rfl, rfl, by decide,
    (at_most_one_transit Machine_t ⟨.Go, ()⟩ (basic_state_machine Machine_t)).2 A B
      (transition "fsm::transition<A, Go, B>" (.state A) Event.Go B) []
      [transition "fsm::transition<fsm::any_state, Go, C>" .any_state Event.Go C]
      (switch_to Machine_t A B ((basic_state_machine Machine_t).record
          (.transit "fsm::transition<A, Go, B>" A ⟨.Go, ()⟩))).1
      rfl rfl (by decide) (by simp) rfl rfl⟩

end StaleSwitch

namespace boost.fsm.aux

variable {n : Nat} {E V D R : Type}

/-- C34. When the first applicable rule for the current state `S` and the event has left the
machine in a state `T` that has no handler for the event, and no unexpected events handler is
installed, `process` throws `unexpected_event` with the type and the identifier of `T` (and the
event), and the machine stays as the transition left it, in `T`: the transition is not
undone. -/
theorem unexpected_event_after_transition (M : machine_type n E V D R) (evt : any E V)
    (c c1 : states_compound n E V D R) (S T : Fin n) (R0 : rule n E V D)
    (pre post : List (rule n E V D)) (hc : c.m_CurrentState = state_id S)
    (hl : complete_transitions_type_list M S = pre ++ R0 :: post)
    (hR : R0.is_applicable S evt.type = true)
    (hpre : ∀ R1 ∈ pre, R1.is_applicable S evt.type = false)
    (hrun : run M S (R0.transit S evt) (c.record (.transit R0.name S evt)) = (c1, .returned ()))
    (hT : c1.m_CurrentState = state_id T)
    (hh : (M.states_type_list T).on_process evt.type = none)
    (hnone : c.m_UnexpectedEventHandler = none) :
    ∃ e : unexpected_event E V,
      (process M evt c).2 = .thrown (.unexpected_event e) ∧
      e.current_state_type = (M.states_type_list T).type ∧
      e.current_state_id = state_id T ∧ e.event = evt ∧
      (process M evt c).1 = c1 ∧
      (process M evt c).1.m_CurrentState = state_id T := by
  obtain ⟨hp, hcur, hu, _⟩ := receives_process M evt c c1 T
    (receives.after_transit S T R0 pre post c1 hc hl hR hpre hrun hT)
  have hlt : c1.m_CurrentState < states_count M := by rw [hcur]; exact T.isLt
  have hfin : (⟨c1.m_CurrentState, hlt⟩ : Fin n) = T := Fin.ext hcur
  have hd : process M evt c = (c1, .thrown (.unexpected_event
      (unexpected_event.mk4 evt (M.states_type_list T).name (M.states_type_list T).type
        (state_id T)))) := by
    rw [hp]
    simp only [deliver_event, hh, _on_unexpected_event, hu, hnone,
      get_current_state_name_lt M c1 hlt, hfin]
  exact ⟨unexpected_event.mk4 evt (M.states_type_list T).name (M.states_type_list T).type
    (state_id T), by rw [hd], rfl, rfl, rfl, by rw [hd], by rw [hd]; exact hT⟩

end boost.fsm.aux

namespace CrossTransition

open boost boost.fsm boost.fsm.aux

/-- C34, witness: `process(Go)` in a new machine, which is in `Start`; the rule leaves the
machine in `Stop`, which has no handler, and the error names `Stop`. -/
theorem unexpected_event_after_transition_witness :
    (basic_state_machine Machine_t).m_CurrentState = state_id Start ∧
    complete_transitions_type_list Machine_t Start
      = [] ++ transition "fsm::transition<Start, Go, Stop>" (.state Start) () Stop :: [] ∧
    (Machine_t.states_type_list Stop).on_process () = none ∧
    (basic_state_machine Machine_t).m_UnexpectedEventHandler = none ∧
    ∃ e : unexpected_event Unit Unit,
      (process Machine_t ⟨(), ()⟩ (basic_state_machine Machine_t)).2
        = .thrown (.unexpected_event e) ∧
      e.current_state_type = (Machine_t.states_type_list Stop).type ∧
      e.current_state_id = state_id Stop ∧ e.event = ⟨(), ()⟩ ∧
      (process Machine_t ⟨(), ()⟩ (basic_state_machine Machine_t)).1
        = (switch_to Machine_t Start Stop ((basic_state_machine Machine_t).record
            (.transit "fsm::transition<Start, Go, Stop>" Start ⟨(), ()⟩))).1 ∧
      (process Machine_t ⟨(), ()⟩ (basic_state_machine Machine_t)).1.m_CurrentState
        = state_id Stop :=
  ⟨rfl, rfl, rfl, rfl,
    unexpected_event_after_transition Machine_t ⟨(), ()⟩ (basic_state_machine Machine_t)
      (switch_to Machine_t Start Stop ((basic_state_machine Machine_t).record
            (.transit "fsm::transition<Start, Go, Stop>" Start ⟨(), ()⟩))).1
      Start Stop (transition "fsm::transition<Start, Go, Stop>" (.state Start) () Stop) [] []
      rfl rfl (by decide) (by simp) rfl rfl rfl rfl⟩

end CrossTransition

namespace boost.fsm.aux

variable {n : Nat} {E V D R : Type}

/-- C35, amended. A switch, static or by identifier, called on the object of the current state
`A` with another declared state `B` as target, in which a hook throws: the switch throws what
the hook threw, and so does a body that makes the switch, without going on; the current state
identifier stays the one of `A`. When the leave hook of `A` throws, the enter hook of `B` is not called; when the
enter hook of `B` throws, the leave hook of `A` has been called before it. -/
theorem failed_hook_keeps_state (M : machine_type n E V D R) (A B : Fin n)
    (c : states_compound n E V D R) (hA : c.m_CurrentState = state_id A) (hAB : B ≠ A)
    (r : states_compound n E V D R × outcome E V Unit)
    (hr : r = switch_to M A B c ∨ r = switch_to_id M A (state_id B) c
      ∨ (∃ k, r = run M A (.switch_to B k) c) ∨ ∃ k, r = run M A (.switch_to_id (state_id B) k) c) :
    (∀ what, ((M.states_type_list A).on_leave_state c.fields).2 = some what →
      r.2 = .thrown (.user what) ∧ r.1.m_CurrentState = state_id A ∧
      r.1.calls = c.calls ++ [.on_leave_state A] ∧ call.on_enter_state B ∉ r.1.calls.drop
        c.calls.length) ∧
    (((M.states_type_list A).on_leave_state c.fields).2 = none →
      ∀ what, ((M.states_type_list B).on_enter_state
          ((M.states_type_list A).on_leave_state c.fields).1).2 = some what →
        r.2 = .thrown (.user what) ∧ r.1.m_CurrentState = state_id A ∧
        r.1.calls = c.calls ++ [.on_leave_state A, .on_enter_state B]) := by
  have hs := switch_to_other M A B c hAB
  have hr1 : (∀ what, (switch_to M A B c).2 = .thrown (.user what) →
        r = switch_to M A B c) := by
    intro what hw
    rcases hr with h | h | ⟨k, h⟩ | ⟨k, h⟩
    · exact h
    · rw [h, switch_to_id_eq_switch_to]
    · rw [h]
      simp only [run]
      rcases e : switch_to M A B c with ⟨c1, _ | e1 | _⟩
      · simp [e] at hw
      · rfl
      · simp [e] at hw
    · rw [h]
      simp only [run, switch_to_id_eq_switch_to]
      rcases e : switch_to M A B c with ⟨c1, _ | e1 | _⟩
      · simp [e] at hw
      · rfl
      · simp [e] at hw
  rcases e1 : (M.states_type_list A).on_leave_state c.fields with ⟨d1, _ | w1⟩
  · rw [e1] at hs
    simp only at hs
    refine ⟨fun what hw => by simp at hw, fun _ what hw => ?_⟩
    rcases e2 : (M.states_type_list B).on_enter_state d1 with ⟨d2, _ | w2⟩
    · simp [e2] at hw
    · rw [e2] at hw hs
      simp only [Option.some.injEq] at hw
      subst hw
      simp only at hs
      rw [hr1 w2 (by rw [hs]), hs]
      exact ⟨rfl, hA, rfl⟩
  · rw [e1] at hs
    simp only at hs
    refine ⟨fun what hw => ?_, fun h => by simp at h⟩
    simp only [Option.some.injEq] at hw
    subst hw
    rw [hr1 w1 (by rw [hs]), hs]
    exact ⟨rfl, hA, rfl, by simp⟩

end boost.fsm.aux

namespace FailingHooks

open boost boost.fsm boost.fsm.aux

/-- C35, amended, witness: in a new machine, which is in `Closed`, a switch to `Guarded` ends at
the leave hook of `Closed`, which throws; in a machine in `Open` a switch to `Guarded` ends at
the enter hook of `Guarded`, which throws. -/
theorem failed_hook_keeps_state_witness :
    ((basic_state_machine Machine_t).m_CurrentState = state_id Closed ∧ Guarded ≠ Closed ∧
      ((Machine_t.states_type_list Closed).on_leave_state
        (basic_state_machine Machine_t).fields).2 = some "Closed::on_leave_state" ∧
      (switch_to Machine_t Closed Guarded (basic_state_machine Machine_t)).2
        = .thrown (.user "Closed::on_leave_state") ∧
      (switch_to Machine_t Closed Guarded (basic_state_machine Machine_t)).1.m_CurrentState
        = state_id Closed) ∧
    (in_Open.m_CurrentState = state_id Open ∧ Guarded ≠ Open ∧
      ((Machine_t.states_type_list Open).on_leave_state in_Open.fields).2 = none ∧
      ((Machine_t.states_type_list Guarded).on_enter_state
        ((Machine_t.states_type_list Open).on_leave_state in_Open.fields).1).2
          = some "Guarded::on_enter_state" ∧
      (switch_to_id Machine_t Open (state_id Guarded) in_Open).2
        = .thrown (.user "Guarded::on_enter_state") ∧
      (switch_to_id Machine_t Open (state_id Guarded) in_Open).1.m_CurrentState
        = state_id Open ∧
      (switch_to_id Machine_t Open (state_id Guarded) in_Open).1.calls
        = in_Open.calls ++ [.on_leave_state Open, .on_enter_state Guarded]) :=
  ⟨⟨rfl, by decide, rfl,
      ((failed_hook_keeps_state Machine_t Closed Guarded (basic_state_machine Machine_t) rfl
        (by decide) _ (Or.inl rfl)).1 _ rfl).1,
      ((failed_hook_keeps_state Machine_t Closed Guarded (basic_state_machine Machine_t) rfl
        (by decide) _ (Or.inl rfl)).1 _ rfl).2.1⟩,
    ⟨rfl, by decide, rfl, rfl,
      (failed_hook_keeps_state Machine_t Open Guarded in_Open rfl (by decide) _
        (Or.inr (Or.inl rfl))).2 rfl _ rfl⟩⟩

end FailingHooks

namespace boost.fsm.aux

variable {n : Nat} {E V D R : Type}

/-- With a valid current state identifier no lookup of a static `switch_to` leaves the state
info array. -/
theorem switch_to_defined (M : machine_type n E V D R) (S T : Fin n)
    (c : states_compound n E V D R) : (switch_to M S T c).2 ≠ .undefined := by
  unfold switch_to
  simp only [get_state_info_lt M T.val T.isLt]
  split_ifs
  · rcases (M.states_type_list S).on_leave_state (c.record (.on_leave_state S)).fields
      with ⟨d1, _ | w1⟩
    · simp only
      rcases (M.states_type_list T).on_enter_state _ with ⟨d2, _ | w2⟩ <;> simp
    · simp
  · simp

/-- With a valid current state identifier no lookup of a `switch_to` by identifier leaves the
state info array. -/
theorem switch_to_id_defined (M : machine_type n E V D R) (S : Fin n) (i : state_id_t)
    (c : states_compound n E V D R) (hc : c.m_CurrentState < states_count M) :
    (switch_to_id M S i c).2 ≠ .undefined := by
  unfold switch_to_id
  split_ifs with h1 h2
  · simp only [get_state_info_lt M i h2]
    rcases (M.states_type_list S).on_leave_state (c.record (.on_leave_state S)).fields
      with ⟨d1, _ | w1⟩
    · simp only
      rcases (M.states_type_list (init_states_info_step M ⟨i, h2⟩).Shift).on_enter_state _
        with ⟨d2, _ | w2⟩ <;> simp
    · simp
  · simp [get_current_state_name_lt M c hc]
  · simp

/-- C36. In every reachable machine of a machine type with a state, the current state identifier
is below `states_count`, the number of entries of the state info array and of every dispatch
table: the lookup of `process` and the lookups of `get_current_state_type` and
`get_current_state_name` find an entry, and so does the second lookup of `perform_transition`
after any run of a `transit`. Any run of user code from such a machine leaves the identifier
below `states_count`, and with such an identifier every lookup of `switch_to`, static or by
identifier, finds its entry. -/
theorem lookups_in_bounds (M : machine_type n E V D R) (hn : 0 < states_count M)
    (c : states_compound n E V D R) (hr : reachable M c) :
    (g_StatesInfoHolder M).length = states_count M ∧
    (∀ EventT : E, (state_dispatcher M EventT).length = states_count M) ∧
    get_current_state_id c < states_count M ∧
    (∀ evt : any E V, ∃ e, (state_dispatcher M evt.type)[get_current_state_id c]? = some e ∧
      process M evt c = call_process_fun M e.first evt c) ∧
    (∃ info, _get_state_info M c.m_CurrentState = some info ∧
      get_current_state_type M c = some info.pTypeInfo ∧
      get_current_state_name M c = some info.pGetStateName) ∧
    (∀ (S : Fin n) (T : rule n E V D) (evt : any E V),
      get_current_state_id
        (run M S (T.transit S evt) (c.record (.transit T.name S evt))).1 < states_count M ∧
      ∃ e, (state_dispatcher M evt.type)[get_current_state_id
        (run M S (T.transit S evt) (c.record (.transit T.name S evt))).1]? = some e) ∧
    (∀ (S : Fin n) (α : Type) (b : body n D α) (c0 : states_compound n E V D R),
      c0.m_CurrentState < states_count M → (run M S b c0).1.m_CurrentState < states_count M) ∧
    ∀ c0 : states_compound n E V D R, c0.m_CurrentState < states_count M →
      ∀ S : Fin n, (∀ T : Fin n, (∃ info, _get_state_info M T.val = some info) ∧
          (switch_to M S T c0).2 ≠ .undefined) ∧
        ∀ next_state_id : state_id_t,
          (next_state_id < states_count M → ∃ info, _get_state_info M next_state_id = some info) ∧
          (switch_to_id M S next_state_id c0).2 ≠ .undefined := by
  have hc : c.m_CurrentState < states_count M := reachable_lt M hn c hr
  have hlook : ∀ (EventT : E) (i : Nat), i < states_count M →
      ∃ e, (state_dispatcher M EventT)[i]? = some e := fun EventT i hi =>
    ⟨_, state_dispatcher_getElem? M EventT ⟨i, hi⟩⟩
  refine ⟨?_, fun EventT => ?_, hc, fun evt => ?_, ?_, fun S T evt => ?_,
    fun S α b c0 h0 => run_lt M S b c0 h0, fun c0 h0 S => ⟨fun T => ?_, fun i => ?_⟩⟩
  · simp [g_StatesInfoHolder, init_states_info_eq_map, states_count]
  · simp [state_dispatcher, init_process_functions_eq_map, states_count]
  · obtain ⟨e, he⟩ := hlook evt.type _ hc
    exact ⟨e, he, by simp only [process, get_current_state_id, he]⟩
  · refine ⟨_, get_state_info_lt M _ hc, ?_, ?_⟩
    · simp [get_current_state_type, get_state_info_lt M _ hc]
    · simp [get_current_state_name, get_state_info_lt M _ hc]
  · have h1 := run_lt M S (T.transit S evt) (c.record (.transit T.name S evt)) hc
    exact ⟨h1, hlook evt.type _ h1⟩
  · exact ⟨⟨_, get_state_info_lt M T.val T.isLt⟩, switch_to_defined M S T c0⟩
  · exact ⟨fun hi => ⟨_, get_state_info_lt M i hi⟩, switch_to_id_defined M S i c0 h0⟩

end boost.fsm.aux

namespace TransitionsTest

open boost boost.fsm boost.fsm.aux

/-- C36, witness: the machine of the transitions test after `process(Event2())`, where the
lookup of `process(Event3< int >(10))` finds the entry for `State2`. -/
theorem lookups_in_bounds_witness :
    0 < states_count StateMachine_t ∧ reachable StateMachine_t in_State2 ∧
    get_current_state_id in_State2 < states_count StateMachine_t ∧
    ∃ e, (state_dispatcher StateMachine_t Event.Event3_int)[get_current_state_id in_State2]?
        = some e ∧
      process StateMachine_t ⟨.Event3_int, .of_int 10⟩ in_State2
        = call_process_fun StateMachine_t e.first ⟨.Event3_int, .of_int 10⟩ in_State2 :=
  ⟨by decide, reachable.process _ _ reachable.default_constructor,
    (lookups_in_bounds StateMachine_t (by decide) in_State2
      (reachable.process _ _ reachable.default_constructor)).2.2.1,
    (lookups_in_bounds StateMachine_t (by decide) in_State2
      (reachable.process _ _ reachable.default_constructor)).2.2.2.1
        ⟨.Event3_int, .of_int 10⟩⟩

end TransitionsTest

namespace EventsTest

open boost boost.fsm boost.fsm.aux

/-- The run of `CommonState::on_process(Memorize)` on the state object `S`. -/
theorem run_on_process_Memorize (S : Fin 2) (v : Int)
    (c : states_compound 2 Event Int CommonData Int) :
    run StreamCalc_t S (on_process_Memorize v) c
      = if v > 100 ∨ v < -100 then
          run StreamCalc_t S (.switch_to Overflow (.ret v))
            (switch_to StreamCalc_t S Calculating { c with fields := { Memory := v } }).1
        else
          ((switch_to StreamCalc_t S Calculating { c with fields := { Memory := v } }).1,
            .returned v) := by
  have hsw : ∀ T c0, ∃ c1, switch_to StreamCalc_t S T c0 = (c1, .returned ()) ∧
      c1.fields = c0.fields := by
    intro T c0
    obtain ⟨cur, h, f, calls⟩ := c0
    fin_cases S <;> fin_cases T <;> exact ⟨_, rfl, rfl⟩
  obtain ⟨c1, h1, hf⟩ := hsw Calculating { c with fields := { Memory := v } }
  simp only [on_process_Memorize, run, h1, check_bounds, hf]
  split_ifs with h
  · simp only [run]
    obtain ⟨c2, h2, hf2⟩ := hsw Overflow c1
    simp only [h2, hf2, hf]
  · simp only [run, hf]

end EventsTest

namespace EventsTest

open boost boost.fsm boost.fsm.aux

/-- What `process(Memorize(v))` is in a machine that is in the state `S`. -/
theorem process_Memorize (S : Fin 2) (v : Int)
    (c : states_compound 2 Event Int CommonData Int) (hc : c.m_CurrentState = state_id S) :
    process StreamCalc_t ⟨.Memorize, v⟩ c
      = run StreamCalc_t S (on_process_Memorize v) (c.record (.on_process S ⟨.Memorize, v⟩)) := by
  rw [process_eq StreamCalc_t S ⟨.Memorize, v⟩ c hc]
  fin_cases S <;> rfl

/-- C37. A new calculator is in `Calculating`, and `process(Memorize(1000))` leaves it in
`Overflow`. The calculator in `Overflow` is in `Calculating` after another
`process(Memorize(1000))`, though 1000 is above 100: the handler, run on the state object of
`Overflow`, switches to `Calculating`, and the `switch_to< Overflow >()` of `check_bounds`,
called on the same object, does nothing. -/
theorem Memorize_in_Overflow_ends_in_Calculating :
    is_in_state Calculating (basic_state_machine StreamCalc_t) = true ∧
    (process StreamCalc_t ⟨.Memorize, 1000⟩ (basic_state_machine StreamCalc_t)).1.m_CurrentState
      = state_id Overflow ∧
    (process StreamCalc_t ⟨.Memorize, 1000⟩ (basic_state_machine StreamCalc_t)).2
      = .returned 1000 ∧
    in_Overflow.m_CurrentState = state_id Overflow ∧
    (process StreamCalc_t ⟨.Memorize, 1000⟩ in_Overflow).2 = .returned 1000 ∧
    (process StreamCalc_t ⟨.Memorize, 1000⟩ in_Overflow).1.fields.Memory = 1000 ∧
    (process StreamCalc_t ⟨.Memorize, 1000⟩ in_Overflow).1.m_CurrentState
      = state_id Calculating ∧
    is_in_state Overflow (process StreamCalc_t ⟨.Memorize, 1000⟩ in_Overflow).1 = false := by
  decide

/-- What the code does from either state. In the calculator, for every integer `v`,
`process(Memorize(v))` returns `v` and leaves `v` in `Memory`; a machine that was in
`Calculating` is then in `Overflow` if `v > 100` or `v < -100` and in `Calculating` otherwise,
and a machine that was in `Overflow` is then in `Calculating`. -/
theorem Memorize_stores_and_returns (v : Int)
    (c : states_compound 2 Event Int CommonData Int)
    (hc : c.m_CurrentState = state_id Calculating ∨ c.m_CurrentState = state_id Overflow) :
    (process StreamCalc_t ⟨.Memorize, v⟩ c).2 = .returned v ∧
    (process StreamCalc_t ⟨.Memorize, v⟩ c).1.fields.Memory = v ∧
    (c.m_CurrentState = state_id Calculating →
      (process StreamCalc_t ⟨.Memorize, v⟩ c).1.m_CurrentState
        = if v > 100 ∨ v < -100 then state_id Overflow else state_id Calculating) ∧
    (c.m_CurrentState = state_id Overflow →
      (process StreamCalc_t ⟨.Memorize, v⟩ c).1.m_CurrentState = state_id Calculating) := by
  obtain ⟨cur, handler, fields, calls⟩ := c
  rcases hc with hc | hc
  · rw [process_Memorize Calculating v _ hc, run_on_process_Memorize]
    cases hc
    split_ifs with h
    · exact ⟨rfl, rfl, fun _ => rfl, fun h0 => absurd h0 (by simp [state_id, Overflow, Calculating])⟩
    · exact ⟨rfl, rfl, fun _ => rfl, fun h0 => absurd h0 (by simp [state_id, Overflow, Calculating])⟩
  · rw [process_Memorize Overflow v _ hc, run_on_process_Memorize]
    cases hc
    split_ifs with h
    · exact ⟨rfl, rfl, fun h0 => absurd h0 (by simp [state_id, Overflow, Calculating]), fun _ => rfl⟩
    · exact ⟨rfl, rfl, fun h0 => absurd h0 (by simp [state_id, Overflow, Calculating]), fun _ => rfl⟩

/-- An instance: `process(Memorize(-8))` in the calculator in `Overflow`, as in the test. -/
theorem Memorize_stores_and_returns_witness :
    (in_Overflow.m_CurrentState = state_id Calculating
      ∨ in_Overflow.m_CurrentState = state_id Overflow) ∧
    (process StreamCalc_t ⟨.Memorize, -8⟩ in_Overflow).2 = .returned (-8) ∧
    (process StreamCalc_t ⟨.Memorize, -8⟩ in_Overflow).1.fields.Memory = -8 ∧
    (in_Overflow.m_CurrentState = state_id Calculating →
      (process StreamCalc_t ⟨.Memorize, -8⟩ in_Overflow).1.m_CurrentState
        = if (-8 : Int) > 100 ∨ (-8 : Int) < -100 then state_id Overflow
          else state_id Calculating) ∧
    (in_Overflow.m_CurrentState = state_id Overflow →
      (process StreamCalc_t ⟨.Memorize, -8⟩ in_Overflow).1.m_CurrentState
        = state_id Calculating) :=
  ⟨Or.inr rfl, Memorize_stores_and_returns (-8) in_Overflow (Or.inr rfl)⟩

end EventsTest

namespace TransitionsTest

open boost boost.fsm boost.fsm.aux

/-- In `State2` an `Event3< T >` goes through `my_transition`. -/
theorem process_Event3_in_State2 (EventT : Event) (value : Value)
    (h : EventT = .Event3_int ∨ EventT = .Event3_string ∨ EventT = .Event3_double)
    (c : states_compound 4 Event Value Unit Unit) (hc : c.m_CurrentState = state_id State2) :
    process StateMachine_t ⟨EventT, value⟩ c
      = perform_transition StateMachine_t State2 my_transition ⟨EventT, value⟩ c := by
  rw [process_eq StateMachine_t State2 ⟨EventT, value⟩ c hc]
  rcases h with rfl | rfl | rfl <;> rfl

/-- C38. In the machine of the transitions test in `State2`: `process(Event3< int >(v))` leaves
the machine in `FinalState` if `v` is 10 and in `State2` otherwise;
`process(Event3< std::string >(s))` leaves it in `FinalState` if `s` is not empty and in `State2`
if it is; `process(Event3< double >(d))` and `process(Event2())` leave it in `State2`; each of
them returns. -/
theorem State2_transitions (c : states_compound 4 Event Value Unit Unit)
    (hc : c.m_CurrentState = state_id State2) :
    (∀ v : Int,
      (process StateMachine_t ⟨.Event3_int, .of_int v⟩ c).2 = .returned () ∧
      (process StateMachine_t ⟨.Event3_int, .of_int v⟩ c).1.m_CurrentState
        = if v = 10 then state_id FinalState else state_id State2) ∧
    (∀ s : String,
      (process StateMachine_t ⟨.Event3_string, .of_string s⟩ c).2 = .returned () ∧
      (process StateMachine_t ⟨.Event3_string, .of_string s⟩ c).1.m_CurrentState
        = if s ≠ "" then state_id FinalState else state_id State2) ∧
    (∀ d : Nat,
      (process StateMachine_t ⟨.Event3_double, .of_double d⟩ c).2 = .returned () ∧
      (process StateMachine_t ⟨.Event3_double, .of_double d⟩ c).1.m_CurrentState
        = state_id State2) ∧
    (process StateMachine_t ⟨.Event2, .empty⟩ c).2 = .returned () ∧
    (process StateMachine_t ⟨.Event2, .empty⟩ c).1.m_CurrentState = state_id State2 := by
  refine ⟨fun v => ?_, fun s => ?_, fun d => ?_, ?_⟩
  · rw [process_Event3_in_State2 _ _ (Or.inl rfl) c hc]
    obtain ⟨cur, handler, fields, calls⟩ := c
    cases hc
    simp only [perform_transition, my_transition]
    split_ifs with h
    · exact ⟨rfl, rfl⟩
    · exact ⟨rfl, rfl⟩
  · rw [process_Event3_in_State2 _ _ (Or.inr (Or.inl rfl)) c hc]
    obtain ⟨cur, handler, fields, calls⟩ := c
    cases hc
    simp only [perform_transition, my_transition]
    split_ifs with h
    · exact ⟨rfl, rfl⟩
    · exact ⟨rfl, rfl⟩
  · obtain ⟨cur, handler, fields, calls⟩ := c
    cases hc
    exact ⟨rfl, rfl⟩
  · obtain ⟨cur, handler, fields, calls⟩ := c
    cases hc
    exact ⟨rfl, rfl⟩

/-- C38, witness: the machine of the test after `process(Event2())` in a new machine. -/
theorem State2_transitions_witness :
    in_State2.m_CurrentState = state_id State2 ∧
    (process StateMachine_t ⟨.Event3_int, .of_int 10⟩ in_State2).2 = .returned () ∧
    (process StateMachine_t ⟨.Event3_int, .of_int 10⟩ in_State2).1.m_CurrentState
      = if (10 : Int) = 10 then state_id FinalState else state_id State2 :=
  ⟨rfl, (State2_transitions in_State2 rfl).1 10⟩

end TransitionsTest

namespace boost.detail.lw_call_once

/-- The steps of the Win32 variant, by the place of the thread. -/
theorem win32_step_ok : step_ok 2 win32.step := by
  refine ⟨by decide, by decide, ?_, ?_, ?_, ?_⟩
  · intro returns t p hp hq
    cases p <;> cases returns <;>
      simp_all [win32.step, pc.owner, win32.InterlockedCompareExchange,
        win32.BOOST_LWCO_INIT] <;> split_ifs at hq ⊢ <;> simp_all [pc.owner]
  · intro returns t p hp hq ht
    cases p <;> cases returns <;>
      simp_all [win32.step, pc.owner, win32.InterlockedCompareExchange,
        win32.BOOST_LWCO_INIT] <;> split_ifs at hq ⊢ <;> simp_all [pc.owner]
  · intro returns p hp hq
    cases p <;> cases returns <;>
      simp_all [win32.step, pc.owner, win32.InterlockedIncrement, win32.InterlockedExchange]
  · intro returns p hp hq
    cases p <;> cases returns <;>
      simp_all [win32.step, pc.owner, win32.InterlockedIncrement, win32.InterlockedExchange,
        win32.BOOST_LWCO_INIT]

/-- The steps of the Mac OS variant, by the place of the thread. -/
theorem macos_step_ok : step_ok 2 macos.step := by
  refine ⟨by decide, by decide, ?_, ?_, ?_, ?_⟩
  · intro returns t p hp hq
    cases p <;> cases returns <;>
      simp_all [macos.step, pc.owner, macos.OSAtomicAdd32Barrier,
        macos.OSAtomicCompareAndSwap32, macos.OSAtomicOr32] <;>
      split_ifs at hq ⊢ <;> simp_all [pc.owner]
  · intro returns t p hp hq ht
    rcases ht with rfl | rfl | rfl <;> cases p <;> cases returns <;>
      simp_all [macos.step, pc.owner, macos.OSAtomicAdd32Barrier,
        macos.OSAtomicCompareAndSwap32, macos.OSAtomicOr32]
  · intro returns p hp hq
    cases p <;> cases returns <;>
      simp_all [macos.step, pc.owner, macos.OSAtomicIncrement32Barrier,
        macos.OSAtomicAdd32Barrier, macos.OSAtomicAnd32]
  · intro returns p hp hq
    cases p <;> cases returns <;>
      simp_all [macos.step, pc.owner, macos.OSAtomicIncrement32Barrier,
        macos.OSAtomicAdd32Barrier, macos.OSAtomicAnd32]

/-- The steps of the BeOS variant, by the place of the thread. -/
theorem beos_step_ok : step_ok 3 beos.step := by
  refine ⟨by decide, by decide, ?_, ?_, ?_, ?_⟩
  · intro returns t p hp hq
    cases p <;> cases returns <;>
      simp_all [beos.step, pc.owner, beos.atomic_and, beos.atomic_or] <;>
      split_ifs at hq ⊢ <;> simp_all [pc.owner]
  · intro returns t p hp hq ht
    rcases ht with rfl | rfl | rfl <;> cases p <;> cases returns <;>
      simp_all [beos.step, pc.owner, beos.atomic_and, beos.atomic_or]
  · intro returns p hp hq
    cases p <;> cases returns <;>
      simp_all [beos.step, pc.owner, beos.atomic_and, beos.atomic_or]
  · intro returns p hp hq
    cases p <;> cases returns <;>
      simp_all [beos.step, pc.owner, beos.atomic_and, beos.atomic_or]

/-- A step of a thread keeps the trigger and the threads consistent and changes the trigger as
allowed. -/
theorem system.step_consistent (done : Nat) (step : Bool → Nat → pc → Nat × pc)
    (hs : step_ok done step) (s : system) (hc : s.consistent done) (i : Nat) (returns : Bool) :
    (s.step step i returns).consistent done ∧
      allowed_change done s.trigger (s.step step i returns).trigger := by
  obtain ⟨hd0, hd1, l1, l2, l3, l4⟩ := hs
  obtain ⟨ht, huniq, hiff⟩ := hc
  have hupd : ∀ j, (s.step step i returns).threads j
      = if j = i then (step returns s.trigger (s.threads i)).2 else s.threads j := by
    intro j
    simp only [system.step, Function.update_apply]
  cases hp : (s.threads i).owner <;> cases hq : (step returns s.trigger (s.threads i)).2.owner
  · have e := l2 returns s.trigger _ hp hq ht
    refine ⟨⟨?_, ?_, ?_⟩, Or.inl e⟩
    · have htr : (s.step step i returns).trigger = s.trigger := e
      rw [htr]; exact ht
    · intro j k hj hk
      rw [hupd] at hj hk
      split_ifs at hj hk with h1 h2 h2
      · rw [hq] at hj; cases hj
      · rw [hq] at hj; cases hj
      · rw [hq] at hk; cases hk
      · exact huniq j k hj hk
    · show _ ↔ (step returns s.trigger (s.threads i)).1 = 1
      rw [e, ← hiff]
      constructor
      · rintro ⟨j, hj⟩
        rw [hupd] at hj
        split_ifs at hj with h1
        · rw [hq] at hj; cases hj
        · exact ⟨j, hj⟩
      · rintro ⟨j, hj⟩
        refine ⟨j, ?_⟩
        rw [hupd]
        split_ifs with h1
        · subst h1; rw [hp] at hj; cases hj
        · exact hj
  · obtain ⟨e0, e1⟩ := l1 returns s.trigger _ hp hq
    have hnone : ∀ j, (s.threads j).owner = false := by
      intro j
      cases hj : (s.threads j).owner
      · rfl
      · have := hiff.mp ⟨j, hj⟩
        omega
    refine ⟨⟨Or.inr (Or.inl e1), ?_, ?_⟩, Or.inr (Or.inl ⟨e0, e1⟩)⟩
    · intro j k hj hk
      rw [hupd] at hj hk
      split_ifs at hj hk with h1 h2 h2
      · rw [h1, h2]
      · rw [hnone k] at hk; cases hk
      · rw [hnone j] at hj; cases hj
      · rw [hnone j] at hj; cases hj
    · exact ⟨fun _ => e1, fun _ => ⟨i, by rw [hupd]; simpa using hq⟩⟩
  · have e1 : s.trigger = 1 := hiff.mp ⟨i, hp⟩
    rw [e1] at hq
    have e := l4 returns _ hp hq
    have hne : (s.step step i returns).trigger ≠ 1 := by
      show (step returns s.trigger (s.threads i)).1 ≠ 1
      rw [e1]
      rcases e with e | e <;> omega
    have hnone : ∀ j, ((s.step step i returns).threads j).owner = false := by
      intro j
      rw [hupd]
      split_ifs with h1
      · rw [e1]; exact hq
      · cases hj : (s.threads j).owner
        · rfl
        · exact absurd (huniq j i hj hp) h1
    refine ⟨⟨?_, ?_, ?_⟩, ?_⟩
    · have htr : (s.step step i returns).trigger = (step returns 1 (s.threads i)).1 := by
        show (step returns s.trigger (s.threads i)).1 = _
        rw [e1]
      rw [htr]
      rcases e with e | e
      · exact Or.inl e
      · exact Or.inr (Or.inr e)
    · intro j k hj _
      rw [hnone j] at hj; cases hj
    · constructor
      · rintro ⟨j, hj⟩
        rw [hnone j] at hj; cases hj
      · intro h
        exact absurd h hne
    · show allowed_change done s.trigger (step returns s.trigger (s.threads i)).1
      rw [e1]
      rcases e with e | e
      · exact Or.inr (Or.inr (Or.inr ⟨rfl, e⟩))
      · exact Or.inr (Or.inr (Or.inl ⟨rfl, e⟩))
  · have e1 : s.trigger = 1 := hiff.mp ⟨i, hp⟩
    have hq1 := hq
    rw [e1] at hq1
    have e := l3 returns _ hp hq1
    have et : (s.step step i returns).trigger = s.trigger := by
      show (step returns s.trigger (s.threads i)).1 = s.trigger
      rw [e1]; exact e
    refine ⟨⟨by rw [et]; exact ht, ?_, ?_⟩, Or.inl et⟩
    · intro j k hj hk
      rw [hupd] at hj hk
      split_ifs at hj hk with h1 h2 h2
      · rw [h1, h2]
      · exact absurd (huniq k i hk hp) h2
      · exact absurd (huniq j i hj hp) h1
      · exact huniq j k hj hk
    · rw [et]
      exact ⟨fun _ => e1, fun _ => ⟨i, by rw [hupd]; simpa using hq⟩⟩

/-- Every reachable system is consistent. -/
theorem system.reachable_consistent (done : Nat) (step : Bool → Nat → pc → Nat × pc)
    (hs : step_ok done step) (s : system) (hr : system.reachable step s) :
    s.consistent done := by
  induction hr with
  | init =>
    refine ⟨Or.inl rfl, fun i j hi _ => by simp [system.init, pc.owner] at hi, ?_⟩
    simp [system.init, pc.owner]
  | step s i returns _ ih => exact (system.step_consistent done step hs s ih i returns).1

end boost.detail.lw_call_once

namespace boost.detail.lw_call_once

/-- C39. In the Win32 variant with interlocked functions and in the Mac OS variant (where a
trigger whose function object has returned holds 2) and in the BeOS variant with atomic
functions (where it holds 3), whatever threads make whatever steps in whatever order: the
trigger holds 0, 1 or that value; a step leaves it as it is or changes it from 0 to 1, from 1 to
that value, or from 1 to 0; and a trigger that holds that value keeps it. -/
theorem trigger_values_and_changes (done : Nat) (step : Bool → Nat → pc → Nat × pc)
    (hv : (done, step) ∈ [(2, win32.step), (2, macos.step), (3, beos.step)])
    (s : system) (hr : system.reachable step s) (i : Nat) (returns : Bool) :
    (s.trigger = 0 ∨ s.trigger = 1 ∨ s.trigger = done) ∧
    allowed_change done s.trigger (s.step step i returns).trigger ∧
    (s.trigger = done → (s.step step i returns).trigger = done) := by
  have hs : step_ok done step := by
    simp only [List.mem_cons, List.mem_singleton, List.not_mem_nil, or_false,
      Prod.mk.injEq] at hv
    rcases hv with ⟨rfl, rfl⟩ | ⟨rfl, rfl⟩ | ⟨rfl, rfl⟩
    · exact win32_step_ok
    · exact macos_step_ok
    · exact beos_step_ok
  have hc := system.reachable_consistent done step hs s hr
  have ha := (system.step_consistent done step hs s hc i returns).2
  refine ⟨hc.1, ha, fun hd => ?_⟩
  obtain ⟨hd0, hd1, _⟩ := hs
  rcases ha with h | ⟨h, _⟩ | ⟨h, _⟩ | ⟨h, _⟩
  · rw [h, hd]
  · exact absurd (hd.symm.trans h) hd0
  · exact absurd (hd.symm.trans h) hd1
  · exact absurd (hd.symm.trans h) hd1

end boost.detail.lw_call_once

namespace CallOnceTest

open boost.detail.lw_call_once

/-- C39, witness: two threads on a BeOS trigger. Thread 0 has claimed the trigger, which holds
1, and thread 1 waits; the step that ends the function object of thread 0 leaves the trigger as
it is, and the step after it stores 3, what the call of `call_once` alone stores. -/
theorem trigger_values_and_changes_witness :
    (3, beos.step) ∈ [(2, win32.step), (2, macos.step), (3, beos.step)] ∧
    system.reachable beos.step two_threads ∧
    ((two_threads.trigger = 0 ∨ two_threads.trigger = 1 ∨ two_threads.trigger = 3) ∧
      allowed_change 3 two_threads.trigger (two_threads.step beos.step 0 true).trigger ∧
      (two_threads.trigger = 3 → (two_threads.step beos.step 0 true).trigger = 3)) ∧
    two_threads.trigger = 1 ∧ two_threads.threads 0 = .running ∧
    two_threads.threads 1 = .waiting ∧
    (((two_threads.step beos.step 0 true).step beos.step 0 true).trigger = 3 ∧
      (beos.call_once 1 beos.BOOST_LWCO_INIT count 0).map (fun r => r.trigger) = some 3) :=
  ⟨by simp,
    .step _ _ _ (.step _ _ _ (.step _ _ _ (.step _ _ _ (.step _ _ _ (.step _ _ _ .init))))),
    trigger_values_and_changes 3 beos.step (by simp) two_threads
      (.step _ _ _ (.step _ _ _ (.step _ _ _ (.step _ _ _ (.step _ _ _ (.step _ _ _ .init))))))
      0 true,
    by decide, by decide, by decide, by decide, by decide⟩

end CallOnceTest

namespace boost.detail.lw_call_once

variable {W : Type}

/-- Each platform variant, with the calls of the platform successful, does on the triggers that
calls leave what the implementation for single-threaded programs does. -/
theorem platforms_refine (fuel created : Nat) (v : platform W)
    (hv : v ∈ platforms W (fuel + 1) created) : ∃ quiet, v.refines quiet := by
  simp only [platforms, List.mem_cons, List.mem_singleton, List.not_mem_nil, or_false] at hv
  rcases hv with rfl | rfl | rfl | rfl | rfl | rfl | rfl
  · refine ⟨fun t => t = 0 ∨ t = 2, Or.inl rfl, ?_⟩
    rintro t fn w (rfl | rfl)
    · rcases e : fn w with ⟨w1, _ | e1⟩ <;>
        simp [platform.like_single_thread, single_thread.call_once,
          single_thread.BOOST_LWCO_INIT, win32.call_once, win32.BOOST_LWCO_INIT,
          win32.InterlockedCompareExchange, win32.InterlockedIncrement,
          win32.InterlockedExchange, e]
    · simp [platform.like_single_thread, single_thread.call_once,
        single_thread.BOOST_LWCO_INIT, win32.call_once, win32.BOOST_LWCO_INIT,
        win32.InterlockedCompareExchange]
  · refine ⟨fun t => t.lock = false ∧ (t.done = 0 ∨ t.done = 1), ⟨rfl, Or.inl rfl⟩, ?_⟩
    rintro ⟨done, lock⟩ fn w ⟨hl, hd⟩
    simp only at hl hd
    subst hl
    rcases hd with rfl | rfl
    · rcases e : fn w with ⟨w1, _ | e1⟩ <;>
        simp [platform.like_single_thread, single_thread.call_once,
          single_thread.BOOST_LWCO_INIT, win32_srw.call_once,
          win32_srw.AcquireSRWLockExclusive, win32_srw.ReleaseSRWLockExclusive, e]
    · simp [platform.like_single_thread, single_thread.call_once,
        single_thread.BOOST_LWCO_INIT, win32_srw.call_once]
  · refine ⟨fun t => t.thread_count = 0 ∧ (t.done = false → t.mutex = .unlocked),
      ⟨rfl, fun _ => rfl⟩, ?_⟩
    rintro ⟨done, thread_count, mutex⟩ fn w ⟨hc, hm⟩
    simp only at hc hm
    subst hc
    cases done
    · have := hm rfl
      subst this
      rcases e : fn w with ⟨w1, _ | e1⟩ <;>
        simp [platform.like_single_thread, single_thread.call_once,
          single_thread.BOOST_LWCO_INIT, pthreads.call_once, pthreads.pthread_mutex_lock,
          pthreads.scoped_call_once_lock_destroy, pthreads.pthread_mutex_unlock,
          pthreads.pthread_mutex_destroy, pthreads.wait, e]
    · simp [platform.like_single_thread, single_thread.call_once,
        single_thread.BOOST_LWCO_INIT, pthreads.call_once]
  · refine ⟨fun t => t.lock = .unlocked, rfl, ?_⟩
    rintro ⟨done, lock⟩ fn w hl
    simp only at hl
    subst hl
    cases done
    · rcases e : fn w with ⟨w1, _ | e1⟩ <;>
        simp [platform.like_single_thread, single_thread.call_once,
          single_thread.BOOST_LWCO_INIT, pthreads_rwlock.call_once,
          pthreads_rwlock.pthread_rwlock_rdlock, pthreads_rwlock.pthread_rwlock_wrlock,
          pthreads_rwlock.pthread_rwlock_unlock, e]
    · simp [platform.like_single_thread, single_thread.call_once,
        single_thread.BOOST_LWCO_INIT, pthreads_rwlock.call_once,
        pthreads_rwlock.pthread_rwlock_rdlock, pthreads_rwlock.pthread_rwlock_unlock]
  · refine ⟨fun t => t = 0 ∨ t = 2, Or.inl rfl, ?_⟩
    rintro t fn w (rfl | rfl)
    · rcases e : fn w with ⟨w1, _ | e1⟩ <;>
        simp [platform.like_single_thread, single_thread.call_once,
          single_thread.BOOST_LWCO_INIT, macos.call_once, macos.BOOST_LWCO_INIT,
          macos.OSAtomicAdd32Barrier, macos.OSAtomicCompareAndSwap32,
          macos.OSAtomicIncrement32Barrier, macos.OSAtomicAnd32, e]
    · simp [platform.like_single_thread, single_thread.call_once,
        single_thread.BOOST_LWCO_INIT, macos.call_once, macos.OSAtomicAdd32Barrier]
  · refine ⟨fun t => t = 0 ∨ t = 3, Or.inl rfl, ?_⟩
    rintro t fn w (rfl | rfl)
    · rcases e : fn w with ⟨w1, _ | e1⟩ <;>
        simp [platform.like_single_thread, single_thread.call_once,
          single_thread.BOOST_LWCO_INIT, beos.call_once, beos.BOOST_LWCO_INIT,
          beos.atomic_and, beos.atomic_or, e]
    · simp [platform.like_single_thread, single_thread.call_once,
        single_thread.BOOST_LWCO_INIT, beos.call_once, beos.atomic_and]
  · refine ⟨fun t => t.lock = 0, rfl, ?_⟩
    rintro ⟨flag, lock, semaphore⟩ fn w hl
    simp only at hl
    subst hl
    have hc : ¬ ((created : Int) < 0) := not_lt.mpr (Int.ofNat_nonneg _)
    by_cases hs : semaphore = 0
    · subst hs
      cases flag
      · rcases e : fn w with ⟨w1, _ | e1⟩ <;>
          simp [platform.like_single_thread, single_thread.call_once,
            single_thread.BOOST_LWCO_INIT, beos_sem.call_once, beos_sem.atomic_add,
            beos.atomic_or, hc, e]
      · simp [platform.like_single_thread, single_thread.call_once,
          single_thread.BOOST_LWCO_INIT, beos_sem.call_once, beos_sem.atomic_add,
          beos.atomic_or, hc]
    · cases flag
      · rcases e : fn w with ⟨w1, _ | e1⟩ <;>
          simp [platform.like_single_thread, single_thread.call_once,
            single_thread.BOOST_LWCO_INIT, beos_sem.call_once, beos.atomic_or, hs, e]
      · simp [platform.like_single_thread, single_thread.call_once,
          single_thread.BOOST_LWCO_INIT, beos_sem.call_once, beos.atomic_or, hs]

end boost.detail.lw_call_once

namespace boost.detail.lw_call_once

variable {W : Type}

/-- A sequence of calls from a quiet trigger comes to an end and leaves a quiet trigger. -/
theorem call_sequence_quiet (v : platform W) (quiet : v.call_once_trigger → Prop)
    (hr : v.refines quiet) (fns : List (function_object W)) :
    ∀ h : history v.call_once_trigger W, quiet h.trigger →
      ∃ h1, call_sequence v.call_once fns h = some h1 ∧ quiet h1.trigger := by
  induction fns with
  | nil => exact fun h hq => ⟨h, rfl, hq⟩
  | cons fn rest ih =>
    intro h hq
    obtain ⟨r, hr1, hq1, _⟩ := hr.2 h.trigger fn h.world hq
    obtain ⟨h1, hh1, hq2⟩ := ih ⟨r.trigger, r.world, h.log ++ r.calls⟩ hq1
    exact ⟨h1, by simp only [call_sequence, hr1, hh1], hq2⟩

/-- C40, amended. Run by a single caller, one call after the other, with every call of the
platform that takes a lock or a semaphore successful, each of the seven platform variants of
`call_once` does what the implementation for single-threaded programs does on the flag that
tells whether the trigger is done: every call comes to an end; it executes the function object
exactly when the trigger is not done; the trigger is done after a call whose function object
returns; and when the function object throws, the call throws the same exception and the trigger
is still not done. -/
theorem platforms_like_single_thread (fuel created : Nat) (v : platform W)
    (hv : v ∈ platforms W (fuel + 1) created) (fns : List (function_object W)) (w : W) :
    ∃ h, call_sequence v.call_once fns
        { trigger := v.BOOST_LWCO_INIT, world := w, log := [] } = some h ∧
      ∀ fn : function_object W, ∃ r, v.call_once h.trigger fn h.world = some r ∧
        v.like_single_thread h.trigger fn h.world r ∧
        (r.calls ≠ [] ↔ v.is_done h.trigger = false) ∧
        ((fn h.world).2 = none → v.is_done r.trigger = true ∧ r.thrown = none) ∧
        (v.is_done h.trigger = false → ∀ e, (fn h.world).2 = some e →
          v.is_done r.trigger = false ∧ r.thrown = some e) := by
  obtain ⟨quiet, hq⟩ := platforms_refine fuel created v hv
  obtain ⟨h, hh, hqh⟩ := call_sequence_quiet v quiet hq fns ⟨v.BOOST_LWCO_INIT, w, []⟩ hq.1
  refine ⟨h, hh, fun fn => ?_⟩
  obtain ⟨r, hr, _, hl⟩ := hq.2 h.trigger fn h.world hqh
  refine ⟨r, hr, hl, ?_⟩
  obtain ⟨h1, _, h3, h4⟩ := hl
  rw [h1, h3, h4]
  cases v.is_done h.trigger <;> rcases e : fn h.world with ⟨w1, _ | e1⟩ <;>
    simp [single_thread.call_once, single_thread.BOOST_LWCO_INIT, e]

end boost.detail.lw_call_once

namespace CallOnceTest

open boost.detail.lw_call_once

/-- C40, counterexample: on the initial trigger of the BeOS variant with a semaphore, a call in
which `create_sem` fails throws without an execution of the function object, and so does a call
of the pthreads variant in which `pthread_mutex_lock` fails; the implementation for
single-threaded programs executes the function object. -/
theorem failed_lock_skips_function_object :
    beos_sem.BOOST_LWCO_INIT.flag = false ∧
    beos_sem.call_once 1 (-3) 0 beos_sem.BOOST_LWCO_INIT count 0
      = some { trigger := beos_sem.BOOST_LWCO_INIT, world := 0, calls := [],
               thrown := some
                 "lightweight call_once: failed to create semaphore, error code: -3" } ∧
    pthreads.BOOST_LWCO_INIT.done = false ∧
    pthreads.call_once 1 22 pthreads.BOOST_LWCO_INIT count 0
      = some { trigger := { done := false, thread_count := 1, mutex := .unlocked }, world := 0,
               calls := [],
               thrown := some
                 "lightweight call_once: pthread_mutex_lock failed, error code: 22" } ∧
    single_thread.call_once false count 0
      = { trigger := true, world := 1, calls := [true], thrown := none } := by
  decide

/-- C40, amended, witness: the pthreads variant with atomic functions after a call whose
function object threw and a call whose function object returned; the next call does
nothing. -/
theorem platforms_like_single_thread_witness :
    pthreads_atomics ∈ platforms Nat (0 + 1) 7 ∧
    ∃ h, call_sequence pthreads_atomics.call_once [fail, count]
        { trigger := pthreads_atomics.BOOST_LWCO_INIT, world := 0, log := [] } = some h ∧
      ∀ fn : function_object Nat, ∃ r, pthreads_atomics.call_once h.trigger fn h.world = some r ∧
        pthreads_atomics.like_single_thread h.trigger fn h.world r ∧
        (r.calls ≠ [] ↔ pthreads_atomics.is_done h.trigger = false) ∧
        ((fn h.world).2 = none → pthreads_atomics.is_done r.trigger = true ∧ r.thrown = none) ∧
        (pthreads_atomics.is_done h.trigger = false → ∀ e, (fn h.world).2 = some e →
          pthreads_atomics.is_done r.trigger = false ∧ r.thrown = some e) :=
  ⟨by simp [platforms, pthreads_atomics],
    platforms_like_single_thread 0 7 pthreads_atomics (by simp [platforms, pthreads_atomics])
      [fail, count] 0⟩

end CallOnceTest

namespace StaleSwitch

open boost boost.fsm boost.fsm.aux

/-- C3, witness. In `A` the rule of the state for `Go` and the rule of the machine for any state
and `Go` are both applicable, and the entry of `Go` for `A` is bound to the rule of the state;
in `C`, which has no rule of its own, the entry is bound to the rule of the machine; the entry
of `Twice` for `A`, to which no rule is applicable, is bound to `deliver_event`. -/
theorem dispatch_first_applicable_witness :
    ((Machine_t.states_type_list A).transitions_type_list ++ Machine_t.transitions_type_list
      = [transition "fsm::transition<A, Go, B>" (.state A) Event.Go B,
         transition "fsm::transition<fsm::any_state, Go, C>" .any_state Event.Go C]) ∧
    (transition "fsm::transition<fsm::any_state, Go, C>" .any_state Event.Go C :
      rule 3 Event Unit (List String)).is_applicable A Event.Go = true ∧
    (∃ e : entry 3 Event Unit (List String),
      (state_dispatcher Machine_t Event.Go)[state_id A]? = some e ∧ e.second = A ∧
      e.first = .perform_transition A
        (transition "fsm::transition<A, Go, B>" (.state A) Event.Go B)) ∧
    (∃ e : entry 3 Event Unit (List String),
      (state_dispatcher Machine_t Event.Go)[state_id C]? = some e ∧ e.second = C ∧
      e.first = .perform_transition C
        (transition "fsm::transition<fsm::any_state, Go, C>" .any_state Event.Go C)) ∧
    ∃ e : entry 3 Event Unit (List String),
      (state_dispatcher Machine_t Event.Twice)[state_id A]? = some e ∧ e.second = A ∧
      e.first = .deliver_event A := by
  obtain ⟨e1, h1, s1, b1, _⟩ := dispatch_first_applicable Machine_t A Event.Go
  obtain ⟨e2, h2, s2, b2, _⟩ := dispatch_first_applicable Machine_t C Event.Go
  obtain ⟨e3, h3, s3, _, d3⟩ := dispatch_first_applicable Machine_t A Event.Twice
  refine ⟨rfl, by decide,
    ⟨e1, h1, s1, b1 0 _ rfl (by decide) (fun j _ hj => absurd hj (Nat.not_lt_zero j))⟩,
    ⟨e2, h2, s2, b2 0 _ rfl (by decide) (fun j _ hj => absurd hj (Nat.not_lt_zero j))⟩,
    ⟨e3, h3, s3, ?_⟩⟩
  rcases d3 with ⟨hd, _, _⟩ | ⟨i, T, hi, _, hT, _, _⟩
  · exact hd
  · exfalso
    have hall : ∀ T1 ∈ (Machine_t.states_type_list A).transitions_type_list
        ++ Machine_t.transitions_type_list, T1.is_applicable A Event.Twice = false :=
      forall_mem_of_all _ _ (by decide)
    rw [hall T (List.getElem?_mem hi)] at hT
    cases hT

end StaleSwitch

namespace StaleSwitch

open boost boost.fsm boost.fsm.aux

/-- C6, counterexample. A body run on `A` in a new machine calls `switch_to< B >()` and then
`switch_to< C >()` (or `switch_to(2)`). At the second call the machine is in `B`, and the switch
from `B` to `C` calls the leave hook of `A`, on whose object it is made, and not the leave hook
of `B`. -/
theorem stale_switch_calls_leave_hook_of_issuer :
    (after_first_switch .Twice).m_CurrentState = state_id B ∧
    (switch_to Machine_t A C (after_first_switch .Twice)).2 = .returned () ∧
    (switch_to Machine_t A C (after_first_switch .Twice)).1.calls
      = (after_first_switch .Twice).calls ++ [.on_leave_state A, .on_enter_state C] ∧
    call.on_leave_state B ∉ (switch_to Machine_t A C (after_first_switch .Twice)).1.calls ∧
    (switch_to Machine_t A C (after_first_switch .Twice)).1.m_CurrentState = state_id C ∧
    switch_to_id Machine_t A 2 (after_first_switch .Twice)
      = switch_to Machine_t A C (after_first_switch .Twice) ∧
    (run Machine_t A (.switch_to B (.switch_to C (.ret ()))) (basic_state_machine Machine_t)).1.calls
      = [.on_leave_state A, .on_enter_state B, .on_leave_state A, .on_enter_state C] ∧
    (run Machine_t A (.switch_to B (.switch_to C (.ret ())))
      (basic_state_machine Machine_t)).1.fields
      = ["A::on_leave_state", "B::on_enter_state", "A::on_leave_state"] :=
  ⟨rfl, rfl, by decide, by decide, rfl, rfl, by decide, by decide⟩

end StaleSwitch

namespace FailingHooks

open boost boost.fsm boost.fsm.aux

/-- C35, counterexample. A body run on `Open` in a machine that is in `Open` calls
`switch_to< Closed >()` and then `switch_to< Guarded >()`. At the second call the machine is in
`Closed`; the enter hook of `Guarded` throws, and the leave hook that has run before it is the
one of `Open`, on whose object the call is made: the leave hook of `Closed` has not run. -/
theorem stale_switch_skips_leave_hook_of_current :
    (switch_to Machine_t Open Closed in_Open).1.m_CurrentState = state_id Closed ∧
    (switch_to Machine_t Open Guarded (switch_to Machine_t Open Closed in_Open).1).2
      = .thrown (.user "Guarded::on_enter_state") ∧
    (switch_to Machine_t Open Guarded (switch_to Machine_t Open Closed in_Open).1).1.calls
      = [.on_leave_state Open, .on_enter_state Closed, .on_leave_state Open,
         .on_enter_state Guarded] ∧
    call.on_leave_state Closed
      ∉ (switch_to Machine_t Open Guarded (switch_to Machine_t Open Closed in_Open).1).1.calls ∧
    (switch_to Machine_t Open Guarded
      (switch_to Machine_t Open Closed in_Open).1).1.m_CurrentState = state_id Closed ∧
    run Machine_t Open (.switch_to Closed (.switch_to Guarded (.ret ()))) in_Open
      = switch_to Machine_t Open Guarded (switch_to Machine_t Open Closed in_Open).1 :=
  ⟨rfl, rfl, by decide, by decide, rfl, rfl⟩

end FailingHooks
namespace boost.detail.lw_call_once

/-- In the lock-free variants, whatever threads make whatever steps in whatever order: at most
one thread is between the claim of the trigger and its release, where the function object is
executed, and this is so exactly while the trigger holds 1; a thread at the condition of the
outer `while` leaves `call_once` exactly when the trigger holds the value of a trigger whose
function object has returned. -/
theorem lock_free_one_runner (done : Nat) (step : Bool → Nat → pc → Nat × pc)
    (hv : (done, step) ∈ [(2, win32.step), (2, macos.step), (3, beos.step)])
    (s : system) (hr : system.reachable step s) :
    (∀ i j, (s.threads i).owner = true → (s.threads j).owner = true → i = j) ∧
    ((∃ i, (s.threads i).owner = true) ↔ s.trigger = 1) ∧
    ∀ returns, (step returns s.trigger .loop).2 = .outside ↔ s.trigger = done := by
  simp only [List.mem_cons, List.mem_singleton, List.not_mem_nil, or_false,
    Prod.mk.injEq] at hv
  rcases hv with ⟨rfl, rfl⟩ | ⟨rfl, rfl⟩ | ⟨rfl, rfl⟩
  · obtain ⟨h1, h2, h3⟩ := system.reachable_consistent 2 win32.step win32_step_ok s hr
    refine ⟨h2, h3, fun returns => ?_⟩
    rcases h1 with h | h | h <;>
      simp [win32.step, win32.InterlockedCompareExchange, win32.BOOST_LWCO_INIT, h]
  · obtain ⟨h1, h2, h3⟩ := system.reachable_consistent 2 macos.step macos_step_ok s hr
    refine ⟨h2, h3, fun returns => ?_⟩
    rcases h1 with h | h | h <;> simp [macos.step, macos.OSAtomicAdd32Barrier, h]
  · obtain ⟨h1, h2, h3⟩ := system.reachable_consistent 3 beos.step beos_step_ok s hr
    refine ⟨h2, h3, fun returns => ?_⟩
    rcases h1 with h | h | h <;> simp [beos.step, beos.atomic_and, h]

end boost.detail.lw_call_once

namespace CallOnceTest

open boost.detail.lw_call_once

/-- C28. In the BeOS implementation with a semaphore, three threads call `call_once` on one
initial trigger and `create_sem` fails in the thread that has taken the lock of the creation.
When thread 0 is at `create_sem` the lock holds 1; when it has thrown, the trigger holds its
initial value and the two other threads are at the condition of the `while`, which they both
leave for `create_sem`. After the steps of `failed_creation` they are both inside their function
objects, each holding a semaphore of its own, while the flag is not set and thread 0 has left
the call; after the steps of `both_return` two executions of the function object have returned
on the one trigger. A thread that is alone makes its call in twelve steps, with one execution,
and leaves the trigger that the function `call_once` of one caller leaves. -/
theorem two_threads_run_function_object :
    (beos_sem.system.init.run (failed_creation.take 14)).trigger
      = { flag := false, lock := 1, semaphore := 0 } ∧
    ((beos_sem.system.init.run (failed_creation.take 14)).threads 0).position = .create ∧
    (beos_sem.system.init.run (failed_creation.take 16)).trigger = beos_sem.BOOST_LWCO_INIT ∧
    ((beos_sem.system.init.run (failed_creation.take 16)).threads 1).position = .waiting ∧
    ((beos_sem.system.init.run (failed_creation.take 16)).threads 2).position = .waiting ∧
    ((beos_sem.system.init.run (failed_creation.take 20)).threads 1).position = .create ∧
    ((beos_sem.system.init.run (failed_creation.take 20)).threads 2).position = .create ∧
    ((beos_sem.system.init.run failed_creation).threads 0).position = .outside ∧
    (beos_sem.system.init.run failed_creation).threads 1 = { position := .running, sem := 5 } ∧
    (beos_sem.system.init.run failed_creation).threads 2 = { position := .running, sem := 6 } ∧
    (beos_sem.system.init.run failed_creation).trigger.flag = false ∧
    (beos_sem.system.init.run failed_creation).trigger.semaphore = 7 ∧
    (beos_sem.system.init.run failed_creation).semaphores 5 = some 0 ∧
    (beos_sem.system.init.run failed_creation).semaphores 6 = some 0 ∧
    (beos_sem.system.init.run failed_creation).calls = [] ∧
    ((beos_sem.system.init.run failed_creation).run both_return).calls = [true, true] ∧
    ((beos_sem.system.init.run failed_creation).run both_return).trigger.flag = true ∧
    (∀ i, i < 3 →
      (((beos_sem.system.init.run failed_creation).run both_return).threads i).position
        = .outside) ∧
    (beos_sem.system.init.run (List.replicate 12 (0, 7, true))).trigger
      = { flag := true, lock := 0, semaphore := 7 } ∧
    (beos_sem.system.init.run (List.replicate 12 (0, 7, true))).calls = [true] ∧
    ((beos_sem.system.init.run (List.replicate 12 (0, 7, true))).threads 0).position
      = .outside ∧
    beos_sem.call_once 1 7 0 beos_sem.BOOST_LWCO_INIT count 0
      = some { trigger := { flag := true, lock := 0, semaphore := 7 }, world := 1,
               calls := [true], thrown := none } := by
  decide

end CallOnceTest
